import Mathlib

/-!
# HDPC drive controller (`src/examples/hdpc_drive/src/hdpc_drive.cpp`)

A shallow embedding of the class `HDPCDrive`: the command synthesis
(`vel_and_steering`, `drive_rover`), the motion primitives (`stop_rover`,
`init_rotation`), the mode state machine (`set_mode`), the message handlers
and one iteration of `main_loop`.

Numbers.  The values of type `double` are idealised as elements of an ordered
field `F` with exact arithmetic; the functions of `math.h` that the source
calls are collected in a record `Libm F`, with the real-number instance
`realLibm`.  The only non-real values that the source can produce from real
inputs, the results of a division by zero, are kept: `Dbl F` adds the two
infinities and NaN to `F`.  `unsigned int` is `Nat`, with the one subtraction
of the source taken modulo `2 ^ 32`.

The type `float`.  The parameters `velocity` and `omega` of `drive_rover` are
`float` while the speed limits, the message fields and the results of the
arithmetic on the geometry are `double`: every value that the source stores
in one of the two parameters, and their quotient `r`, which the source
computes in `float`, is rounded to the nearest `float` by `to_float32`
(IEEE 754 binary32: a significand of 24 bits, ties to the even significand,
subnormal numbers below `2 ^ (-126)`).  The exponent has no upper limit in
`to_float32`: the overflow to an infinity, which needs a magnitude above
`3.4e38`, is not modelled.  The wheel offsets that `drive_rover` passes to
`vel_and_steering` and the arithmetic of `vel_and_steering` are kept exact
(the declaration of the geometry is not part of the sources).

External collaborators.  `ros::Time::now()` is an argument `now`; the outcome
of a call of the hardware state-machine service is an argument of `set_mode`;
the events sent to that service are logged in the field `sm_calls`; what a
handler publishes is part of its result.
-/

namespace HDPC

/-! ## Values of type `double` -/

/-- A `double` as far as this development distinguishes it: a number of the
field, an infinity with its sign, or NaN. -/
inductive Dbl (F : Type) where
  | fin (x : F)
  | inf (negative : Bool)
  | nan
deriving DecidableEq

namespace Dbl

variable {F : Type} [LinearOrderedField F]

/-- IEEE `a < b`: false as soon as one side is NaN. -/
def lt : Dbl F → Dbl F → Bool
  | fin a, fin b => decide (a < b)
  | fin _, inf n => !n
  | inf n, fin _ => n
  | inf n, inf k => n && !k
  | _, _ => false

/-- IEEE `a <= b`: false as soon as one side is NaN. -/
def le : Dbl F → Dbl F → Bool
  | fin a, fin b => decide (a ≤ b)
  | fin _, inf n => !n
  | inf n, fin _ => n
  | inf n, inf k => n || !k
  | _, _ => false

/-- IEEE `a / b`.  A zero divisor is taken as `+0.0` (a divisor `-0.0` gives
the infinity of the other sign), and a quotient by an infinity is `0`. -/
def div : Dbl F → Dbl F → Dbl F
  | fin a, fin b =>
      if b = 0 then (if a = 0 then nan else inf (decide (a < 0))) else fin (a / b)
  | fin _, inf _ => fin 0
  | inf n, fin b => inf (xor n (decide (b < 0)))
  | inf _, inf _ => nan
  | _, _ => nan

/-- The statement `x *= -1`. -/
def negate : Dbl F → Dbl F
  | fin a => fin (a * (-1))
  | inf n => inf (!n)
  | nan => nan

/-- The template `std::max(a, b)`, which is `(a < b) ? b : a`. -/
def stdmax (a b : Dbl F) : Dbl F := if lt a b then b else a

end Dbl

/-! ## Values of type `float` -/

/-- The integer nearest to `x`, the even one of the two when `x` is half-way:
the quotient that C `remainder` subtracts, and the significand that the
conversion to `float` keeps. -/
def roundHalfEven {F : Type} [LinearOrderedField F] [FloorRing F] (x : F) : ℤ :=
  if x - ⌊x⌋ < 1 / 2 then ⌊x⌋
  else if 1 / 2 < x - ⌊x⌋ then ⌊x⌋ + 1
  else if ⌊x⌋ % 2 = 0 then ⌊x⌋ else ⌊x⌋ + 1

/-- The exponent of `x` in the format `float`: the integer `e` with
`2 ^ e <= |x| < 2 ^ (e + 1)`, and the least exponent -126 for the subnormal
numbers.  (At 0 the exponent is immaterial.) -/
def float_exponent {F : Type} [LinearOrderedField F] [FloorRing F] (x : F) : ℤ :=
  max (Int.log 2 |x|) (-126)

/-- The distance between two neighbouring `float` values at `x`: one unit of
the last of the 24 bits of the significand. -/
def float_ulp {F : Type} [LinearOrderedField F] [FloorRing F] (x : F) : F :=
  (2 : F) ^ (float_exponent x - 23)

/-- The conversion of a `double` to `float`, which the language applies when
a `double` is stored in a `float` variable or passed for a `float` parameter:
the nearest multiple of `float_ulp x`, the one with the even significand when
`x` is half-way between two. -/
def to_float32 {F : Type} [LinearOrderedField F] [FloorRing F] (x : F) : F :=
  (roundHalfEven (x / float_ulp x) : F) * float_ulp x

/-- The quotient `a / b` of two `float` values (line 143): the operands are
`float`, so the division is that of `float`, the quotient rounded to the
nearest `float`; the results of a division by zero are as in `Dbl.div`. -/
def float_div {F : Type} [LinearOrderedField F] [FloorRing F] (a b : F) : Dbl F :=
  match Dbl.div (Dbl.fin a) (Dbl.fin b) with
  | Dbl.fin q => Dbl.fin (to_float32 q)
  | d => d

/-! ## Declarations of the headers that are not part of the sources -/

/-- Modelled from the spec: the functions and the constant of `math.h` used by
the source (`atan2`, `sqrt`, `remainder`, `M_PI`), as operations on `F`. -/
structure Libm (F : Type) where
  atan2 : F → F → F
  sqrt : F → F
  remainder : F → F → F
  M_PI : F

/-- Modelled from the spec: `hdpc_com::HDPCGeometry` (`HDPCGeometry.h` is
missing), the immutable record of rover dimensions with the fields the source
reads. -/
structure HDPCGeometry (F : Type) where
  rover_center_to_front : F
  rover_center_to_rear : F
  rover_width : F
  rover_wheel_width : F
  rover_wheel_radius : F
  rover_max_steering_velocity : F

/-- Modelled from the spec: the message `hdpc_com::Readings` (its declaration
is missing), of which the source reads the ten positions. -/
structure Readings (F : Type) where
  position : Fin 10 → F

/-- Modelled from the spec: the message `hdpc_com::Commands` (its declaration
is missing): a time stamp and ten slots of `isActive`, `velocity`,
`position`. -/
structure Commands (F : Type) where
  stamp : Nat
  isActive : Fin 10 → Bool
  velocity : Fin 10 → Dbl F
  position : Fin 10 → F

/-- Modelled from the spec: the wheel indices `DirectDrive::WHEEL_*` (the
message declaration is missing). -/
inductive Wheel where
  | WHEEL_FRONT_LEFT | WHEEL_FRONT_RIGHT
  | WHEEL_MIDDLE_LEFT | WHEEL_MIDDLE_RIGHT
  | WHEEL_REAR_LEFT | WHEEL_REAR_RIGHT
deriving DecidableEq

/-- Modelled from the spec: the message `hdpc_drive::DirectDrive` (its
declaration is missing), two arrays indexed by `WHEEL_*`. -/
structure DirectDrive (F : Type) where
  velocities_rad_per_sec : Wheel → F
  steering_rad : Wheel → F

/-- Modelled from the spec: the part of `geometry_msgs::Twist` the source
reads, `linear.x` and `angular.z`. -/
structure Twist (F : Type) where
  linear_x : F
  angular_z : F

/-- Modelled from the spec: the request of the service `SetControlMode`. -/
structure SetControlModeRequest where
  request_mode : Nat
deriving DecidableEq

/-- Modelled from the spec: the response of the service `SetControlMode`. -/
structure SetControlModeResponse where
  result : Bool
  result_mode : Nat
deriving DecidableEq

/-- Modelled from the spec: the events of `HDPCStateMachineEnums.h` that the
source sends to the hardware state machine. -/
inductive SMEvent where
  | EVENT_READ_STATE | EVENT_START | EVENT_STOP
deriving DecidableEq

/-- Modelled from the spec: the message `hdpc_drive::Status` published by the
feedback handler. -/
structure Status (F : Type) where
  stamp : Nat
  control_mode : Nat
  motors : Readings F

/-! Modelled from the spec: the constants of `HDPCConst.h` and
`HDPCStateMachineEnums.h`, numbered in the order in which the spec lists them.
The source puts the six modes in one `switch` and the four hardware states in
another, so the values of each group are pairwise distinct. -/

/-- Modelled from the spec: `HDPCConst::MODE_INIT`. -/
def MODE_INIT : Nat := 0
/-- Modelled from the spec: `HDPCConst::MODE_INIT_ROTATION`. -/
def MODE_INIT_ROTATION : Nat := 1
/-- Modelled from the spec: `HDPCConst::MODE_ROTATION`. -/
def MODE_ROTATION : Nat := 2
/-- Modelled from the spec: `HDPCConst::MODE_ACKERMANN`. -/
def MODE_ACKERMANN : Nat := 3
/-- Modelled from the spec: `HDPCConst::MODE_DIRECT_DRIVE`. -/
def MODE_DIRECT_DRIVE : Nat := 4
/-- Modelled from the spec: `HDPCConst::MODE_STOPPED`. -/
def MODE_STOPPED : Nat := 5

/-- Modelled from the spec: hardware state `SM_INIT`. -/
def SM_INIT : Nat := 0
/-- Modelled from the spec: hardware state `SM_STOP`. -/
def SM_STOP : Nat := 1
/-- Modelled from the spec: hardware state `SM_DRIVE`. -/
def SM_DRIVE : Nat := 2
/-- Modelled from the spec: hardware state `SM_FAULT`. -/
def SM_FAULT : Nat := 3

/-- Modelled from the spec: `HDPCConst::DRIVE_FRONT_LEFT`; slots 0 to 5 are
the drive wheels. -/
def DRIVE_FRONT_LEFT : Fin 10 := 0
/-- Modelled from the spec: `HDPCConst::DRIVE_FRONT_RIGHT`. -/
def DRIVE_FRONT_RIGHT : Fin 10 := 1
/-- Modelled from the spec: `HDPCConst::DRIVE_MIDDLE_LEFT`. -/
def DRIVE_MIDDLE_LEFT : Fin 10 := 2
/-- Modelled from the spec: `HDPCConst::DRIVE_MIDDLE_RIGHT`. -/
def DRIVE_MIDDLE_RIGHT : Fin 10 := 3
/-- Modelled from the spec: `HDPCConst::DRIVE_REAR_LEFT`. -/
def DRIVE_REAR_LEFT : Fin 10 := 4
/-- Modelled from the spec: `HDPCConst::DRIVE_REAR_RIGHT`. -/
def DRIVE_REAR_RIGHT : Fin 10 := 5
/-- Modelled from the spec: `HDPCConst::STEERING_FRONT_LEFT`; slots 6 to 9 are
the steering actuators. -/
def STEERING_FRONT_LEFT : Fin 10 := 6
/-- Modelled from the spec: `HDPCConst::STEERING_FRONT_RIGHT`. -/
def STEERING_FRONT_RIGHT : Fin 10 := 7
/-- Modelled from the spec: `HDPCConst::STEERING_REAR_LEFT`. -/
def STEERING_REAR_LEFT : Fin 10 := 8
/-- Modelled from the spec: `HDPCConst::STEERING_REAR_RIGHT`. -/
def STEERING_REAR_RIGHT : Fin 10 := 9

/-! ## The controller -/

/-- Constant `WATCHDOG_INIT` (line 40). -/
def WATCHDOG_INIT : Nat := 100

/-- The statement `x -= 1` on a 32-bit `unsigned int`, which is `x - 1` modulo
`2 ^ 32`: the value 0 wraps around to `2 ^ 32 - 1`. -/
def uint_decrement (x : Nat) : Nat := if x = 0 then 4294967295 else x - 1

/-- The data members of the class `HDPCDrive` (lines 22-43), and the log
`sm_calls` of the events sent through `state_machine_client`. -/
structure HDPCDrive (F : Type) where
  geom : HDPCGeometry F
  max_rotation_speed_rad_per_s : F
  max_linear_speed_m_per_s : F
  control_mode : Nat
  watchdog : Nat
  motors : Readings F
  commands : Commands F
  sm_calls : List SMEvent

/-- Indices of the loops `for (i=0;i<6;i++)`. -/
def driveSlots : List (Fin 10) := [0, 1, 2, 3, 4, 5]

/-- Indices of the loops `for (i=6;i<10;i++)`. -/
def steeringSlots : List (Fin 10) := [6, 7, 8, 9]

/-- Indices of the loops `for (i=0;i<10;i++)`. -/
def allSlots : List (Fin 10) := [0, 1, 2, 3, 4, 5, 6, 7, 8, 9]

section Controller

variable {F : Type} [LinearOrderedField F]

/-- The loop of lines 54-57 and 91-94: every drive slot inactive with zero
velocity. -/
def clear_drive (c : Commands F) : Commands F :=
  driveSlots.foldl
    (fun c i => { c with isActive := Function.update c.isActive i false,
                         velocity := Function.update c.velocity i (Dbl.fin 0) }) c

/-- The loop of lines 58-61 and 95-98: every steering slot active with the
target `desired i`. -/
def steer_to (desired : Fin 10 → F) (c : Commands F) : Commands F :=
  steeringSlots.foldl
    (fun c i => { c with isActive := Function.update c.isActive i true,
                         position := Function.update c.position i (desired i) }) c

/-- The loop of lines 46-49 and 83-86 for the offsets `f i`:
`max_wheel_offset = std::max(fabs(f i), max_wheel_offset)` over the steering
slots, from 0. -/
def max_offset (f : Fin 10 → F) : F :=
  steeringSlots.foldl (fun acc i => max |f i| acc) 0

/-- Method `stop_rover` (lines 45-74). -/
def stop_rover (now : Nat) (s : HDPCDrive F) : HDPCDrive F :=
  let max_wheel_offset : F := max_offset s.motors.position
  if max_wheel_offset > 5e-2 then
    { s with commands := steer_to (fun _ => 0) (clear_drive { s.commands with stamp := now }) }
  else if s.control_mode ≠ MODE_STOPPED then
    { s with sm_calls := s.sm_calls ++ [SMEvent.EVENT_STOP],
             control_mode := MODE_STOPPED }
  else s

/-- The array `desired` of `init_rotation` (lines 77-81); the slots that the
source leaves uninitialised are never read and are given the value 0. -/
def rotation_targets (m : Libm F) (g : HDPCGeometry F) : Fin 10 → F :=
  fun i =>
    if i = STEERING_FRONT_LEFT then
      m.remainder (-(m.atan2 g.rover_center_to_front (g.rover_width / 2))) m.M_PI
    else if i = STEERING_FRONT_RIGHT then
      m.remainder (-(m.atan2 g.rover_center_to_front (-g.rover_width / 2))) m.M_PI
    else if i = STEERING_REAR_LEFT then
      m.remainder (-(m.atan2 (-g.rover_center_to_rear) (g.rover_width / 2))) m.M_PI
    else if i = STEERING_REAR_RIGHT then
      m.remainder (-(m.atan2 (-g.rover_center_to_rear) (-g.rover_width / 2))) m.M_PI
    else 0

/-- Method `init_rotation` (lines 76-103). -/
def init_rotation (m : Libm F) (now : Nat) (s : HDPCDrive F) : HDPCDrive F :=
  let desired := rotation_targets m s.geom
  let max_wheel_offset : F :=
    max_offset (fun i => m.remainder (s.motors.position i - desired i) m.M_PI)
  if max_wheel_offset > 5e-2 then
    { s with commands := steer_to desired (clear_drive { s.commands with stamp := now }) }
  else if s.control_mode ≠ MODE_ROTATION then
    { s with control_mode := MODE_ROTATION }
  else s

/-- Function `SQR` (line 105). -/
def SQR (x : F) : F := x * x

/-- Method `vel_and_steering` (lines 107-127); the argument `i_steer` is
`none` for the value `-1` of the source and `some i` for a slot `i >= 0`. -/
def vel_and_steering (m : Libm F) (v_c omega_c : F) (i_vel : Fin 10)
    (i_steer : Option (Fin 10)) (x_w y_w : F) (s : HDPCDrive F) : HDPCDrive F :=
  if |omega_c| < 1e-2 ∧ |v_c| < 1e-2 then
    { s with commands :=
        { s.commands with velocity := Function.update s.commands.velocity i_vel (Dbl.fin 0),
                          isActive := Function.update s.commands.isActive i_vel false } }
  else
    let phi_w : F := m.atan2 (x_w * omega_c) (v_c - y_w * omega_c)
    let speed : Dbl F :=
      Dbl.div (Dbl.fin (m.sqrt (SQR (x_w * omega_c) + SQR (v_c - y_w * omega_c))))
        (Dbl.fin s.geom.rover_wheel_radius)
    let flip : Bool := decide (|phi_w| > m.M_PI / 2)
    let phi_w : F := if flip then m.remainder phi_w m.M_PI else phi_w
    let speed : Dbl F := if flip then Dbl.negate speed else speed
    let c : Commands F :=
      { s.commands with isActive := Function.update s.commands.isActive i_vel true,
                        velocity := Function.update s.commands.velocity i_vel speed }
    match i_steer with
    | some i =>
        { s with commands :=
            { c with isActive := Function.update c.isActive i true,
                     position := Function.update c.position i phi_w } }
    | none => { s with commands := c }

/-- The clamping of lines 131-136 (and 137-142): two `if` statements in
sequence.  The variable `x` is a `float` and the bound a `double`: the
comparisons are made in `double`, and the bound is converted to `float` where
it is assigned. -/
def clamp [FloorRing F] (x bound : F) : F :=
  let x := if x > bound then to_float32 bound else x
  if x < -bound then to_float32 (-bound) else x

/-- The `switch` of `drive_rover` (lines 143-178) on the clamped command:
`none` where the source returns, otherwise the pair `(velocity, omega)` that
reaches line 179.  The quotient `r` is computed once, before the `switch`, by
the division of `float`; the right-hand sides of the four assignments are
`double` and are converted to `float`. -/
def clip_cmd [FloorRing F] (g : HDPCGeometry F) (control_mode : Nat) (velocity omega : F) :
    Option (F × F) :=
  let r : Dbl F := float_div velocity omega
  if control_mode = MODE_INIT ∨ control_mode = MODE_DIRECT_DRIVE
      ∨ control_mode = MODE_INIT_ROTATION then
    none
  else if control_mode = MODE_ACKERMANN then
    if |velocity| > 1e-2 then
      let omega :=
        if Dbl.le (Dbl.fin 0) r && Dbl.le r (Dbl.fin ((g.rover_width + g.rover_wheel_width) / 2))
        then to_float32 (2 * velocity / (g.rover_width + g.rover_wheel_width)) else omega
      let omega :=
        if Dbl.lt r (Dbl.fin 0)
            && Dbl.le (Dbl.fin (-(g.rover_width + g.rover_wheel_width) / 2)) r
        then to_float32 (-2 * velocity / (g.rover_width + g.rover_wheel_width)) else omega
      some (velocity, omega)
    else some (velocity, omega)
  else if control_mode = MODE_ROTATION then
    if |omega| > 1e-2 then
      let velocity :=
        if Dbl.le (Dbl.fin 0) r && Dbl.le (Dbl.fin ((g.rover_width - g.rover_wheel_width) / 2)) r
        then to_float32 (omega * (g.rover_width - g.rover_wheel_width) / 2) else velocity
      let velocity :=
        if Dbl.lt r (Dbl.fin 0)
            && Dbl.le r (Dbl.fin (-(g.rover_width - g.rover_wheel_width) / 2))
        then to_float32 (-omega * (g.rover_width - g.rover_wheel_width) / 2) else velocity
      some (velocity, omega)
    else some (velocity, omega)
  else none

/-- One steered station of `drive_rover` (lines 181-184, 186-189, 194-197,
199-202): the wheel command, then `delta_steering[i]` and `max_t_steering`. -/
def steer_station (m : Libm F) (velocity omega : F) (i_vel i : Fin 10) (x_w y_w : F)
    (acc : HDPCDrive F × Dbl F × (Fin 10 → F)) : HDPCDrive F × Dbl F × (Fin 10 → F) :=
  let s := vel_and_steering m velocity omega i_vel (some i) x_w y_w acc.1
  let delta_steering := Function.update acc.2.2 i (s.commands.position i - s.motors.position i)
  let max_t_steering :=
    Dbl.stdmax acc.2.1
      (Dbl.div (Dbl.fin |delta_steering i|) (Dbl.fin s.geom.rover_max_steering_velocity))
  (s, max_t_steering, delta_steering)

/-- The assignment `commands.velocity[i] = delta_steering[i]/max_t_steering`
(lines 204-207). -/
def set_steering_rate (i : Fin 10) (delta_steering : Fin 10 → F) (max_t_steering : Dbl F)
    (s : HDPCDrive F) : HDPCDrive F :=
  { s with commands :=
      { s.commands with velocity :=
          (Function.update s.commands.velocity i
            (Dbl.div (Dbl.fin (delta_steering i)) max_t_steering)) } }

/-- Lines 179-208 of `drive_rover`: the wheel commands for the pair
`(velocity, omega)` left by the `switch`, and the steering rates.  The array
`delta_steering` is read only at the four slots that were written. -/
def synthesize (m : Libm F) (velocity omega : F) (s : HDPCDrive F) : HDPCDrive F :=
  let g := s.geom
  let a : HDPCDrive F × Dbl F × (Fin 10 → F) := (s, Dbl.fin 0, fun _ => 0)
  let a := steer_station m velocity omega DRIVE_FRONT_LEFT STEERING_FRONT_LEFT
    g.rover_center_to_front (g.rover_width / 2) a
  let a := steer_station m velocity omega DRIVE_FRONT_RIGHT STEERING_FRONT_RIGHT
    g.rover_center_to_front (-g.rover_width / 2) a
  let a : HDPCDrive F × Dbl F × (Fin 10 → F) :=
    (vel_and_steering m velocity omega DRIVE_MIDDLE_LEFT none 0 (g.rover_width / 2) a.1, a.2)
  let a : HDPCDrive F × Dbl F × (Fin 10 → F) :=
    (vel_and_steering m velocity omega DRIVE_MIDDLE_RIGHT none 0 (-g.rover_width / 2) a.1, a.2)
  let a := steer_station m velocity omega DRIVE_REAR_LEFT STEERING_REAR_LEFT
    (-g.rover_center_to_rear) (g.rover_width / 2) a
  let a := steer_station m velocity omega DRIVE_REAR_RIGHT STEERING_REAR_RIGHT
    (-g.rover_center_to_rear) (-g.rover_width / 2) a
  let max_t_steering := a.2.1
  let delta_steering := a.2.2
  set_steering_rate STEERING_REAR_RIGHT delta_steering max_t_steering
    (set_steering_rate STEERING_REAR_LEFT delta_steering max_t_steering
      (set_steering_rate STEERING_FRONT_RIGHT delta_steering max_t_steering
        (set_steering_rate STEERING_FRONT_LEFT delta_steering max_t_steering a.1)))

/-- The statement `commands.header.stamp = ros::Time::now()`. -/
def stamp_commands (now : Nat) (s : HDPCDrive F) : HDPCDrive F :=
  { s with commands := { s.commands with stamp := now } }

/-- Method `drive_rover` (lines 129-209).  The two parameters are `float`:
the arguments are `float` values (the caller converts them), and so is every
value assigned to them in `clamp` and `clip_cmd`. -/
def drive_rover [FloorRing F] (m : Libm F) (now : Nat) (velocity omega : F) (s : HDPCDrive F) :
    HDPCDrive F :=
  let s := stamp_commands now s
  let omega := clamp omega s.max_rotation_speed_rad_per_s
  let velocity := clamp velocity s.max_linear_speed_m_per_s
  match clip_cmd s.geom s.control_mode velocity omega with
  | none => s
  | some (velocity, omega) => synthesize m velocity omega s

/-- The second part of `set_mode` (lines 242-284), reached when the first
`switch` is left by a `break`: the transition table, the watchdog and the
response. -/
def mode_transition (req : SetControlModeRequest) (res : SetControlModeResponse)
    (s : HDPCDrive F) : HDPCDrive F × SetControlModeResponse × Bool :=
  let res := { res with result := true }
  let sr : HDPCDrive F × SetControlModeResponse :=
    if s.control_mode ≠ req.request_mode then
      if req.request_mode = MODE_INIT_ROTATION ∨ req.request_mode = MODE_ROTATION then
        if s.control_mode ≠ MODE_STOPPED then (s, { res with result := false })
        else ({ s with control_mode := MODE_INIT_ROTATION }, res)
      else if req.request_mode = MODE_ACKERMANN then
        if s.control_mode ≠ MODE_STOPPED then (s, { res with result := false })
        else ({ s with control_mode := req.request_mode }, res)
      else if req.request_mode = MODE_DIRECT_DRIVE then
        ({ s with control_mode := req.request_mode }, res)
      else if req.request_mode = MODE_INIT ∨ req.request_mode = MODE_STOPPED then
        ({ s with control_mode := MODE_INIT }, res)
      else (s, res)
    else (s, res)
  let s := { sr.1 with watchdog := WATCHDOG_INIT }
  (s, { sr.2 with result_mode := s.control_mode }, true)

/-- Method `set_mode` (lines 211-285).  `read` is the outcome of the call with
`EVENT_READ_STATE` (`none`: the call returned false; `some st`: it returned
true with `response.state = st`), `start_ok` the value returned by the call
with `EVENT_START` when the source makes it.  The result is the new state, the
response and the returned value. -/
def set_mode (read : Option Nat) (start_ok : Bool) (req : SetControlModeRequest)
    (res : SetControlModeResponse) (s : HDPCDrive F) :
    HDPCDrive F × SetControlModeResponse × Bool :=
  let s := { s with sm_calls := s.sm_calls ++ [SMEvent.EVENT_READ_STATE] }
  match read with
  | none => (s, res, false)
  | some state =>
    if state = SM_INIT ∨ state = SM_STOP then
      if req.request_mode = MODE_STOPPED then mode_transition req res s
      else
        let s := { s with sm_calls := s.sm_calls ++ [SMEvent.EVENT_START] }
        if !start_ok then
          (s, { res with result := false, result_mode := s.control_mode }, false)
        else mode_transition req res s
    else if state = SM_DRIVE then mode_transition req res s
    else (s, res, false)

/-- Method `readingsCallback` (lines 287-294): the new state and the status
that is published. -/
def readingsCallback (now : Nat) (msg : Readings F) (s : HDPCDrive F) :
    HDPCDrive F × Status F :=
  ({ s with motors := msg }, { stamp := now, control_mode := s.control_mode, motors := msg })

/-- Method `directDriveCallback` (lines 296-321). -/
def directDriveCallback (now : Nat) (msg : DirectDrive F) (s : HDPCDrive F) : HDPCDrive F :=
  if s.control_mode ≠ MODE_DIRECT_DRIVE then s
  else
    let c : Commands F := { s.commands with stamp := now }
    let c : Commands F :=
      allSlots.foldl (fun c i => { c with isActive := Function.update c.isActive i true }) c
    let setv (i : Fin 10) (x : F) (c : Commands F) : Commands F :=
      { c with velocity := Function.update c.velocity i (Dbl.fin x) }
    let setp (i : Fin 10) (x : F) (c : Commands F) : Commands F :=
      { c with position := Function.update c.position i x }
    let c := setv DRIVE_FRONT_LEFT (msg.velocities_rad_per_sec Wheel.WHEEL_FRONT_LEFT) c
    let c := setv DRIVE_FRONT_RIGHT (msg.velocities_rad_per_sec Wheel.WHEEL_FRONT_RIGHT) c
    let c := setv DRIVE_MIDDLE_LEFT (msg.velocities_rad_per_sec Wheel.WHEEL_MIDDLE_LEFT) c
    let c := setv DRIVE_MIDDLE_RIGHT (msg.velocities_rad_per_sec Wheel.WHEEL_MIDDLE_RIGHT) c
    let c := setv DRIVE_REAR_LEFT (msg.velocities_rad_per_sec Wheel.WHEEL_REAR_LEFT) c
    let c := setv DRIVE_REAR_RIGHT (msg.velocities_rad_per_sec Wheel.WHEEL_REAR_RIGHT) c
    let c := setv STEERING_FRONT_LEFT 0 c
    let c := setv STEERING_FRONT_RIGHT 0 c
    let c := setv STEERING_REAR_LEFT 0 c
    let c := setv STEERING_REAR_RIGHT 0 c
    let c := setp STEERING_FRONT_LEFT (msg.steering_rad Wheel.WHEEL_FRONT_LEFT) c
    let c := setp STEERING_FRONT_RIGHT (msg.steering_rad Wheel.WHEEL_FRONT_RIGHT) c
    let c := setp STEERING_REAR_LEFT (msg.steering_rad Wheel.WHEEL_REAR_LEFT) c
    let c := setp STEERING_REAR_RIGHT (msg.steering_rad Wheel.WHEEL_REAR_RIGHT) c
    { s with watchdog := WATCHDOG_INIT, commands := c }

/-- Method `ackermannCallback` (lines 323-332).  The fields `linear.x` and
`angular.z` of the message are `double`; the call of `drive_rover` converts
them to its `float` parameters. -/
def ackermannCallback [FloorRing F] (m : Libm F) (now : Nat) (msg : Twist F) (s : HDPCDrive F) :
    HDPCDrive F :=
  if s.control_mode ≠ MODE_ACKERMANN ∧ s.control_mode ≠ MODE_ROTATION then s
  else
    drive_rover m now (to_float32 msg.linear_x) (to_float32 msg.angular_z)
      { s with watchdog := WATCHDOG_INIT }

/-- The values that the constructor (lines 352-359) and `wait_for_services`
(lines 383-390) give to the command snapshot. -/
def reset_commands (now : Nat) : Commands F :=
  allSlots.foldl
    (fun c i => { c with isActive := Function.update c.isActive i false,
                         velocity := Function.update c.velocity i (Dbl.fin 0),
                         position := Function.update c.position i 0 })
    { stamp := now, isActive := fun _ => false, velocity := fun _ => Dbl.fin 0,
      position := fun _ => 0 }

/-- The constructor (lines 335-360).  The geometry and the two speed limits
are the parameters read from the node handle, `motors0` is the content of the
default-constructed member `motors`. -/
def construct (geom : HDPCGeometry F) (max_rotation_speed max_linear_speed : F)
    (motors0 : Readings F) (now : Nat) : HDPCDrive F :=
  { geom := geom
    max_rotation_speed_rad_per_s := max_rotation_speed
    max_linear_speed_m_per_s := max_linear_speed
    control_mode := MODE_INIT
    watchdog := 0
    motors := motors0
    commands := reset_commands now
    sm_calls := [] }

/-- The loop of `wait_for_services` (lines 367-374).  Each element of `reads`
is the outcome of one `EVENT_READ_STATE` call, as for `set_mode`; the list
ends where `ros::ok()` becomes false.  The flag of the result is false when a
call fails, where the source returns false. -/
def wait_loop (first : Option Nat) (reads : List (Option Nat)) (s : HDPCDrive F) :
    HDPCDrive F × Bool :=
  let s := { s with sm_calls := s.sm_calls ++ [SMEvent.EVENT_READ_STATE] }
  match first with
  | none => (s, false)
  | some state =>
    if state ≠ SM_STOP then
      match reads with
      | [] => (s, true)
      | next :: rest => wait_loop next rest s
    else (s, true)

/-- Method `wait_for_services` (lines 362-393). -/
def wait_for_services (first : Option Nat) (reads : List (Option Nat)) (start_ok : Bool)
    (now : Nat) (s : HDPCDrive F) : HDPCDrive F × Bool :=
  let r := wait_loop first reads s
  if !r.2 then (r.1, false)
  else
    let s := { r.1 with sm_calls := r.1.sm_calls ++ [SMEvent.EVENT_START] }
    if !start_ok then (s, false)
    else ({ s with watchdog := 0, control_mode := MODE_INIT, commands := reset_commands now }, true)

/-- The `switch` in the body of the loop of `main_loop` (lines 399-421), one
tick: the new state and the snapshot given to `command_pub.publish`, if
any. -/
def main_loop_step (m : Libm F) (now : Nat) (s : HDPCDrive F) :
    HDPCDrive F × Option (Commands F) :=
  if s.control_mode = MODE_INIT then
    let s := stop_rover now s
    (s, some s.commands)
  else if s.control_mode = MODE_INIT_ROTATION then
    let s := init_rotation m now s
    (s, some s.commands)
  else if s.control_mode = MODE_ROTATION ∨ s.control_mode = MODE_ACKERMANN
      ∨ s.control_mode = MODE_DIRECT_DRIVE then
    if s.watchdog = 0 then ({ s with control_mode := MODE_INIT }, none)
    else
      let s := { s with watchdog := uint_decrement s.watchdog }
      (s, some s.commands)
  else (s, none)

/-- The scheduler of `main_loop` run for one tick per element of `nows`, with
no message in between: the final state and what each tick published. -/
def run_ticks (m : Libm F) : List Nat → HDPCDrive F → HDPCDrive F × List (Option (Commands F))
  | [], s => (s, [])
  | now :: rest, s =>
      let r := run_ticks m rest (main_loop_step m now s).1
      (r.1, (main_loop_step m now s).2 :: r.2)

/-- What `ros::spinOnce()` and the loop of `main_loop` can do to the
controller: one message handler, or one tick. -/
inductive Input (F : Type) where
  | readings (now : Nat) (msg : Readings F)
  | mode_request (read : Option Nat) (start_ok : Bool) (req : SetControlModeRequest)
      (res : SetControlModeResponse)
  | direct (now : Nat) (msg : DirectDrive F)
  | ackermann (now : Nat) (msg : Twist F)
  | tick (now : Nat)

/-- The state after one operation of the controller. -/
def handle [FloorRing F] (m : Libm F) : Input F → HDPCDrive F → HDPCDrive F
  | Input.readings now msg, s => (readingsCallback now msg s).1
  | Input.mode_request read start_ok req res, s => (set_mode read start_ok req res s).1
  | Input.direct now msg, s => directDriveCallback now msg s
  | Input.ackermann now msg, s => ackermannCallback m now msg s
  | Input.tick now, s => (main_loop_step m now s).1

/-- The states of a run of `main`: the constructor, `wait_for_services`, then
any sequence of handlers and ticks. -/
inductive Reachable [FloorRing F] (m : Libm F) : HDPCDrive F → Prop where
  | start (geom : HDPCGeometry F) (max_rotation_speed max_linear_speed : F)
      (motors0 : Readings F) (now0 : Nat) (first : Option Nat) (reads : List (Option Nat))
      (start_ok : Bool) (now1 : Nat) :
      Reachable m (wait_for_services first reads start_ok now1
        (construct geom max_rotation_speed max_linear_speed motors0 now0)).1
  | next (i : Input F) (s : HDPCDrive F) : Reachable m s → Reachable m (handle m i s)

end Controller

/-! ## The functions of `math.h` on the real numbers -/

/-- The functions of `math.h` on the real numbers: `atan2 y x` is the argument
of the point `(x, y)` in `(-π, π]` (and 0 at the origin), `remainder x y` is
`x - n * y` for the integer `n` nearest to `x / y`, and `M_PI` is `π`. -/
noncomputable def realLibm : Libm ℝ where
  atan2 := fun y x => Complex.arg ⟨x, y⟩
  sqrt := Real.sqrt
  remainder := fun x y => x - (roundHalfEven (x / y) : ℝ) * y
  M_PI := Real.pi

/-! ## Concrete states used by the examples -/

/-- A state as the watchdog expiry leaves it after direct driving: mode INIT,
every slot active, the six wheels commanded at 1 rad/s, the steering feedback
centred. -/
def expiredDirectDrive (F : Type) [LinearOrderedField F] : HDPCDrive F where
  geom := ⟨1, 1, 1, 1/4, 1/10, 1⟩
  max_rotation_speed_rad_per_s := 1
  max_linear_speed_m_per_s := 9/10
  control_mode := MODE_INIT
  watchdog := 0
  motors := ⟨fun _ => 0⟩
  commands := ⟨7, fun _ => true, fun i => if i.val < 6 then Dbl.fin 1 else Dbl.fin 0, fun _ => 0⟩
  sm_calls := []

/-- The same state with every actuator reported at 1 rad. -/
def offCentre (F : Type) [LinearOrderedField F] : HDPCDrive F :=
  { expiredDirectDrive F with motors := ⟨fun _ => 1⟩ }

/-- The same state in mode STOPPED. -/
def stoppedState (F : Type) [LinearOrderedField F] : HDPCDrive F :=
  { expiredDirectDrive F with control_mode := MODE_STOPPED }

/-- The same state in mode DIRECT_DRIVE with a full watchdog. -/
def directDriving (F : Type) [LinearOrderedField F] : HDPCDrive F :=
  { expiredDirectDrive F with control_mode := MODE_DIRECT_DRIVE, watchdog := WATCHDOG_INIT }

/-- The same state in mode ACKERMANN with a full watchdog. -/
def ackermannState (F : Type) [LinearOrderedField F] : HDPCDrive F :=
  { expiredDirectDrive F with control_mode := MODE_ACKERMANN, watchdog := WATCHDOG_INIT }

/-- A state in mode INIT_ROTATION whose steering feedback is at the targets
that `init_rotation` computes. -/
def atTargets {F : Type} [LinearOrderedField F] (m : Libm F) : HDPCDrive F :=
  { expiredDirectDrive F with
      control_mode := MODE_INIT_ROTATION
      motors := ⟨rotation_targets m (expiredDirectDrive F).geom⟩ }

/-- The first state of a run: the constructor, then `wait_for_services` with
the hardware in STOP. -/
def startState (F : Type) [LinearOrderedField F] : HDPCDrive F :=
  (wait_for_services (some SM_STOP) [] true 0
    (construct ⟨1, 1, 1, 1/4, 1/10, 1⟩ 1 (9/10) ⟨fun _ => 0⟩ 0)).1

/-- The inputs of a run that reaches ACKERMANN without any steering command,
receives a reading with the front-left steering at 1 rad, and then a zero
twist. -/
def zeroTwistInputs (F : Type) [LinearOrderedField F] : List (Input F) :=
  [Input.tick 1,
   Input.mode_request (some SM_DRIVE) true ⟨MODE_ACKERMANN⟩ ⟨false, 0⟩,
   Input.readings 2 ⟨fun i => if i = STEERING_FRONT_LEFT then 1 else 0⟩,
   Input.ackermann 3 ⟨0, 0⟩]

/-- The state after a list of inputs. -/
def run {F : Type} [LinearOrderedField F] [FloorRing F] (m : Libm F) (inputs : List (Input F))
    (s : HDPCDrive F) : HDPCDrive F :=
  inputs.foldl (fun s i => handle m i s) s

/-- The invariant of the command snapshot: an inactive slot has position 0, an
inactive drive slot has velocity 0, and the position of a drive slot is 0. -/
def SlotInv {F : Type} [LinearOrderedField F] (c : Commands F) : Prop :=
  (∀ i : Fin 10, c.isActive i = false → c.position i = 0)
  ∧ (∀ i : Fin 10, i.val < 6 → c.isActive i = false → c.velocity i = Dbl.fin 0)
  ∧ (∀ i : Fin 10, i.val < 6 → c.position i = 0)

/-! ## Quantities of the command synthesis, and further example states -/

/-- The steering angle `phi_w` of `vel_and_steering` after lines 112-121. -/
def folded_angle {F : Type} [LinearOrderedField F] (m : Libm F) (v_c omega_c x_w y_w : F) : F :=
  if m.M_PI / 2 < |m.atan2 (x_w * omega_c) (v_c - y_w * omega_c)| then
    m.remainder (m.atan2 (x_w * omega_c) (v_c - y_w * omega_c)) m.M_PI
  else m.atan2 (x_w * omega_c) (v_c - y_w * omega_c)

/-- The four steering slots with the offsets of their wheel stations (lines 181-200). -/
def station_angle {F : Type} [LinearOrderedField F] (m : Libm F) (g : HDPCGeometry F)
    (v_c omega_c : F) (i : Fin 10) : F :=
  if i = STEERING_FRONT_LEFT then
    folded_angle m v_c omega_c g.rover_center_to_front (g.rover_width / 2)
  else if i = STEERING_FRONT_RIGHT then
    folded_angle m v_c omega_c g.rover_center_to_front (-g.rover_width / 2)
  else if i = STEERING_REAR_LEFT then
    folded_angle m v_c omega_c (-g.rover_center_to_rear) (g.rover_width / 2)
  else folded_angle m v_c omega_c (-g.rover_center_to_rear) (-g.rover_width / 2)

/-- The value of `max_t_steering` at line 203, for the array `delta_steering`. -/
def steering_time {F : Type} [LinearOrderedField F] (g : HDPCGeometry F) (delta : Fin 10 → F) :
    Dbl F :=
  Dbl.stdmax (Dbl.stdmax (Dbl.stdmax (Dbl.stdmax (Dbl.fin 0)
    (Dbl.div (Dbl.fin |delta STEERING_FRONT_LEFT|) (Dbl.fin g.rover_max_steering_velocity)))
    (Dbl.div (Dbl.fin |delta STEERING_FRONT_RIGHT|) (Dbl.fin g.rover_max_steering_velocity)))
    (Dbl.div (Dbl.fin |delta STEERING_REAR_LEFT|) (Dbl.fin g.rover_max_steering_velocity)))
    (Dbl.div (Dbl.fin |delta STEERING_REAR_RIGHT|) (Dbl.fin g.rover_max_steering_velocity))

/-- The array `delta_steering` (lines 183, 188, 196, 201) read off a state:
`commands.position[i] - motors.position[i]`. -/
def steering_delta {F : Type} [LinearOrderedField F] (s : HDPCDrive F) : Fin 10 → F :=
  fun i => s.commands.position i - s.motors.position i

/-- The state `ackermannState` with a negative limit of the linear speed. -/
def negativeLimit (F : Type) [LinearOrderedField F] : HDPCDrive F :=
  { ackermannState F with max_linear_speed_m_per_s := -1 }

/-- The state `ackermannState` with every actuator reported at 1 rad. -/
def ackermannOffCentre (F : Type) [LinearOrderedField F] : HDPCDrive F :=
  { ackermannState F with motors := ⟨fun _ => 1⟩ }

/-- The inputs of a run that reaches ACKERMANN with the steering feedback at 0 and then
receives the straight-line twist `(1/2, 0)`. -/
def straightInputs (F : Type) [LinearOrderedField F] : List (Input F) :=
  [Input.tick 1,
   Input.mode_request (some SM_DRIVE) true ⟨MODE_ACKERMANN⟩ ⟨false, 0⟩,
   Input.ackermann 3 ⟨1 / 2, 0⟩]

/-- The state `ackermannState` with the watchdog run down to 3. -/
def lateAckermann (F : Type) [LinearOrderedField F] : HDPCDrive F :=
  { ackermannState F with watchdog := 3 }

/-- The state `ackermannState` with the limit of the linear speed at `1/10`. -/
def slowLimit (F : Type) [LinearOrderedField F] : HDPCDrive F :=
  { ackermannState F with max_linear_speed_m_per_s := 1 / 10 }

/-- The state `ackermannState` with the limit of the rotation speed at
`79/100`. -/
def tightTurn (F : Type) [LinearOrderedField F] : HDPCDrive F :=
  { ackermannState F with max_rotation_speed_rad_per_s := 79 / 100 }

/-- A state in mode ROTATION with `rover_width = 1` and
`rover_wheel_width = 1/5`. -/
def narrowWheels (F : Type) [LinearOrderedField F] : HDPCDrive F :=
  { ackermannState F with
      control_mode := MODE_ROTATION
      geom := ⟨1, 1, 1, 1 / 5, 1 / 10, 1⟩ }

/-- A state in mode ROTATION with the limit of the linear speed at `1/5`. -/
def slowRotation (F : Type) [LinearOrderedField F] : HDPCDrive F :=
  { ackermannState F with
      control_mode := MODE_ROTATION
      max_linear_speed_m_per_s := 1 / 5 }

/-- A state in mode ROTATION with `rover_width = 2 ^ (-149)` and
`rover_wheel_width = 2 ^ (-150)`. -/
def tinyRover (F : Type) [LinearOrderedField F] : HDPCDrive F :=
  { ackermannState F with
      control_mode := MODE_ROTATION
      geom := ⟨1, 1, (2 : F) ^ (-149 : ℤ), (2 : F) ^ (-150 : ℤ), 1 / 10, 1⟩ }

/-! ## Lemmas on the loops over the slots -/

theorem max_offset_gt {F : Type} [LinearOrderedField F] (f : Fin 10 → F) (t : F) (ht : 0 ≤ t) :
    t < max_offset f ↔ ∃ i : Fin 10, 6 ≤ i.val ∧ t < |f i| := by
  constructor
  · intro h
    simp only [max_offset, steeringSlots, List.foldl, lt_max_iff] at h
    rcases h with h | h | h | h | h
    · exact ⟨9, by decide, h⟩
    · exact ⟨8, by decide, h⟩
    · exact ⟨7, by decide, h⟩
    · exact ⟨6, by decide, h⟩
    · exact absurd h (not_lt.mpr ht)
  · rintro ⟨i, hi, h⟩
    simp only [max_offset, steeringSlots, List.foldl, lt_max_iff]
    fin_cases i <;> simp at hi <;> simp_all

theorem clear_drive_isActive {F : Type} [LinearOrderedField F] (c : Commands F) (i : Fin 10) :
    (clear_drive c).isActive i = if i.val < 6 then false else c.isActive i := by
  fin_cases i <;> simp [clear_drive, driveSlots, Function.update]

theorem clear_drive_velocity {F : Type} [LinearOrderedField F] (c : Commands F) (i : Fin 10) :
    (clear_drive c).velocity i = if i.val < 6 then Dbl.fin 0 else c.velocity i := by
  fin_cases i <;> simp [clear_drive, driveSlots, Function.update]

theorem clear_drive_position {F : Type} [LinearOrderedField F] (c : Commands F) : (clear_drive c).position = c.position := by
  simp [clear_drive, driveSlots]

theorem clear_drive_stamp {F : Type} [LinearOrderedField F] (c : Commands F) : (clear_drive c).stamp = c.stamp := by
  simp [clear_drive, driveSlots]

theorem steer_to_isActive {F : Type} (d : Fin 10 → F) (c : Commands F) (i : Fin 10) :
    (steer_to d c).isActive i = if 6 ≤ i.val then true else c.isActive i := by
  fin_cases i <;> simp [steer_to, steeringSlots, Function.update]

theorem steer_to_position {F : Type} (d : Fin 10 → F) (c : Commands F) (i : Fin 10) :
    (steer_to d c).position i = if 6 ≤ i.val then d i else c.position i := by
  fin_cases i <;> simp [steer_to, steeringSlots, Function.update]

theorem steer_to_velocity {F : Type} (d : Fin 10 → F) (c : Commands F) :
    (steer_to d c).velocity = c.velocity := by
  simp [steer_to, steeringSlots]

theorem steer_to_stamp {F : Type} (d : Fin 10 → F) (c : Commands F) :
    (steer_to d c).stamp = c.stamp := by
  simp [steer_to, steeringSlots]

/-! ## The motion primitives, the mode state machine and the watchdog -/

/-- C1 (amended): when some steering actuator is reported further than 5e-2
from 0, `stop_rover` leaves every drive slot inactive with zero velocity and
every steering slot active with target 0; when all four are within 5e-2 it
leaves the command snapshot as it was; and a tick in mode INIT publishes the
snapshot that `stop_rover` leaves. -/
theorem stop_rover_snapshot {F : Type} [LinearOrderedField F] (now : Nat) (s : HDPCDrive F) :
    ((∃ i : Fin 10, 6 ≤ i.val ∧ 5e-2 < |s.motors.position i|) →
      (∀ i : Fin 10, i.val < 6 →
        (stop_rover now s).commands.isActive i = false
          ∧ (stop_rover now s).commands.velocity i = Dbl.fin 0)
      ∧ (∀ i : Fin 10, 6 ≤ i.val →
        (stop_rover now s).commands.isActive i = true
          ∧ (stop_rover now s).commands.position i = 0))
    ∧ ((∀ i : Fin 10, 6 ≤ i.val → |s.motors.position i| ≤ 5e-2) →
      (stop_rover now s).commands = s.commands)
    ∧ (∀ m : Libm F, s.control_mode = MODE_INIT →
      (main_loop_step m now s).2 = some (stop_rover now s).commands) := by
  have h0 : (0 : F) ≤ 5e-2 := by norm_num
  refine ⟨fun h => ?_, fun h => ?_, fun m hm => ?_⟩
  · have hgt : (5e-2 : F) < max_offset s.motors.position := (max_offset_gt _ _ h0).mpr h
    have hs : (stop_rover now s).commands
        = steer_to (fun _ => 0) (clear_drive { s.commands with stamp := now }) := by
      simp only [stop_rover, gt_iff_lt, if_pos hgt]
    rw [hs]
    refine ⟨fun i hi => ?_, fun i hi => ?_⟩
    · simp [steer_to_isActive, steer_to_velocity, clear_drive_isActive, clear_drive_velocity, hi,
        Nat.not_le.mpr hi]
    · simp [steer_to_isActive, steer_to_position, hi]
  · have hle : ¬ (5e-2 : F) < max_offset s.motors.position := by
      rw [max_offset_gt _ _ h0]
      rintro ⟨i, hi, hlt⟩
      exact absurd hlt (not_lt.mpr (h i hi))
    simp only [stop_rover, gt_iff_lt, if_neg hle]
    split <;> rfl
  · simp [main_loop_step, hm]

/-- C1, instance of the amended statement: off-centre steering feedback. -/
theorem stop_rover_snapshot_witness :
    (∃ i : Fin 10, 6 ≤ i.val ∧ (5e-2 : ℚ) < |(offCentre ℚ).motors.position i|)
    ∧ (stop_rover 3 (offCentre ℚ)).commands.isActive 0 = false
    ∧ (stop_rover 3 (offCentre ℚ)).commands.velocity 0 = Dbl.fin 0 :=
  have hw : ∃ i : Fin 10, 6 ≤ i.val ∧ (5e-2 : ℚ) < |(offCentre ℚ).motors.position i| :=
    ⟨6, by decide, by norm_num [offCentre]⟩
  ⟨hw, ((stop_rover_snapshot 3 (offCentre ℚ)).1 hw).1 0 (by decide)⟩

/-- C1, counterexample: in mode INIT with active drive slots at 1 rad/s and the
steering feedback at 0, `stop_rover` leaves slot 0 active at 1 rad/s, and the
tick publishes that snapshot. -/
theorem stop_rover_keeps_active_drive :
    (expiredDirectDrive ℝ).control_mode = MODE_INIT
    ∧ (stop_rover 8 (expiredDirectDrive ℝ)).commands.isActive DRIVE_FRONT_LEFT = true
    ∧ (stop_rover 8 (expiredDirectDrive ℝ)).commands.velocity DRIVE_FRONT_LEFT = Dbl.fin 1
    ∧ ∃ c : Commands ℝ, (main_loop_step realLibm 8 (expiredDirectDrive ℝ)).2 = some c
        ∧ c.isActive DRIVE_FRONT_LEFT = true ∧ c.velocity DRIVE_FRONT_LEFT = Dbl.fin 1 := by
  have hle : ¬ (5e-2 : ℝ) < max_offset (expiredDirectDrive ℝ).motors.position := by
    simp [max_offset, steeringSlots, expiredDirectDrive]
    norm_num
  have hs : (stop_rover 8 (expiredDirectDrive ℝ)).commands = (expiredDirectDrive ℝ).commands := by
    simp only [stop_rover, gt_iff_lt, if_neg hle]
    split <;> rfl
  refine ⟨rfl, ?_, ?_, ?_⟩
  · rw [hs]; simp [expiredDirectDrive]
  · rw [hs]; simp [expiredDirectDrive, DRIVE_FRONT_LEFT]
  · refine ⟨(stop_rover 8 (expiredDirectDrive ℝ)).commands, ?_, ?_, ?_⟩
    · simp [main_loop_step, expiredDirectDrive]
    · rw [hs]; simp [expiredDirectDrive]
    · rw [hs]; simp [expiredDirectDrive, DRIVE_FRONT_LEFT]

/-- When the hardware gate passes, `set_mode` is the transition table applied
to the state with the logged calls. -/
theorem set_mode_gate {F : Type} [LinearOrderedField F] (read : Option Nat)
    (start_ok : Bool) (req : SetControlModeRequest) (res : SetControlModeResponse)
    (s : HDPCDrive F)
    (gate : read = some SM_DRIVE
      ∨ ((read = some SM_INIT ∨ read = some SM_STOP)
          ∧ (req.request_mode = MODE_STOPPED ∨ start_ok = true))) :
    ∃ calls : List SMEvent,
      set_mode read start_ok req res s = mode_transition req res { s with sm_calls := calls } := by
  by_cases hr : req.request_mode = MODE_STOPPED
  · refine ⟨s.sm_calls ++ [SMEvent.EVENT_READ_STATE], ?_⟩
    rcases gate with rfl | ⟨rfl | rfl, _⟩ <;> simp [set_mode, hr, SM_INIT, SM_STOP, SM_DRIVE]
  · rcases gate with rfl | ⟨hst, hrs⟩
    · exact ⟨s.sm_calls ++ [SMEvent.EVENT_READ_STATE], by
        simp [set_mode, SM_INIT, SM_STOP, SM_DRIVE]⟩
    · have hs : start_ok = true := hrs.resolve_left hr
      refine ⟨s.sm_calls ++ [SMEvent.EVENT_READ_STATE] ++ [SMEvent.EVENT_START], ?_⟩
      rcases hst with rfl | rfl <;> simp [set_mode, hr, hs]

/-- The mode that the transition table leaves. -/
theorem mode_transition_mode {F : Type} [LinearOrderedField F] (req : SetControlModeRequest)
    (res : SetControlModeResponse) (s : HDPCDrive F) :
    (mode_transition req res s).1.control_mode =
      (if s.control_mode = req.request_mode then s.control_mode
       else if req.request_mode = MODE_INIT_ROTATION ∨ req.request_mode = MODE_ROTATION then
         (if s.control_mode = MODE_STOPPED then MODE_INIT_ROTATION else s.control_mode)
       else if req.request_mode = MODE_ACKERMANN then
         (if s.control_mode = MODE_STOPPED then MODE_ACKERMANN else s.control_mode)
       else if req.request_mode = MODE_DIRECT_DRIVE then MODE_DIRECT_DRIVE
       else if req.request_mode = MODE_INIT ∨ req.request_mode = MODE_STOPPED then MODE_INIT
       else s.control_mode) := by
  unfold mode_transition
  split_ifs <;> simp_all

/-- The flag `res.result` that the transition table leaves. -/
theorem mode_transition_result {F : Type} [LinearOrderedField F] (req : SetControlModeRequest)
    (res : SetControlModeResponse) (s : HDPCDrive F) :
    (mode_transition req res s).2.1.result =
      (if s.control_mode = req.request_mode then true
       else if req.request_mode = MODE_INIT_ROTATION ∨ req.request_mode = MODE_ROTATION
           ∨ req.request_mode = MODE_ACKERMANN then
         decide (s.control_mode = MODE_STOPPED)
       else true) := by
  unfold mode_transition
  split_ifs <;> simp_all

/-- What the transition table does to the other fields. -/
theorem mode_transition_rest {F : Type} [LinearOrderedField F] (req : SetControlModeRequest)
    (res : SetControlModeResponse) (s : HDPCDrive F) :
    (mode_transition req res s).2.1.result_mode = (mode_transition req res s).1.control_mode
    ∧ (mode_transition req res s).2.2 = true
    ∧ (mode_transition req res s).1.watchdog = WATCHDOG_INIT
    ∧ (mode_transition req res s).1.commands = s.commands
    ∧ (mode_transition req res s).1.motors = s.motors
    ∧ (mode_transition req res s).1.geom = s.geom
    ∧ (mode_transition req res s).1.sm_calls = s.sm_calls
    ∧ (mode_transition req res s).1.max_rotation_speed_rad_per_s = s.max_rotation_speed_rad_per_s
    ∧ (mode_transition req res s).1.max_linear_speed_m_per_s = s.max_linear_speed_m_per_s := by
  unfold mode_transition
  split_ifs <;> simp_all

/-- C2: whenever the hardware gate passes, `set_mode` follows the transition
table: a request for the current mode changes nothing and succeeds; ROTATION
and INIT_ROTATION lead to INIT_ROTATION from STOPPED and are refused
otherwise; ACKERMANN is entered from STOPPED and refused otherwise;
DIRECT_DRIVE is entered from every mode; INIT and STOPPED lead to INIT;
`result_mode` is the resulting mode; and a mode that changes never becomes
ROTATION or STOPPED. -/
theorem set_mode_transition_table {F : Type} [LinearOrderedField F] (read : Option Nat)
    (start_ok : Bool) (req : SetControlModeRequest) (res : SetControlModeResponse)
    (s : HDPCDrive F)
    (gate : read = some SM_DRIVE
      ∨ ((read = some SM_INIT ∨ read = some SM_STOP)
          ∧ (req.request_mode = MODE_STOPPED ∨ start_ok = true))) :
    (req.request_mode = s.control_mode →
        (set_mode read start_ok req res s).1.control_mode = s.control_mode
        ∧ (set_mode read start_ok req res s).2.1.result = true)
    ∧ (req.request_mode ≠ s.control_mode →
        (req.request_mode = MODE_ROTATION ∨ req.request_mode = MODE_INIT_ROTATION) →
        (s.control_mode = MODE_STOPPED →
          (set_mode read start_ok req res s).1.control_mode = MODE_INIT_ROTATION
          ∧ (set_mode read start_ok req res s).2.1.result = true)
        ∧ (s.control_mode ≠ MODE_STOPPED →
          (set_mode read start_ok req res s).1.control_mode = s.control_mode
          ∧ (set_mode read start_ok req res s).2.1.result = false))
    ∧ (req.request_mode ≠ s.control_mode → req.request_mode = MODE_ACKERMANN →
        (s.control_mode = MODE_STOPPED →
          (set_mode read start_ok req res s).1.control_mode = MODE_ACKERMANN
          ∧ (set_mode read start_ok req res s).2.1.result = true)
        ∧ (s.control_mode ≠ MODE_STOPPED →
          (set_mode read start_ok req res s).1.control_mode = s.control_mode
          ∧ (set_mode read start_ok req res s).2.1.result = false))
    ∧ (req.request_mode = MODE_DIRECT_DRIVE →
        (set_mode read start_ok req res s).1.control_mode = MODE_DIRECT_DRIVE
        ∧ (set_mode read start_ok req res s).2.1.result = true)
    ∧ (req.request_mode ≠ s.control_mode →
        (req.request_mode = MODE_INIT ∨ req.request_mode = MODE_STOPPED) →
        (set_mode read start_ok req res s).1.control_mode = MODE_INIT
        ∧ (set_mode read start_ok req res s).2.1.result = true)
    ∧ (set_mode read start_ok req res s).2.1.result_mode
        = (set_mode read start_ok req res s).1.control_mode
    ∧ ((set_mode read start_ok req res s).1.control_mode ≠ s.control_mode →
        (set_mode read start_ok req res s).1.control_mode ≠ MODE_ROTATION
        ∧ (set_mode read start_ok req res s).1.control_mode ≠ MODE_STOPPED) := by
  obtain ⟨calls, hc⟩ := set_mode_gate read start_ok req res s gate
  rw [hc]
  simp only [mode_transition_mode, mode_transition_result, (mode_transition_rest _ _ _).1]
  clear hc gate
  obtain ⟨rm⟩ := req
  generalize s.control_mode = cur
  simp only [ MODE_INIT, MODE_INIT_ROTATION, MODE_ROTATION,
      MODE_ACKERMANN, MODE_DIRECT_DRIVE, MODE_STOPPED]
  refine ⟨?_, ?_, ?_, ?_, ?_, ?_, ?_⟩
  · rintro rfl; simp
  · intro h1 h2
    have h3 : ¬ cur = rm := fun h => h1 h.symm
    rcases h2 with rfl | rfl <;> constructor <;> intro h4 <;> simp [h3, h4]
  · rintro h1 rfl
    have h3 : ¬ cur = 3 := fun h => h1 h.symm
    constructor <;> intro h4 <;> simp [h3, h4]
  · rintro rfl
    by_cases h : cur = 4 <;> simp [h]
  · intro h1 h2
    have h3 : ¬ cur = rm := fun h => h1 h.symm
    rcases h2 with rfl | rfl <;> simp [h3]
  · trivial
  · intro h
    split_ifs at h ⊢ <;> omega

/-- C2, instance: ROTATION requested in STOPPED with the hardware in DRIVE. -/
theorem set_mode_transition_table_witness :
    (set_mode (some SM_DRIVE) false ⟨MODE_ROTATION⟩ ⟨false, 0⟩ (stoppedState ℚ)).1.control_mode
        = MODE_INIT_ROTATION
    ∧ (set_mode (some SM_DRIVE) false ⟨MODE_ROTATION⟩ ⟨false, 0⟩ (stoppedState ℚ)).2.1.result
        = true :=
  ((set_mode_transition_table (some SM_DRIVE) false ⟨MODE_ROTATION⟩ ⟨false, 0⟩ (stoppedState ℚ)
    (Or.inl rfl)).2.1 (by decide) (Or.inl rfl)).1 rfl

/-- C3: when `READ_STATE` fails, or the hardware state is none of INIT, STOP,
DRIVE, or the state is INIT or STOP, the request is not STOPPED and `START`
fails, `set_mode` returns false and leaves mode and watchdog as they were. -/
theorem set_mode_gate_failure {F : Type} [LinearOrderedField F] (read : Option Nat)
    (start_ok : Bool) (req : SetControlModeRequest) (res : SetControlModeResponse)
    (s : HDPCDrive F)
    (fail : read = none
      ∨ (∃ st, read = some st ∧ st ≠ SM_INIT ∧ st ≠ SM_STOP ∧ st ≠ SM_DRIVE)
      ∨ ((read = some SM_INIT ∨ read = some SM_STOP)
          ∧ req.request_mode ≠ MODE_STOPPED ∧ start_ok = false)) :
    (set_mode read start_ok req res s).2.2 = false
    ∧ (set_mode read start_ok req res s).1.control_mode = s.control_mode
    ∧ (set_mode read start_ok req res s).1.watchdog = s.watchdog := by
  rcases fail with rfl | ⟨st, rfl, h1, h2, h3⟩ | ⟨rfl | rfl, hr, rfl⟩
  · simp [set_mode]
  · simp [set_mode, h1, h2, h3]
  · simp [set_mode, hr]
  · simp [set_mode, hr]

/-- C3, instance: the hardware reports FAULT. -/
theorem set_mode_gate_failure_witness :
    (set_mode (some SM_FAULT) true ⟨MODE_DIRECT_DRIVE⟩ ⟨true, 9⟩ (stoppedState ℚ)).2.2 = false
    ∧ (set_mode (some SM_FAULT) true ⟨MODE_DIRECT_DRIVE⟩ ⟨true, 9⟩ (stoppedState ℚ)).1.control_mode
        = (stoppedState ℚ).control_mode
    ∧ (set_mode (some SM_FAULT) true ⟨MODE_DIRECT_DRIVE⟩ ⟨true, 9⟩ (stoppedState ℚ)).1.watchdog
        = (stoppedState ℚ).watchdog :=
  set_mode_gate_failure (some SM_FAULT) true ⟨MODE_DIRECT_DRIVE⟩ ⟨true, 9⟩ (stoppedState ℚ)
    (Or.inr (Or.inl ⟨SM_FAULT, rfl, by decide, by decide, by decide⟩))

/-- Ticks in a driving mode, as long as the watchdog lasts: each one takes one
from the watchdog and publishes the unchanged snapshot. -/
theorem run_ticks_driving {F : Type} [LinearOrderedField F] (m : Libm F) (nows : List Nat) :
    ∀ (s : HDPCDrive F),
      (s.control_mode = MODE_ROTATION ∨ s.control_mode = MODE_ACKERMANN
        ∨ s.control_mode = MODE_DIRECT_DRIVE) →
      nows.length ≤ s.watchdog →
      run_ticks m nows s
        = ({ s with watchdog := s.watchdog - nows.length },
            List.replicate nows.length (some s.commands)) := by
  induction nows with
  | nil => intro s _ _; simp [run_ticks]
  | cons now rest ih =>
    intro s hm hl
    simp only [List.length_cons] at hl
    have hne : s.watchdog ≠ 0 := by omega
    have h1 : ¬ s.control_mode = MODE_INIT := by
      rcases hm with h | h | h <;> rw [h] <;> decide
    have h2 : ¬ s.control_mode = MODE_INIT_ROTATION := by
      rcases hm with h | h | h <;> rw [h] <;> decide
    have hstep : main_loop_step m now s
        = ({ s with watchdog := s.watchdog - 1 }, some s.commands) := by
      have : uint_decrement s.watchdog = s.watchdog - 1 := by
        unfold uint_decrement
        rw [if_neg hne]
      simp [main_loop_step, h1, h2, hm, hne, this]
    simp only [run_ticks, hstep]
    have hrest := ih { s with watchdog := s.watchdog - 1 } hm
      (show rest.length ≤ s.watchdog - 1 by omega)
    rw [hrest]
    simp only [List.length_cons, List.replicate_succ, Nat.sub_sub, Nat.add_comm 1]

/-- C4: from a driving mode with the watchdog at 100 and no message arriving,
after `k <= 100` ticks the watchdog is `100 - k`, nothing else has changed and
each tick has published the unchanged snapshot; after 100 ticks the watchdog
is 0 and the next tick sets the mode to INIT and publishes nothing; and a
direct-drive message accepted after any number of these ticks sets the
watchdog to 100. -/
theorem watchdog_expiry {F : Type} [LinearOrderedField F] (m : Libm F) (s : HDPCDrive F)
    (hmode : s.control_mode = MODE_DIRECT_DRIVE ∨ s.control_mode = MODE_ROTATION
      ∨ s.control_mode = MODE_ACKERMANN)
    (hw : s.watchdog = WATCHDOG_INIT) :
    (∀ nows : List Nat, nows.length ≤ 100 →
      run_ticks m nows s
        = ({ s with watchdog := 100 - nows.length }, List.replicate nows.length (some s.commands)))
    ∧ (∀ (nows : List Nat) (now : Nat), nows.length = 100 →
      (run_ticks m nows s).1.watchdog = 0
      ∧ main_loop_step m now (run_ticks m nows s).1
        = ({ s with watchdog := 0, control_mode := MODE_INIT }, none))
    ∧ (∀ (nows : List Nat) (now : Nat) (msg : DirectDrive F), nows.length ≤ 100 →
      s.control_mode = MODE_DIRECT_DRIVE →
      (directDriveCallback now msg (run_ticks m nows s).1).watchdog = 100) := by
  have hm : s.control_mode = MODE_ROTATION ∨ s.control_mode = MODE_ACKERMANN
      ∨ s.control_mode = MODE_DIRECT_DRIVE := by tauto
  have key : ∀ nows : List Nat, nows.length ≤ 100 →
      run_ticks m nows s
        = ({ s with watchdog := 100 - nows.length },
            List.replicate nows.length (some s.commands)) := by
    intro nows hl
    rw [run_ticks_driving m nows s hm (by rw [hw]; exact hl), hw]
    rfl
  refine ⟨key, fun nows now hl => ?_, fun nows now msg hl hdd => ?_⟩
  · rw [key nows (le_of_eq hl), hl]
    have h1 : ¬ s.control_mode = MODE_INIT := by
      rcases hm with h | h | h <;> rw [h] <;> decide
    have h2 : ¬ s.control_mode = MODE_INIT_ROTATION := by
      rcases hm with h | h | h <;> rw [h] <;> decide
    simp [main_loop_step, h1, h2, hm]
  · rw [key nows hl]
    simp [directDriveCallback, hdd, WATCHDOG_INIT]

/-- C4, instance: three ticks of direct driving. -/
theorem watchdog_expiry_witness :
    (directDriving ℝ).watchdog = WATCHDOG_INIT
    ∧ run_ticks realLibm [1, 2, 3] (directDriving ℝ)
        = ({ directDriving ℝ with watchdog := 100 - 3 },
            List.replicate 3 (some (directDriving ℝ).commands)) :=
  ⟨rfl, (watchdog_expiry realLibm (directDriving ℝ) (Or.inl rfl) rfl).1 [1, 2, 3] (by decide)⟩

/-- C8: a direct-drive message outside DIRECT_DRIVE, and a twist outside
ACKERMANN and ROTATION, leave the whole controller state (mode, watchdog,
command snapshot with its time stamp) as it was. -/
theorem rejected_commands_change_nothing {F : Type} [LinearOrderedField F] [FloorRing F] (m : Libm F)
    (now : Nat) (s : HDPCDrive F) :
    (∀ msg : DirectDrive F, s.control_mode ≠ MODE_DIRECT_DRIVE →
      directDriveCallback now msg s = s)
    ∧ (∀ msg : Twist F, s.control_mode ≠ MODE_ACKERMANN → s.control_mode ≠ MODE_ROTATION →
      ackermannCallback m now msg s = s) := by
  refine ⟨fun msg h => ?_, fun msg h1 h2 => ?_⟩
  · simp [directDriveCallback, h]
  · simp [ackermannCallback, h1, h2]

/-- C8, instance: a direct-drive message in mode STOPPED. -/
theorem rejected_commands_change_nothing_witness :
    directDriveCallback 5 ⟨fun _ => 1, fun _ => 1⟩ (stoppedState ℝ) = stoppedState ℝ :=
  (rejected_commands_change_nothing realLibm 5
    (stoppedState ℝ)).1 ⟨fun _ => 1, fun _ => 1⟩ (by decide)

/-! ## The wheel kinematics -/

/-- The nearest integer of a number in `(1/2, 1]` is 1. -/
theorem roundHalfEven_upper (x : ℝ) (h1 : 1 / 2 < x) (h2 : x ≤ 1) : roundHalfEven x = 1 := by
  rcases eq_or_lt_of_le h2 with rfl | hlt
  · simp [roundHalfEven]
  · have hf : ⌊x⌋ = 0 := Int.floor_eq_iff.mpr ⟨by simp; linarith, by simp; linarith⟩
    simp only [roundHalfEven, hf, Int.cast_zero, sub_zero]
    rw [if_neg (not_lt.mpr h1.le), if_pos h1]
    rfl

/-- The nearest integer of a number in `(-1, -1/2)` is -1. -/
theorem roundHalfEven_lower (x : ℝ) (h1 : -1 < x) (h2 : x < -(1 / 2)) : roundHalfEven x = -1 := by
  have hf : ⌊x⌋ = -1 := Int.floor_eq_iff.mpr ⟨by simp; linarith, by simp; linarith⟩
  simp only [roundHalfEven, hf]
  rw [if_pos (by push_cast; linarith)]

/-- Polar form of the point `(c, a)`: its norm times the sine and cosine of
`atan2 a c` gives back `a` and `c`. -/
theorem polar_components (a c : ℝ) :
    Real.sqrt (a * a + c * c) * Real.sin (Complex.arg ⟨c, a⟩) = a
    ∧ Real.sqrt (a * a + c * c) * Real.cos (Complex.arg ⟨c, a⟩) = c := by
  have habs : Complex.abs ⟨c, a⟩ = Real.sqrt (a * a + c * c) := by
    rw [Complex.abs_apply, Complex.normSq_mk, add_comm]
  by_cases hz : (⟨c, a⟩ : ℂ) = 0
  · have hc : c = 0 := by simpa using congrArg Complex.re hz
    have ha : a = 0 := by simpa using congrArg Complex.im hz
    subst hc; subst ha
    simp
  · have hpos : 0 < Complex.abs ⟨c, a⟩ := by simpa using hz
    rw [← habs, Complex.sin_arg, Complex.cos_arg hz]
    constructor
    · field_simp
    · field_simp

/-- For an angle `p` of `(-π, π]` with `|p| > π/2`, `remainder p π` is `p ∓ π`:
it lies in `[-π/2, π/2]` and negates sine and cosine. -/
theorem remainder_fold (p : ℝ) (h1 : -Real.pi < p) (h2 : p ≤ Real.pi) (h3 : Real.pi / 2 < |p|) :
    |realLibm.remainder p realLibm.M_PI| ≤ Real.pi / 2
    ∧ Real.sin (realLibm.remainder p realLibm.M_PI) = -Real.sin p
    ∧ Real.cos (realLibm.remainder p realLibm.M_PI) = -Real.cos p := by
  have hpi := Real.pi_pos
  simp only [realLibm]
  rcases lt_abs.mp h3 with h | h
  · have hr : roundHalfEven (p / Real.pi) = 1 :=
      roundHalfEven_upper _ (by rw [lt_div_iff₀ hpi]; linarith) (by rw [div_le_iff₀ hpi]; linarith)
    rw [hr]
    simp only [Int.cast_one, one_mul, Real.sin_sub_pi, Real.cos_sub_pi, and_self, and_true]
    rw [abs_le]; constructor <;> linarith
  · have hr : roundHalfEven (p / Real.pi) = -1 :=
      roundHalfEven_lower _ (by rw [lt_div_iff₀ hpi]; linarith) (by rw [div_lt_iff₀ hpi]; linarith)
    rw [hr]
    simp only [Int.cast_neg, Int.cast_one, neg_mul, one_mul, sub_neg_eq_add, Real.sin_add_pi,
      Real.cos_add_pi, and_self, and_true]
    rw [abs_le]; constructor <;> linarith

/-- C5: over the reals with wheel radius `R > 0`, for every command that is not
degenerate the commanded wheel speed `speed` and steering angle `φ` satisfy
`|φ| <= π/2`, `speed * R * sin φ = x_w * omega` and
`speed * R * cos φ = v - y_w * omega`, also when the raw angle is folded. -/
theorem vel_and_steering_round_trip (v_c omega_c x_w y_w : ℝ) (i_vel i_steer : Fin 10)
    (s : HDPCDrive ℝ) (hR : 0 < s.geom.rover_wheel_radius)
    (hnd : ¬ (|v_c| < 1e-2 ∧ |omega_c| < 1e-2)) :
    ∃ speed : ℝ,
      (vel_and_steering realLibm v_c omega_c i_vel (some i_steer) x_w y_w s).commands.velocity i_vel
        = Dbl.fin speed
      ∧ |(vel_and_steering realLibm v_c omega_c i_vel (some i_steer) x_w y_w s).commands.position
          i_steer| ≤ Real.pi / 2
      ∧ speed * s.geom.rover_wheel_radius
          * Real.sin ((vel_and_steering realLibm v_c omega_c i_vel (some i_steer) x_w y_w
              s).commands.position i_steer) = x_w * omega_c
      ∧ speed * s.geom.rover_wheel_radius
          * Real.cos ((vel_and_steering realLibm v_c omega_c i_vel (some i_steer) x_w y_w
              s).commands.position i_steer) = v_c - y_w * omega_c := by
  have hnd' : ¬ (|omega_c| < 1e-2 ∧ |v_c| < 1e-2) := fun h => hnd ⟨h.2, h.1⟩
  have hR0 : s.geom.rover_wheel_radius ≠ 0 := ne_of_gt hR
  obtain ⟨hsin, hcos⟩ := polar_components (x_w * omega_c) (v_c - y_w * omega_c)
  have hdiv : ∀ t : ℝ, Dbl.div (Dbl.fin t) (Dbl.fin s.geom.rover_wheel_radius)
      = Dbl.fin (t / s.geom.rover_wheel_radius) := by
    intro t; simp [Dbl.div, hR0]
  have hmul : ∀ t : ℝ, t / s.geom.rover_wheel_radius * s.geom.rover_wheel_radius = t :=
    fun t => div_mul_cancel₀ t hR0
  by_cases hflip : Real.pi / 2 < |Complex.arg ⟨v_c - y_w * omega_c, x_w * omega_c⟩|
  · obtain ⟨hb, hs, hc⟩ := remainder_fold _ (Complex.neg_pi_lt_arg _) (Complex.arg_le_pi _) hflip
    have hpos : (vel_and_steering realLibm v_c omega_c i_vel (some i_steer) x_w y_w
              s).commands.position i_steer
          = realLibm.remainder (Complex.arg ⟨v_c - y_w * omega_c, x_w * omega_c⟩) realLibm.M_PI := by
      simp [vel_and_steering, hnd', realLibm, hflip]
    refine ⟨Real.sqrt (SQR (x_w * omega_c) + SQR (v_c - y_w * omega_c))
      / s.geom.rover_wheel_radius * (-1), ?_, ?_, ?_, ?_⟩
    · simp [vel_and_steering, hnd', hdiv, Dbl.negate, realLibm, hflip]
    · rw [hpos]; exact hb
    · rw [hpos, hs]
      simp only [SQR]
      rw [show ∀ t u : ℝ, t / s.geom.rover_wheel_radius * (-1) * s.geom.rover_wheel_radius * (-u)
          = t / s.geom.rover_wheel_radius * s.geom.rover_wheel_radius * u from
        fun t u => by ring, hmul]
      exact hsin
    · rw [hpos, hc]
      simp only [SQR]
      rw [show ∀ t u : ℝ, t / s.geom.rover_wheel_radius * (-1) * s.geom.rover_wheel_radius * (-u)
          = t / s.geom.rover_wheel_radius * s.geom.rover_wheel_radius * u from
        fun t u => by ring, hmul]
      exact hcos
  · have hpos : (vel_and_steering realLibm v_c omega_c i_vel (some i_steer) x_w y_w
              s).commands.position i_steer
          = Complex.arg ⟨v_c - y_w * omega_c, x_w * omega_c⟩ := by
      simp [vel_and_steering, hnd', realLibm, hflip]
    refine ⟨Real.sqrt (SQR (x_w * omega_c) + SQR (v_c - y_w * omega_c))
      / s.geom.rover_wheel_radius, ?_, ?_, ?_, ?_⟩
    · simp [vel_and_steering, hnd', hdiv, realLibm, hflip]
    · rw [hpos]; exact not_lt.mp hflip
    · rw [hpos, hmul]
      exact hsin
    · rw [hpos, hmul]
      exact hcos

/-- C5, instance: driving straight backwards, where the raw angle is `π` and
the wheel is flipped. -/
theorem vel_and_steering_round_trip_witness :
    0 < (expiredDirectDrive ℝ).geom.rover_wheel_radius
    ∧ ¬ (|(-1 : ℝ)| < 1e-2 ∧ |(0 : ℝ)| < 1e-2)
    ∧ ∃ speed : ℝ,
      (vel_and_steering realLibm (-1) 0 DRIVE_FRONT_LEFT (some STEERING_FRONT_LEFT) 1 (1 / 2)
          (expiredDirectDrive ℝ)).commands.velocity DRIVE_FRONT_LEFT = Dbl.fin speed
      ∧ |(vel_and_steering realLibm (-1) 0 DRIVE_FRONT_LEFT (some STEERING_FRONT_LEFT) 1 (1 / 2)
          (expiredDirectDrive ℝ)).commands.position STEERING_FRONT_LEFT| ≤ Real.pi / 2
      ∧ speed * (expiredDirectDrive ℝ).geom.rover_wheel_radius
          * Real.sin ((vel_and_steering realLibm (-1) 0 DRIVE_FRONT_LEFT
              (some STEERING_FRONT_LEFT) 1 (1 / 2)
              (expiredDirectDrive ℝ)).commands.position STEERING_FRONT_LEFT) = 1 * 0
      ∧ speed * (expiredDirectDrive ℝ).geom.rover_wheel_radius
          * Real.cos ((vel_and_steering realLibm (-1) 0 DRIVE_FRONT_LEFT
              (some STEERING_FRONT_LEFT) 1 (1 / 2)
              (expiredDirectDrive ℝ)).commands.position STEERING_FRONT_LEFT)
            = -1 - 1 / 2 * 0 :=
  have hR : 0 < (expiredDirectDrive ℝ).geom.rover_wheel_radius := by
    norm_num [expiredDirectDrive]
  have hnd : ¬ (|(-1 : ℝ)| < 1e-2 ∧ |(0 : ℝ)| < 1e-2) := by norm_num
  ⟨hR, hnd, vel_and_steering_round_trip (-1) 0 1 (1 / 2) DRIVE_FRONT_LEFT STEERING_FRONT_LEFT
    (expiredDirectDrive ℝ) hR hnd⟩

/-! ## The conversion to `float` -/

theorem roundHalfEven_near {F : Type} [LinearOrderedField F] [FloorRing F] (x : F) :
    (roundHalfEven x : F) - x ≤ 1 / 2 ∧ x - (roundHalfEven x : F) ≤ 1 / 2 := by
  have h1 := Int.floor_le x
  have h2 := Int.lt_floor_add_one x
  unfold roundHalfEven
  split_ifs with a b c
  · constructor <;> linarith
  · push_cast
    constructor <;> linarith
  · constructor <;> linarith
  · push_cast
    have : x - ⌊x⌋ = 1 / 2 := le_antisymm (not_lt.mp b) (not_lt.mp a)
    constructor <;> linarith

/-- An integer within less than one half of a number is its rounding. -/
theorem roundHalfEven_eq {F : Type} [LinearOrderedField F] [FloorRing F]
    (x : F) (n : ℤ) (h1 : (n : F) - x < 1 / 2) (h2 : x - (n : F) < 1 / 2) :
    roundHalfEven x = n := by
  obtain ⟨a, b⟩ := roundHalfEven_near x
  have h3 : ((roundHalfEven x - n : ℤ) : F) < 1 := by push_cast; linarith
  have h4 : (-1 : F) < ((roundHalfEven x - n : ℤ) : F) := by push_cast; linarith
  have h5 : roundHalfEven x - n < 1 := by exact_mod_cast h3
  have h6 : -1 < roundHalfEven x - n := by exact_mod_cast h4
  omega

/-- The rounding of an integer is the integer. -/
theorem roundHalfEven_int {F : Type} [LinearOrderedField F] [FloorRing F]
    (n : ℤ) : roundHalfEven (n : F) = n :=
  roundHalfEven_eq _ n (by simp) (by simp)

/-- The rounding is monotone. -/
theorem roundHalfEven_mono {F : Type} [LinearOrderedField F] [FloorRing F]
    {x y : F} (h : x ≤ y) : roundHalfEven x ≤ roundHalfEven y := by
  have hf : ⌊x⌋ ≤ ⌊y⌋ := Int.floor_mono h
  have hx1 := Int.floor_le x
  have hx2 := Int.lt_floor_add_one x
  have hy1 := Int.floor_le y
  have hy2 := Int.lt_floor_add_one y
  rcases lt_or_eq_of_le hf with hlt | heq
  · -- the floors differ, so the rounding of x is at most floor x + 1 <= floor y
    have a : roundHalfEven x ≤ ⌊x⌋ + 1 := by
      unfold roundHalfEven; split_ifs <;> omega
    have b : ⌊y⌋ ≤ roundHalfEven y := by
      unfold roundHalfEven; split_ifs <;> omega
    omega
  · unfold roundHalfEven
    rw [← heq]
    split_ifs <;> first | omega | (exfalso; linarith)

/-- The rounding is odd: ties go to the even integer on both sides of 0. -/
theorem roundHalfEven_neg {F : Type} [LinearOrderedField F] [FloorRing F]
    (x : F) : roundHalfEven (-x) = -roundHalfEven x := by
  obtain ⟨a, b⟩ := roundHalfEven_near x
  obtain ⟨c, d⟩ := roundHalfEven_near (-x)
  -- both are within 1/2 of -x; they can differ only at a tie
  by_cases hfrac : x - ⌊x⌋ = 1 / 2
  · -- tie: x = floor x + 1/2, and -x = -(floor x + 1) + 1/2
    have hfl : ⌊-x⌋ = -⌊x⌋ - 1 := by
      rw [Int.floor_eq_iff]
      push_cast
      constructor <;> linarith
    have hfrac2 : -x - ⌊-x⌋ = 1 / 2 := by
      rw [hfl]; push_cast; linarith
    unfold roundHalfEven
    rw [hfrac2, hfrac, hfl]
    simp only [lt_self_iff_false, if_false]
    split_ifs <;> omega
  · -- no tie: the strict bounds decide
    have hne : (roundHalfEven x : F) - x ≠ 1 / 2 ∧ x - (roundHalfEven x : F) ≠ 1 / 2 := by
      have h1 := Int.floor_le x
      have h2 := Int.lt_floor_add_one x
      unfold roundHalfEven
      split_ifs with p q r
      · constructor
        · intro e; linarith
        · intro e; exact hfrac e
      · push_cast
        constructor
        · intro e; apply hfrac; linarith
        · intro e; linarith
      · exact absurd (le_antisymm (not_lt.mp q) (not_lt.mp p)) hfrac
      · exact absurd (le_antisymm (not_lt.mp q) (not_lt.mp p)) hfrac
    apply roundHalfEven_eq
    · push_cast
      have := lt_of_le_of_ne b hne.2
      linarith
    · push_cast
      have := lt_of_le_of_ne a hne.1
      linarith

/-- The rounding of a number half-way between an odd integer and the next. -/
theorem roundHalfEven_half_odd {F : Type} [LinearOrderedField F] [FloorRing F] (n : ℤ)
    (hn : n % 2 = 1) : roundHalfEven ((n : F) + 1 / 2) = n + 1 := by
  have hf : ⌊(n : F) + 1 / 2⌋ = n := by
    rw [Int.floor_eq_iff]
    constructor <;> linarith
  unfold roundHalfEven
  rw [hf]
  have e : (n : F) + 1 / 2 - (n : F) = 1 / 2 := by ring
  rw [e, if_neg (lt_irrefl _), if_neg (lt_irrefl _), if_neg (by omega)]

theorem float_exponent_neg {F : Type} [LinearOrderedField F] [FloorRing F]
    (x : F) : float_exponent (-x) = float_exponent x := by
  unfold float_exponent; rw [abs_neg]

theorem float_ulp_neg {F : Type} [LinearOrderedField F] [FloorRing F]
    (x : F) : float_ulp (-x) = float_ulp x := by
  unfold float_ulp; rw [float_exponent_neg]

theorem float_ulp_pos {F : Type} [LinearOrderedField F] [FloorRing F]
    (x : F) : 0 < float_ulp x := zpow_pos (by norm_num) _

theorem float_exponent_ge {F : Type} [LinearOrderedField F] [FloorRing F]
    (x : F) : -126 ≤ float_exponent x := le_max_right _ _

/-- The conversion of 0 is 0. -/
theorem to_float32_zero {F : Type} [LinearOrderedField F] [FloorRing F] :
    to_float32 (0 : F) = 0 := by
  unfold to_float32
  rw [zero_div]
  have : roundHalfEven (0 : F) = 0 := by
    have := roundHalfEven_int (F := F) 0
    simpa using this
  rw [this]; simp

/-- The conversion is odd. -/
theorem to_float32_neg {F : Type} [LinearOrderedField F] [FloorRing F]
    (x : F) : to_float32 (-x) = -to_float32 x := by
  unfold to_float32
  rw [float_ulp_neg, neg_div, roundHalfEven_neg]
  push_cast
  ring

/-- Below the next power of two. -/
theorem abs_lt_two_zpow {F : Type} [LinearOrderedField F] [FloorRing F]
    (x : F) : |x| < (2 : F) ^ (float_exponent x + 1) := by
  have h := Int.lt_zpow_succ_log_self (R := F) (b := 2) (by norm_num) |x|
  have h2 : ((2 : ℕ) : F) = 2 := by norm_num
  rw [h2] at h
  refine lt_of_lt_of_le h ?_
  apply zpow_le_zpow_right₀ (by norm_num)
  have : Int.log 2 |x| ≤ float_exponent x := le_max_left _ _
  omega

/-- A nonzero number whose exponent is above the least one is at least the power of two. -/
theorem two_zpow_le_abs {F : Type} [LinearOrderedField F] [FloorRing F]
    (x : F) (hx : x ≠ 0) (h : -126 < float_exponent x) :
    (2 : F) ^ float_exponent x ≤ |x| := by
  have he : float_exponent x = Int.log 2 |x| := by
    unfold float_exponent at h ⊢
    rcases max_choice (Int.log 2 |x|) (-126) with e | e
    · exact e
    · rw [e] at h; exact absurd h (lt_irrefl _)
  have h1 := Int.zpow_log_le_self (R := F) (b := 2) (by norm_num) (abs_pos.mpr hx)
  have h2 : ((2 : ℕ) : F) = 2 := by norm_num
  rw [h2] at h1
  rw [he]; exact h1

/-- The exponent grows with the absolute value. -/
theorem float_exponent_mono {F : Type} [LinearOrderedField F] [FloorRing F]
    {x y : F} (hx : x ≠ 0) (h : |x| ≤ |y|) :
    float_exponent x ≤ float_exponent y := by
  unfold float_exponent
  exact max_le_max (Int.log_mono_right (abs_pos.mpr hx) h) le_rfl

/-- The exponent of a number between two consecutive powers of two. -/
theorem float_exponent_eq {F : Type} [LinearOrderedField F] [FloorRing F]
    (x : F) (e : ℤ) (he : -126 ≤ e) (h1 : (2 : F) ^ e ≤ |x|)
    (h2 : |x| < (2 : F) ^ (e + 1)) : float_exponent x = e := by
  have hx : 0 < |x| := lt_of_lt_of_le (zpow_pos (by norm_num) _) h1
  have h3 : ((2 : ℕ) : F) = 2 := by norm_num
  have a : e ≤ Int.log 2 |x| := by
    rw [← Int.zpow_le_iff_le_log (by norm_num) hx, h3]; exact h1
  have b : Int.log 2 |x| < e + 1 := by
    rw [← Int.lt_zpow_iff_log_lt (by norm_num) hx, h3]; exact h2
  unfold float_exponent
  rw [max_eq_left (by omega)]
  omega

/-- The value of the conversion at a number of a known binade. -/
theorem to_float32_eval {F : Type} [LinearOrderedField F] [FloorRing F]
    (x : F) (e n : ℤ) (he : -126 ≤ e) (h1 : (2 : F) ^ e ≤ |x|)
    (h2 : |x| < (2 : F) ^ (e + 1)) (h3 : (n : F) - x / (2 : F) ^ (e - 23) < 1 / 2)
    (h4 : x / (2 : F) ^ (e - 23) - (n : F) < 1 / 2) :
    to_float32 x = (n : F) * (2 : F) ^ (e - 23) := by
  unfold to_float32 float_ulp
  rw [float_exponent_eq x e he h1 h2, roundHalfEven_eq _ n h3 h4]

/-- The value of the conversion at a number half-way between two `float`
values, the lower one with an odd significand. -/
theorem to_float32_eval_tie {F : Type} [LinearOrderedField F] [FloorRing F] (x : F) (e n : ℤ)
    (he : -126 ≤ e) (h1 : (2 : F) ^ e ≤ |x|) (h2 : |x| < (2 : F) ^ (e + 1))
    (hn : n % 2 = 1) (h3 : x / (2 : F) ^ (e - 23) = (n : F) + 1 / 2) :
    to_float32 x = ((n + 1 : ℤ) : F) * (2 : F) ^ (e - 23) := by
  unfold to_float32 float_ulp
  rw [float_exponent_eq x e he h1 h2, h3, roundHalfEven_half_odd n hn]

/-- The conversion keeps the sign. -/
theorem to_float32_nonneg {F : Type} [LinearOrderedField F] [FloorRing F]
    {x : F} (h : 0 ≤ x) : 0 ≤ to_float32 x := by
  unfold to_float32
  apply mul_nonneg _ (float_ulp_pos x).le
  have h0 : roundHalfEven (0 : F) ≤ roundHalfEven (x / float_ulp x) :=
    roundHalfEven_mono (div_nonneg h (float_ulp_pos x).le)
  have hz : roundHalfEven (0 : F) = 0 := by
    have := roundHalfEven_int (F := F) 0
    simpa using this
  rw [hz] at h0
  exact_mod_cast h0

theorem float_ulp_mul_23 {F : Type} [LinearOrderedField F] [FloorRing F]
    (x : F) : (8388608 : F) * float_ulp x = (2 : F) ^ float_exponent x := by
  unfold float_ulp
  have h : (8388608 : F) = (2 : F) ^ (23 : ℤ) := by norm_num
  rw [h, ← zpow_add₀ (by norm_num)]
  congr 1
  ring

theorem float_ulp_mul_24 {F : Type} [LinearOrderedField F] [FloorRing F] (x : F) :
    (16777216 : F) * float_ulp x = (2 : F) ^ (float_exponent x + 1) := by
  unfold float_ulp
  have h : (16777216 : F) = (2 : F) ^ (24 : ℤ) := by norm_num
  rw [h, ← zpow_add₀ (by norm_num)]
  congr 1
  ring

/-- The scaled significand of a number is at most 2^24. -/
theorem significand_le {F : Type} [LinearOrderedField F] [FloorRing F]
    (x : F) : roundHalfEven (|x| / float_ulp x) ≤ 16777216 := by
  have hb := abs_lt_two_zpow x
  have hq : |x| / float_ulp x ≤ ((16777216 : ℤ) : F) := by
    rw [div_le_iff₀ (float_ulp_pos x)]
    push_cast
    rw [float_ulp_mul_24]; exact hb.le
  have hr := roundHalfEven_mono hq
  rw [roundHalfEven_int] at hr
  exact hr

/-- The scaled significand of a normal number is at least 2^23. -/
theorem significand_ge {F : Type} [LinearOrderedField F] [FloorRing F]
    (x : F) (hx : x ≠ 0) (h : -126 < float_exponent x) :
    8388608 ≤ roundHalfEven (|x| / float_ulp x) := by
  have hb := two_zpow_le_abs x hx h
  have hq : ((8388608 : ℤ) : F) ≤ |x| / float_ulp x := by
    rw [le_div_iff₀ (float_ulp_pos x)]
    push_cast
    rw [float_ulp_mul_23]; exact hb
  have hr := roundHalfEven_mono hq
  rw [roundHalfEven_int] at hr
  exact hr

/-- The conversion is monotone on the numbers that are not negative. -/
theorem to_float32_mono_nonneg {F : Type} [LinearOrderedField F] [FloorRing F]
    {x y : F} (hx : 0 ≤ x) (h : x ≤ y) :
    to_float32 x ≤ to_float32 y := by
  rcases hx.lt_or_eq with hpos | h0
  swap
  · rw [← h0, to_float32_zero]; exact to_float32_nonneg (h0 ▸ h)
  have hy : 0 < y := lt_of_lt_of_le hpos h
  have hxy : |x| ≤ |y| := by rw [abs_of_pos hpos, abs_of_pos hy]; exact h
  have hexp := float_exponent_mono (ne_of_gt hpos) hxy
  rcases hexp.lt_or_eq with hlt | heq
  · -- different binades: a power of two lies between the two results
    have a : to_float32 x ≤ (2 : F) ^ (float_exponent x + 1) := by
      have hr := significand_le x
      rw [abs_of_pos hpos] at hr
      unfold to_float32
      rw [← float_ulp_mul_24]
      apply mul_le_mul_of_nonneg_right _ (float_ulp_pos x).le
      exact_mod_cast hr
    have b : (2 : F) ^ float_exponent y ≤ to_float32 y := by
      have hgt : -126 < float_exponent y := lt_of_le_of_lt (float_exponent_ge x) hlt
      have hr := significand_ge y (ne_of_gt hy) hgt
      rw [abs_of_pos hy] at hr
      unfold to_float32
      rw [← float_ulp_mul_23]
      apply mul_le_mul_of_nonneg_right _ (float_ulp_pos y).le
      exact_mod_cast hr
    have c : (2 : F) ^ (float_exponent x + 1) ≤ (2 : F) ^ float_exponent y :=
      zpow_le_zpow_right₀ (by norm_num) (by omega)
    exact le_trans a (le_trans c b)
  · -- the same binade: the rounding to the nearest integer is monotone
    unfold to_float32 float_ulp
    rw [← heq]
    apply mul_le_mul_of_nonneg_right _ (zpow_pos (by norm_num) _).le
    have : roundHalfEven (x / (2 : F) ^ (float_exponent x - 23))
        ≤ roundHalfEven (y / (2 : F) ^ (float_exponent x - 23)) :=
      roundHalfEven_mono (div_le_div_of_nonneg_right h (zpow_pos (by norm_num) _).le)
    exact_mod_cast this

/-- The conversion is monotone. -/
theorem to_float32_mono {F : Type} [LinearOrderedField F] [FloorRing F] :
    Monotone (to_float32 : F → F) := by
  intro x y h
  rcases le_or_lt 0 x with hx | hx
  · exact to_float32_mono_nonneg hx h
  · rcases le_or_lt 0 y with hy | hy
    · have a : to_float32 x ≤ 0 := by
        have := to_float32_nonneg (x := -x) (by linarith)
        rw [to_float32_neg] at this
        linarith
      exact le_trans a (to_float32_nonneg hy)
    · have := to_float32_mono_nonneg (x := -y) (y := -x) (by linarith) (by linarith)
      rw [to_float32_neg, to_float32_neg] at this
      linarith

/-- The exponent of a number below a power of two. -/
theorem float_exponent_le {F : Type} [LinearOrderedField F] [FloorRing F]
    (y : F) (e : ℤ) (he : -126 ≤ e) (hy : y ≠ 0)
    (h : |y| < (2 : F) ^ (e + 1)) : float_exponent y ≤ e := by
  have h3 : ((2 : ℕ) : F) = 2 := by norm_num
  have b : Int.log 2 |y| < e + 1 := by
    rw [← Int.lt_zpow_iff_log_lt (by norm_num) (abs_pos.mpr hy), h3]; exact h
  unfold float_exponent
  exact max_le (by omega) he

/-- A number `n * 2 ^ (e - 23)` with a significand `n` of 24 bits, normalised
unless `e` is the least exponent, is a `float`: the conversion returns it. -/
theorem to_float32_repr {F : Type} [LinearOrderedField F] [FloorRing F]
    (n e : ℤ) (he : -126 ≤ e) (hn : |n| < 16777216)
    (h : e = -126 ∨ 8388608 ≤ |n|) :
    to_float32 ((n : F) * (2 : F) ^ (e - 23)) = (n : F) * (2 : F) ^ (e - 23) := by
  by_cases hn0 : n = 0
  · rw [hn0]; simp [to_float32_zero]
  have hu : (0 : F) < (2 : F) ^ (e - 23) := zpow_pos (by norm_num) _
  have hy0 : (n : F) * (2 : F) ^ (e - 23) ≠ 0 :=
    mul_ne_zero (Int.cast_ne_zero.mpr hn0) (ne_of_gt hu)
  have habs : |(n : F) * (2 : F) ^ (e - 23)| = ((|n| : ℤ) : F) * (2 : F) ^ (e - 23) := by
    rw [abs_mul, abs_of_pos hu, Int.cast_abs]
  have h24 : (16777216 : F) * (2 : F) ^ (e - 23) = (2 : F) ^ (e + 1) := by
    have h : (16777216 : F) = (2 : F) ^ (24 : ℤ) := by norm_num
    rw [h, ← zpow_add₀ (by norm_num)]
    congr 1
    ring
  have h23 : (8388608 : F) * (2 : F) ^ (e - 23) = (2 : F) ^ e := by
    have h : (8388608 : F) = (2 : F) ^ (23 : ℤ) := by norm_num
    rw [h, ← zpow_add₀ (by norm_num)]
    congr 1
    ring
  have hup : |(n : F) * (2 : F) ^ (e - 23)| < (2 : F) ^ (e + 1) := by
    rw [habs, ← h24]
    apply mul_lt_mul_of_pos_right _ hu
    exact_mod_cast hn
  have hexp : float_exponent ((n : F) * (2 : F) ^ (e - 23)) = e := by
    rcases h with h | h
    · exact le_antisymm (float_exponent_le _ e he hy0 hup) (h ▸ float_exponent_ge _)
    · apply float_exponent_eq _ e he _ hup
      rw [habs, ← h23]
      apply mul_le_mul_of_nonneg_right _ hu.le
      exact_mod_cast h
  unfold to_float32 float_ulp
  rw [hexp, mul_div_assoc, div_self (ne_of_gt hu), mul_one, roundHalfEven_int]

/-- The value of the conversion at a subnormal number. -/
theorem to_float32_eval_subnormal {F : Type} [LinearOrderedField F] [FloorRing F] (x : F)
    (n : ℤ) (hx : x ≠ 0) (h2 : |x| < (2 : F) ^ (-125 : ℤ))
    (h3 : (n : F) - x / (2 : F) ^ (-149 : ℤ) < 1 / 2)
    (h4 : x / (2 : F) ^ (-149 : ℤ) - (n : F) < 1 / 2) :
    to_float32 x = (n : F) * (2 : F) ^ (-149 : ℤ) := by
  have he : float_exponent x = -126 :=
    le_antisymm (float_exponent_le x (-126) le_rfl hx h2) (float_exponent_ge x)
  unfold to_float32 float_ulp
  rw [he]
  have e : (-126 : ℤ) - 23 = -149 := by norm_num
  rw [e, roundHalfEven_eq _ n h3 h4]

/-- The conversion returns a `float` unchanged: it is idempotent. -/
theorem to_float32_idem {F : Type} [LinearOrderedField F] [FloorRing F]
    (x : F) : to_float32 (to_float32 x) = to_float32 x := by
  have key : ∀ x : F, 0 ≤ x → to_float32 (to_float32 x) = to_float32 x := by
    intro x hx
    rcases hx.lt_or_eq with hpos | h0
    swap
    · rw [← h0, to_float32_zero, to_float32_zero]
    have hle := significand_le x
    rw [abs_of_pos hpos] at hle
    have hnn : 0 ≤ roundHalfEven (x / float_ulp x) := by
      have h0 : roundHalfEven (0 : F) ≤ roundHalfEven (x / float_ulp x) :=
        roundHalfEven_mono (div_nonneg hx (float_ulp_pos x).le)
      have hz : roundHalfEven (0 : F) = 0 := by
        have := roundHalfEven_int (F := F) 0
        simpa using this
      rw [hz] at h0
      exact h0
    have hform : to_float32 x
        = ((roundHalfEven (x / float_ulp x) : ℤ) : F) * (2 : F) ^ (float_exponent x - 23) := rfl
    rcases hle.lt_or_eq with hlt | heq
    · rw [hform]
      apply to_float32_repr _ _ (float_exponent_ge x) (by rw [abs_of_nonneg hnn]; exact hlt)
      rcases (float_exponent_ge x).lt_or_eq with hgt | heq
      · right
        have := significand_ge x (ne_of_gt hpos) hgt
        rw [abs_of_pos hpos] at this
        rw [abs_of_nonneg hnn]; exact this
      · left; exact heq.symm
    · have e2 : to_float32 x
          = ((8388608 : ℤ) : F) * (2 : F) ^ ((float_exponent x + 1) - 23) := by
        rw [hform, heq]
        push_cast
        have h : (16777216 : F) = 8388608 * (2 : F) ^ (1 : ℤ) := by norm_num
        rw [h, mul_assoc, ← zpow_add₀ (by norm_num)]
        congr 2
        ring
      rw [e2]
      exact to_float32_repr _ _ (by have := float_exponent_ge x; omega) (by norm_num)
        (Or.inr (by norm_num))
  rcases le_or_lt 0 x with hx | hx
  · exact key x hx
  · have := key (-x) (by linarith)
    rw [to_float32_neg, to_float32_neg, neg_inj] at this
    exact this

/-- The number 1 is a `float`. -/
theorem to_float32_one {F : Type} [LinearOrderedField F] [FloorRing F] :
    to_float32 (1 : F) = 1 := by
  have := to_float32_repr (F := F) 8388608 0 (by norm_num) (by norm_num) (Or.inr (by norm_num))
  norm_num at this
  exact this

/-- The number `1/2` is a `float`. -/
theorem to_float32_half {F : Type} [LinearOrderedField F] [FloorRing F] :
    to_float32 (1 / 2 : F) = 1 / 2 := by
  have := to_float32_repr (F := F) 8388608 (-1) (by norm_num) (by norm_num)
    (Or.inr (by norm_num))
  norm_num at this
  exact this

/-- The `float` nearest to `4/5`. -/
theorem to_float32_four_fifths {F : Type} [LinearOrderedField F] [FloorRing F] :
    to_float32 (4 / 5 : F) = 13421773 / 16777216 := by
  have := to_float32_eval (4 / 5 : F) (-1) 13421773 (by norm_num)
    (by norm_num [abs_of_pos]) (by norm_num [abs_of_pos]) (by norm_num) (by norm_num)
  rw [this]; norm_num

/-- The `float` nearest to `1/10`. -/
theorem to_float32_tenth {F : Type} [LinearOrderedField F] [FloorRing F] :
    to_float32 (1 / 10 : F) = 13421773 / 134217728 := by
  have := to_float32_eval (1 / 10 : F) (-4) 13421773 (by norm_num)
    (by norm_num [abs_of_pos]) (by norm_num [abs_of_pos]) (by norm_num) (by norm_num)
  rw [this]; norm_num

/-- The `float` nearest to `2/5`. -/
theorem to_float32_two_fifths {F : Type} [LinearOrderedField F] [FloorRing F] :
    to_float32 (2 / 5 : F) = 13421773 / 33554432 := by
  have := to_float32_eval (2 / 5 : F) (-2) 13421773 (by norm_num)
    (by norm_num [abs_of_pos]) (by norm_num [abs_of_pos]) (by norm_num) (by norm_num)
  rw [this]; norm_num

/-- The `float` nearest to `1/100`. -/
theorem to_float32_hundredth {F : Type} [LinearOrderedField F] [FloorRing F] :
    to_float32 (1 / 100 : F) = 10737418 / 1073741824 := by
  have := to_float32_eval (1 / 100 : F) (-7) 10737418 (by norm_num)
    (by norm_num [abs_of_pos]) (by norm_num [abs_of_pos]) (by norm_num) (by norm_num)
  rw [this]; norm_num

/-- The conversion of a number that is not positive is not positive. -/
theorem to_float32_nonpos {F : Type} [LinearOrderedField F] [FloorRing F] {x : F} (h : x ≤ 0) :
    to_float32 x ≤ 0 := by
  have := to_float32_nonneg (x := -x) (by linarith)
  rw [to_float32_neg] at this
  linarith

/-- The conversion commutes with the absolute value. -/
theorem abs_to_float32 {F : Type} [LinearOrderedField F] [FloorRing F] (x : F) :
    |to_float32 x| = to_float32 |x| := by
  rcases le_or_lt 0 x with h | h
  · rw [abs_of_nonneg h, abs_of_nonneg (to_float32_nonneg h)]
  · rw [abs_of_neg h, to_float32_neg, abs_of_nonpos (to_float32_nonpos h.le)]

/-- A number with a positive conversion is positive. -/
theorem pos_of_to_float32_pos {F : Type} [LinearOrderedField F] [FloorRing F] {x : F}
    (h : 0 < to_float32 x) : 0 < x := by
  by_contra hc
  exact absurd (to_float32_nonpos (not_lt.mp hc)) (not_le.mpr h)

/-- A number with a negative conversion is negative. -/
theorem neg_of_to_float32_neg {F : Type} [LinearOrderedField F] [FloorRing F] {x : F}
    (h : to_float32 x < 0) : x < 0 := by
  by_contra hc
  exact absurd (to_float32_nonneg (not_lt.mp hc)) (not_le.mpr h)

/-- The `float` nearest to the threshold `1e-2` lies below it. -/
theorem to_float32_hundredth_lt {F : Type} [LinearOrderedField F] [FloorRing F] :
    to_float32 (1e-2 : F) < 1e-2 := by
  have h : (1e-2 : F) = 1 / 100 := by norm_num
  rw [h, to_float32_hundredth]
  norm_num


/-! ## The command synthesis `drive_rover` -/

/-- The clamping returns its argument or one of the two bounds converted to
`float`. -/
theorem clamp_cases {F : Type} [LinearOrderedField F] [FloorRing F] (x b : F) :
    clamp x b = x ∨ clamp x b = to_float32 b ∨ clamp x b = to_float32 (-b) := by
  unfold clamp
  dsimp only
  split_ifs
  · exact Or.inr (Or.inr rfl)
  · exact Or.inr (Or.inl rfl)
  · exact Or.inr (Or.inr rfl)
  · exact Or.inl rfl

/-- The clamping of a `float` is a `float`. -/
theorem clamp_float {F : Type} [LinearOrderedField F] [FloorRing F] (x b : F)
    (hx : to_float32 x = x) : to_float32 (clamp x b) = clamp x b := by
  rcases clamp_cases x b with h | h | h <;> rw [h]
  · exact hx
  · exact to_float32_idem b
  · exact to_float32_idem (-b)

/-- The clamping keeps a `float` within the bound converted to `float`, when
the bound is not negative. -/
theorem clamp_abs_le {F : Type} [LinearOrderedField F] [FloorRing F] (x b : F) (hb : 0 ≤ b)
    (hx : to_float32 x = x) : |clamp x b| ≤ to_float32 b := by
  have hfb : 0 ≤ to_float32 b := to_float32_nonneg hb
  unfold clamp
  dsimp only
  split_ifs with h1 h2 h3
  · linarith
  · rw [abs_of_nonneg hfb]
  · rw [to_float32_neg, abs_neg, abs_of_nonneg hfb]
  · rw [abs_le]
    constructor
    · have := to_float32_mono (not_lt.mp h3)
      rw [to_float32_neg, hx] at this
      exact this
    · have := to_float32_mono (not_lt.mp h1)
      rw [hx] at this
      exact this

/-- The clamping of a value below the threshold `1e-2` stays below it, when
the bound is not negative. -/
theorem clamp_small {F : Type} [LinearOrderedField F] [FloorRing F] (x b : F) (hb : 0 ≤ b)
    (hx : |x| < 1e-2) : |clamp x b| < 1e-2 := by
  have hfb : 0 ≤ to_float32 b := to_float32_nonneg hb
  have hlt := to_float32_hundredth_lt (F := F)
  rw [abs_lt] at hx
  unfold clamp
  dsimp only
  split_ifs with h1 h2 h3
  · linarith
  · rw [abs_of_nonneg hfb]
    have := to_float32_mono (show b ≤ 1e-2 by linarith)
    linarith
  · rw [to_float32_neg, abs_neg, abs_of_nonneg hfb]
    have := to_float32_mono (show b ≤ 1e-2 by linarith)
    linarith
  · rw [abs_lt]
    exact hx

/-- The method `drive_rover` as clamping, `switch` and synthesis. -/
theorem drive_rover_eq {F : Type} [LinearOrderedField F] [FloorRing F] (m : Libm F) (now : Nat)
    (velocity omega : F) (s : HDPCDrive F) :
    drive_rover m now velocity omega s
      = match clip_cmd s.geom s.control_mode (clamp velocity s.max_linear_speed_m_per_s)
            (clamp omega s.max_rotation_speed_rad_per_s) with
        | none => stamp_commands now s
        | some (velocity, omega) => synthesize m velocity omega (stamp_commands now s) := rfl

/-- The method `drive_rover` when the `switch` leaves a pair. -/
theorem drive_rover_some {F : Type} [LinearOrderedField F] [FloorRing F] (m : Libm F) (now : Nat)
    (velocity omega : F) (s : HDPCDrive F) (v w : F)
    (h : clip_cmd s.geom s.control_mode (clamp velocity s.max_linear_speed_m_per_s)
      (clamp omega s.max_rotation_speed_rad_per_s) = some (v, w)) :
    drive_rover m now velocity omega s = synthesize m v w (stamp_commands now s) := by
  rw [drive_rover_eq, h]

/-- The method `ackermannCallback` in the two driving modes: the watchdog is
reset and `drive_rover` runs on the message converted to `float`. -/
theorem ackermannCallback_eq {F : Type} [LinearOrderedField F] [FloorRing F] (m : Libm F)
    (now : Nat) (msg : Twist F) (s : HDPCDrive F)
    (hmode : s.control_mode = MODE_ACKERMANN ∨ s.control_mode = MODE_ROTATION) :
    ackermannCallback m now msg s
      = drive_rover m now (to_float32 msg.linear_x) (to_float32 msg.angular_z)
          { s with watchdog := WATCHDOG_INIT } := by
  unfold ackermannCallback
  rw [if_neg]
  rintro ⟨h1, h2⟩
  rcases hmode with h | h
  · exact h1 h
  · exact h2 h

/-- The quotient of two `float` values with a divisor that is not 0. -/
theorem float_div_fin {F : Type} [LinearOrderedField F] [FloorRing F] (v w : F) (hw : w ≠ 0) :
    float_div v w = Dbl.fin (to_float32 (v / w)) := by
  simp [float_div, Dbl.div, hw]

/-- The quotient of a `float` that is not 0 by 0 is an infinity. -/
theorem float_div_zero {F : Type} [LinearOrderedField F] [FloorRing F] (v : F) (hv : v ≠ 0) :
    float_div v 0 = Dbl.inf (decide (v < 0)) := by
  simp [float_div, Dbl.div, hv]

/-- The `switch` in mode ACKERMANN for a command with `|velocity| > 1e-2`. -/
theorem clip_cmd_ackermann {F : Type} [LinearOrderedField F] [FloorRing F]
    (g : HDPCGeometry F) (v w : F) (hv : 1e-2 < |v|) :
    clip_cmd g MODE_ACKERMANN v w
      = some (v,
          if w ≠ 0 ∧ 0 ≤ to_float32 (v / w)
              ∧ to_float32 (v / w) ≤ (g.rover_width + g.rover_wheel_width) / 2 then
            to_float32 (2 * v / (g.rover_width + g.rover_wheel_width))
          else if w ≠ 0 ∧ to_float32 (v / w) < 0
              ∧ -(g.rover_width + g.rover_wheel_width) / 2 ≤ to_float32 (v / w) then
            to_float32 (-2 * v / (g.rover_width + g.rover_wheel_width))
          else w) := by
  have hv0 : v ≠ 0 := by
    intro h
    rw [h, abs_zero] at hv
    norm_num at hv
  have hm1 : ¬ (MODE_ACKERMANN = MODE_INIT ∨ MODE_ACKERMANN = MODE_DIRECT_DRIVE
      ∨ MODE_ACKERMANN = MODE_INIT_ROTATION) := by decide
  unfold clip_cmd
  simp only [if_neg hm1, if_true, gt_iff_lt, if_pos hv]
  by_cases hw : w = 0
  · subst hw
    rw [float_div_zero v hv0]
    cases decide (v < 0) <;> simp [Dbl.le, Dbl.lt]
  · rw [float_div_fin v w hw]
    simp only [Dbl.le, Dbl.lt, Bool.and_eq_true, decide_eq_true_eq, ne_eq, hw, not_false_eq_true,
      true_and]
    by_cases h1 : 0 ≤ to_float32 (v / w)
        ∧ to_float32 (v / w) ≤ (g.rover_width + g.rover_wheel_width) / 2
    · have h2 : ¬ (to_float32 (v / w) < 0
          ∧ -(g.rover_width + g.rover_wheel_width) / 2 ≤ to_float32 (v / w)) :=
        fun h => absurd h1.1 (not_le.mpr h.1)
      simp only [if_pos h1, if_neg h2]
    · simp only [if_neg h1]

/-- C6 (amended): in mode ACKERMANN, for a command whose clamped speed `v` has
`|v| > 1e-2` and whose clamped rate `omega` is not 0, with `r` the `float`
nearest to `v / omega`: when `0 <= r <= (W + w)/2` the wheel commands are
synthesized for `v` and the `float` nearest to `2 v / (W + w)`; when
`-(W + w)/2 <= r < 0`, for `v` and the `float` nearest to `-2 v / (W + w)`;
and when `r` is outside that zone (or `omega = 0`, where the quotient is not
a number), for `v` and `omega` unchanged. -/
theorem ackermann_clipping {F : Type} [LinearOrderedField F] [FloorRing F] (m : Libm F)
    (now : Nat) (velocity omega : F) (s : HDPCDrive F)
    (hmode : s.control_mode = MODE_ACKERMANN)
    (hv : 1e-2 < |clamp velocity s.max_linear_speed_m_per_s|) :
    (clamp omega s.max_rotation_speed_rad_per_s ≠ 0 →
      0 ≤ to_float32 (clamp velocity s.max_linear_speed_m_per_s
            / clamp omega s.max_rotation_speed_rad_per_s) →
      to_float32 (clamp velocity s.max_linear_speed_m_per_s
            / clamp omega s.max_rotation_speed_rad_per_s)
        ≤ (s.geom.rover_width + s.geom.rover_wheel_width) / 2 →
      drive_rover m now velocity omega s
        = synthesize m (clamp velocity s.max_linear_speed_m_per_s)
            (to_float32 (2 * clamp velocity s.max_linear_speed_m_per_s
              / (s.geom.rover_width + s.geom.rover_wheel_width)))
            (stamp_commands now s))
    ∧ (clamp omega s.max_rotation_speed_rad_per_s ≠ 0 →
      to_float32 (clamp velocity s.max_linear_speed_m_per_s
            / clamp omega s.max_rotation_speed_rad_per_s) < 0 →
      -(s.geom.rover_width + s.geom.rover_wheel_width) / 2
        ≤ to_float32 (clamp velocity s.max_linear_speed_m_per_s
            / clamp omega s.max_rotation_speed_rad_per_s) →
      drive_rover m now velocity omega s
        = synthesize m (clamp velocity s.max_linear_speed_m_per_s)
            (to_float32 (-2 * clamp velocity s.max_linear_speed_m_per_s
              / (s.geom.rover_width + s.geom.rover_wheel_width)))
            (stamp_commands now s))
    ∧ ((clamp omega s.max_rotation_speed_rad_per_s = 0
        ∨ (s.geom.rover_width + s.geom.rover_wheel_width) / 2
            < to_float32 (clamp velocity s.max_linear_speed_m_per_s
                / clamp omega s.max_rotation_speed_rad_per_s)
        ∨ to_float32 (clamp velocity s.max_linear_speed_m_per_s
                / clamp omega s.max_rotation_speed_rad_per_s)
            < -(s.geom.rover_width + s.geom.rover_wheel_width) / 2) →
      drive_rover m now velocity omega s
        = synthesize m (clamp velocity s.max_linear_speed_m_per_s)
            (clamp omega s.max_rotation_speed_rad_per_s) (stamp_commands now s)) := by
  rw [drive_rover_eq, hmode, clip_cmd_ackermann _ _ _ hv]
  refine ⟨fun hw h0 h1 => ?_, fun hw h0 h1 => ?_, fun h => ?_⟩
  · simp only [if_pos (show _ ∧ _ ∧ _ from ⟨hw, h0, h1⟩)]
  · have hn : ¬ (clamp omega s.max_rotation_speed_rad_per_s ≠ 0
        ∧ 0 ≤ to_float32 (clamp velocity s.max_linear_speed_m_per_s
            / clamp omega s.max_rotation_speed_rad_per_s)
        ∧ to_float32 (clamp velocity s.max_linear_speed_m_per_s
            / clamp omega s.max_rotation_speed_rad_per_s)
            ≤ (s.geom.rover_width + s.geom.rover_wheel_width) / 2) :=
      fun h => absurd h.2.1 (not_le.mpr h0)
    simp only [if_neg hn, if_pos (show _ ∧ _ ∧ _ from ⟨hw, h0, h1⟩)]
  · have hn1 : ¬ (clamp omega s.max_rotation_speed_rad_per_s ≠ 0
        ∧ 0 ≤ to_float32 (clamp velocity s.max_linear_speed_m_per_s
            / clamp omega s.max_rotation_speed_rad_per_s)
        ∧ to_float32 (clamp velocity s.max_linear_speed_m_per_s
            / clamp omega s.max_rotation_speed_rad_per_s)
            ≤ (s.geom.rover_width + s.geom.rover_wheel_width) / 2) := by
      rintro ⟨hw, h0, h1⟩
      rcases h with h | h | h
      · exact hw h
      · exact absurd h1 (not_le.mpr h)
      · linarith
    have hn2 : ¬ (clamp omega s.max_rotation_speed_rad_per_s ≠ 0
        ∧ to_float32 (clamp velocity s.max_linear_speed_m_per_s
            / clamp omega s.max_rotation_speed_rad_per_s) < 0
        ∧ -(s.geom.rover_width + s.geom.rover_wheel_width) / 2
          ≤ to_float32 (clamp velocity s.max_linear_speed_m_per_s
            / clamp omega s.max_rotation_speed_rad_per_s)) := by
      rintro ⟨hw, h0, h1⟩
      rcases h with h | h | h
      · exact hw h
      · linarith
      · exact absurd h1 (not_le.mpr h)
    simp only [if_neg hn1, if_neg hn2]

/-- The clamping of the command `(1/2, 1)` in the state `ackermannState`. -/
theorem clamp_half_one :
    clamp (1 / 2 : ℝ) (ackermannState ℝ).max_linear_speed_m_per_s = 1 / 2
    ∧ clamp (1 : ℝ) (ackermannState ℝ).max_rotation_speed_rad_per_s = 1 := by
  constructor <;> norm_num [clamp, ackermannState, expiredDirectDrive]

/-- C6, instance of the amended statement: `v = 1/2`, `omega = 1` with
`W + w = 5/4`. -/
theorem ackermann_clipping_witness :
    drive_rover realLibm 4 (1 / 2) 1 (ackermannState ℝ)
      = synthesize realLibm (clamp (1 / 2) (ackermannState ℝ).max_linear_speed_m_per_s)
          (to_float32 (2 * clamp (1 / 2) (ackermannState ℝ).max_linear_speed_m_per_s
            / ((ackermannState ℝ).geom.rover_width + (ackermannState ℝ).geom.rover_wheel_width)))
          (stamp_commands 4 (ackermannState ℝ)) :=
  (ackermann_clipping realLibm 4 (1 / 2) 1 (ackermannState ℝ) rfl
    (by rw [clamp_half_one.1]; norm_num [abs_div])).1
    (by rw [clamp_half_one.2]; norm_num)
    (by rw [clamp_half_one.1, clamp_half_one.2, div_one, to_float32_half]; norm_num)
    (by
      rw [clamp_half_one.1, clamp_half_one.2, div_one, to_float32_half]
      norm_num [ackermannState, expiredDirectDrive])

/-- C6, counterexample: in mode ACKERMANN the command `(1/2, 1)` is clamped to
itself, has `|v| > 1e-2` and the turning radius `1/2` inside the zone
`[0, 5/8]`, and the synthesis runs on the rate `13421773/16777216`, the
`float` nearest to `2 v / (W + w) = 4/5`, not on `4/5`. -/
theorem ackermann_clipping_rounded :
    (ackermannState ℝ).control_mode = MODE_ACKERMANN
    ∧ clamp (1 / 2 : ℝ) (ackermannState ℝ).max_linear_speed_m_per_s = 1 / 2
    ∧ clamp (1 : ℝ) (ackermannState ℝ).max_rotation_speed_rad_per_s = 1
    ∧ (1e-2 : ℝ) < |1 / 2|
    ∧ (0 : ℝ) ≤ 1 / 2 / 1
    ∧ (1 / 2 : ℝ) / 1 ≤ ((ackermannState ℝ).geom.rover_width
        + (ackermannState ℝ).geom.rover_wheel_width) / 2
    ∧ clip_cmd (ackermannState ℝ).geom (ackermannState ℝ).control_mode (1 / 2) 1
        = some (1 / 2, 13421773 / 16777216)
    ∧ drive_rover realLibm 4 (1 / 2) 1 (ackermannState ℝ)
        = synthesize realLibm (1 / 2) (13421773 / 16777216) (stamp_commands 4 (ackermannState ℝ))
    ∧ (13421773 / 16777216 : ℝ) ≠ 2 * (1 / 2) / ((ackermannState ℝ).geom.rover_width
        + (ackermannState ℝ).geom.rover_wheel_width) := by
  have hm : (ackermannState ℝ).control_mode = MODE_ACKERMANN := rfl
  have hB : (ackermannState ℝ).geom.rover_width + (ackermannState ℝ).geom.rover_wheel_width
      = 5 / 4 := by
    norm_num [ackermannState, expiredDirectDrive]
  have hclip : clip_cmd (ackermannState ℝ).geom (ackermannState ℝ).control_mode (1 / 2) 1
      = some ((1 / 2 : ℝ), (13421773 / 16777216 : ℝ)) := by
    rw [hm, clip_cmd_ackermann _ _ _ (by norm_num [abs_div]), hB, div_one, to_float32_half]
    have e : (2 : ℝ) * (1 / 2) / (5 / 4) = 4 / 5 := by norm_num
    rw [e, to_float32_four_fifths]
    norm_num
  refine ⟨hm, clamp_half_one.1, clamp_half_one.2, by norm_num [abs_div], by norm_num,
    by rw [hB]; norm_num, hclip, ?_, by rw [hB]; norm_num⟩
  rw [drive_rover_eq, clamp_half_one.1, clamp_half_one.2, hclip]

/-- The rate `2 v / B` is not larger than `omega` when `|v / omega| <= B / 2`. -/
theorem ack_bound {F : Type} [LinearOrderedField F] (v w B : F) (hw : w ≠ 0) (hB : 0 < B)
    (ht : |v / w| ≤ B / 2) : |2 * v / B| ≤ |w| := by
  have hw' : 0 < |w| := abs_pos.mpr hw
  rw [abs_div, div_le_iff₀ hw'] at ht
  rw [abs_div, abs_mul, abs_two, abs_of_pos hB, div_le_iff₀ hB]
  nlinarith

/-- The speed `omega * h` is not larger than `v` when `h <= |v / omega|`. -/
theorem rot_bound {F : Type} [LinearOrderedField F] (v w h : F) (hw : w ≠ 0) (hh : 0 ≤ h)
    (ht : h ≤ |v / w|) : |w * h| ≤ |v| := by
  have hw' : 0 < |w| := abs_pos.mpr hw
  rw [abs_div, le_div_iff₀ hw'] at ht
  rw [abs_mul, abs_of_nonneg hh]
  linarith [mul_comm |w| h]

/-- The `switch` in mode ROTATION for a command with `|omega| > 1e-2`. -/
theorem clip_cmd_rotation {F : Type} [LinearOrderedField F] [FloorRing F]
    (g : HDPCGeometry F) (v w : F) (hw : 1e-2 < |w|) :
    clip_cmd g MODE_ROTATION v w
      = some (
          (if to_float32 (v / w) < 0
              ∧ to_float32 (v / w) ≤ -(g.rover_width - g.rover_wheel_width) / 2 then
            to_float32 (-w * (g.rover_width - g.rover_wheel_width) / 2)
          else if 0 ≤ to_float32 (v / w)
              ∧ (g.rover_width - g.rover_wheel_width) / 2 ≤ to_float32 (v / w) then
            to_float32 (w * (g.rover_width - g.rover_wheel_width) / 2)
          else v), w) := by
  have hw0 : w ≠ 0 := by
    intro h
    rw [h, abs_zero] at hw
    norm_num at hw
  have hm1 : ¬ (MODE_ROTATION = MODE_INIT ∨ MODE_ROTATION = MODE_DIRECT_DRIVE
      ∨ MODE_ROTATION = MODE_INIT_ROTATION) := by decide
  have hm2 : ¬ MODE_ROTATION = MODE_ACKERMANN := by decide
  unfold clip_cmd
  simp only [if_neg hm1, if_neg hm2, if_true, gt_iff_lt, if_pos hw, float_div_fin v w hw0]
  simp only [Dbl.le, Dbl.lt, Bool.and_eq_true, decide_eq_true_eq]

/-- The `switch` in mode ACKERMANN for a command with `|velocity| <= 1e-2`, and
in mode ROTATION for a command with `|omega| <= 1e-2`: nothing is clipped. -/
theorem clip_cmd_small {F : Type} [LinearOrderedField F] [FloorRing F] (g : HDPCGeometry F)
    (v w : F) :
    (¬ 1e-2 < |v| → clip_cmd g MODE_ACKERMANN v w = some (v, w))
    ∧ (¬ 1e-2 < |w| → clip_cmd g MODE_ROTATION v w = some (v, w)) := by
  have hm1 : ¬ (MODE_ROTATION = MODE_INIT ∨ MODE_ROTATION = MODE_DIRECT_DRIVE
      ∨ MODE_ROTATION = MODE_INIT_ROTATION) := by decide
  have hm2 : ¬ MODE_ROTATION = MODE_ACKERMANN := by decide
  have hm3 : ¬ (MODE_ACKERMANN = MODE_INIT ∨ MODE_ACKERMANN = MODE_DIRECT_DRIVE
      ∨ MODE_ACKERMANN = MODE_INIT_ROTATION) := by decide
  constructor
  · intro h
    unfold clip_cmd
    simp only [if_neg hm3, if_true, gt_iff_lt, if_neg h]
  · intro h
    unfold clip_cmd
    simp only [if_neg hm1, if_neg hm2, if_true, gt_iff_lt, if_neg h]

/-- The limits after the `switch`, for a clamped pair of `float` values within
the limits `Lv` and `Lw`: the `switch` of mode ACKERMANN keeps the speed, and
keeps the rate within `Lw` when it leaves the rate or when `v / omega` is in
the zone; the `switch` of mode ROTATION keeps the rate, and keeps the speed
within `Lv` when it leaves the speed or when `v / omega` is beyond `h`. -/
theorem clip_cmd_limits {F : Type} [LinearOrderedField F] [FloorRing F] (g : HDPCGeometry F)
    (mode : Nat) (v0 w0 Lv Lw : F)
    (hmode : mode = MODE_ACKERMANN ∨ mode = MODE_ROTATION)
    (hwheel : 0 < g.rover_wheel_width) (hwidth : g.rover_wheel_width < g.rover_width)
    (hfv : to_float32 v0 = v0) (hfw : to_float32 w0 = w0)
    (hv : |v0| ≤ Lv) (hw : |w0| ≤ Lw) :
    ∃ v w : F, clip_cmd g mode v0 w0 = some (v, w)
      ∧ (mode = MODE_ACKERMANN →
          |v| ≤ Lv
          ∧ ((w = w0 ∨ |v0 / w0| ≤ (g.rover_width + g.rover_wheel_width) / 2) → |w| ≤ Lw))
      ∧ (mode = MODE_ROTATION →
          |w| ≤ Lw
          ∧ ((v = v0 ∨ (g.rover_width - g.rover_wheel_width) / 2 ≤ |v0 / w0|) → |v| ≤ Lv)) := by
  have hne : MODE_ACKERMANN ≠ MODE_ROTATION := by decide
  rcases hmode with hm | hm
  · subst hm
    by_cases hbig : 1e-2 < |v0|
    · rw [clip_cmd_ackermann _ _ _ hbig]
      refine ⟨_, _, rfl, fun _ => ⟨hv, ?_⟩, fun h => absurd h hne⟩
      have hB : 0 < g.rover_width + g.rover_wheel_width := by linarith
      intro hq
      split_ifs with h1 h2
      · rcases hq with hq | hq
        · rw [if_pos h1] at hq
          rw [hq]; exact hw
        · have hb := ack_bound v0 w0 _ h1.1 hB hq
          have := to_float32_mono hb
          rw [← abs_to_float32, ← abs_to_float32, hfw] at this
          exact le_trans this hw
      · rcases hq with hq | hq
        · rw [if_neg h1, if_pos h2] at hq
          rw [hq]; exact hw
        · have hb := ack_bound v0 w0 _ h2.1 hB hq
          have := to_float32_mono hb
          rw [← abs_to_float32, ← abs_to_float32, hfw] at this
          rw [neg_mul, neg_div, to_float32_neg, abs_neg]
          exact le_trans this hw
      · exact hw
    · exact ⟨_, _, (clip_cmd_small _ _ _).1 hbig, fun _ => ⟨hv, fun _ => hw⟩,
        fun h => absurd h hne⟩
  · subst hm
    by_cases hbig : 1e-2 < |w0|
    · have hw0 : w0 ≠ 0 := by
        intro h
        rw [h, abs_zero] at hbig
        norm_num at hbig
      rw [clip_cmd_rotation _ _ _ hbig]
      refine ⟨_, _, rfl, fun h => absurd h.symm hne, fun _ => ⟨hw, ?_⟩⟩
      have hh : 0 ≤ (g.rover_width - g.rover_wheel_width) / 2 := by linarith
      intro hq
      split_ifs with h1 h2
      · rcases hq with hq | hq
        · rw [if_pos h1] at hq
          rw [hq]; exact hv
        · have hb := rot_bound v0 w0 _ hw0 hh hq
          have := to_float32_mono hb
          rw [← abs_to_float32, ← abs_to_float32, hfv] at this
          rw [neg_mul, neg_div, to_float32_neg, abs_neg, mul_div_assoc]
          exact le_trans this hv
      · rcases hq with hq | hq
        · rw [if_neg h1, if_pos h2] at hq
          rw [hq]; exact hv
        · have hb := rot_bound v0 w0 _ hw0 hh hq
          have := to_float32_mono hb
          rw [← abs_to_float32, ← abs_to_float32, hfv] at this
          rw [mul_div_assoc]
          exact le_trans this hv
      · exact hv
    · exact ⟨_, _, (clip_cmd_small _ _ _).2 hbig, fun h => absurd h.symm hne,
        fun _ => ⟨hw, fun _ => hv⟩⟩

/-- C7 (amended): for an ackermann command in mode ACKERMANN or ROTATION, with
speed limits that are not negative and `rover_width > rover_wheel_width > 0`,
the clamped pair `(v0, w0)` is within the two limits converted to `float`,
and `ackermannCallback` reaches the synthesis with a pair `(v, w)` such that:
in mode ACKERMANN `|v|` is within the limit converted to `float`, and so is
`|w|` when the `switch` leaves the rate as clamped or when `|v0 / w0|` is at
most `(W + w)/2`; in mode ROTATION `|w|` is within the limit converted to
`float`, and so is `|v|` when the `switch` leaves the speed as clamped or when
`|v0 / w0|` is at least `(W - w)/2`. -/
theorem drive_rover_limits {F : Type} [LinearOrderedField F] [FloorRing F] (m : Libm F)
    (now : Nat) (msg : Twist F) (s : HDPCDrive F) (v0 w0 : F)
    (hmode : s.control_mode = MODE_ACKERMANN ∨ s.control_mode = MODE_ROTATION)
    (hrot : 0 ≤ s.max_rotation_speed_rad_per_s) (hlin : 0 ≤ s.max_linear_speed_m_per_s)
    (hwheel : 0 < s.geom.rover_wheel_width)
    (hwidth : s.geom.rover_wheel_width < s.geom.rover_width)
    (hv0 : v0 = clamp (to_float32 msg.linear_x) s.max_linear_speed_m_per_s)
    (hw0 : w0 = clamp (to_float32 msg.angular_z) s.max_rotation_speed_rad_per_s) :
    |v0| ≤ to_float32 s.max_linear_speed_m_per_s
    ∧ |w0| ≤ to_float32 s.max_rotation_speed_rad_per_s
    ∧ ∃ v w : F,
        clip_cmd s.geom s.control_mode v0 w0 = some (v, w)
        ∧ ackermannCallback m now msg s
            = synthesize m v w (stamp_commands now { s with watchdog := WATCHDOG_INIT })
        ∧ (s.control_mode = MODE_ACKERMANN →
            |v| ≤ to_float32 s.max_linear_speed_m_per_s
            ∧ ((w = w0 ∨ |v0 / w0| ≤ (s.geom.rover_width + s.geom.rover_wheel_width) / 2) →
                |w| ≤ to_float32 s.max_rotation_speed_rad_per_s))
        ∧ (s.control_mode = MODE_ROTATION →
            |w| ≤ to_float32 s.max_rotation_speed_rad_per_s
            ∧ ((v = v0 ∨ (s.geom.rover_width - s.geom.rover_wheel_width) / 2 ≤ |v0 / w0|) →
                |v| ≤ to_float32 s.max_linear_speed_m_per_s)) := by
  have hv := clamp_abs_le (to_float32 msg.linear_x) _ hlin (to_float32_idem _)
  have hw := clamp_abs_le (to_float32 msg.angular_z) _ hrot (to_float32_idem _)
  have hfv := clamp_float (to_float32 msg.linear_x) s.max_linear_speed_m_per_s
    (to_float32_idem _)
  have hfw := clamp_float (to_float32 msg.angular_z) s.max_rotation_speed_rad_per_s
    (to_float32_idem _)
  rw [← hv0] at hv hfv
  rw [← hw0] at hw hfw
  obtain ⟨v, w, hc, h1, h2⟩ := clip_cmd_limits s.geom s.control_mode v0 w0 _ _ hmode hwheel
    hwidth hfv hfw hv hw
  refine ⟨hv, hw, v, w, hc, ?_, h1, h2⟩
  rw [ackermannCallback_eq m now msg s hmode]
  have e : clip_cmd s.geom s.control_mode
      (clamp (to_float32 msg.linear_x) s.max_linear_speed_m_per_s)
      (clamp (to_float32 msg.angular_z) s.max_rotation_speed_rad_per_s) = some (v, w) := by
    rw [← hv0, ← hw0]; exact hc
  exact drive_rover_some m now _ _ { s with watchdog := WATCHDOG_INIT } v w e

/-- C7, instance of the amended statement: the command `(5, 5)` in mode
ACKERMANN, clamped to the `float` values nearest to `9/10` and to 1. -/
theorem drive_rover_limits_witness :
    |clamp (to_float32 (5 : ℝ)) (ackermannState ℝ).max_linear_speed_m_per_s|
        ≤ to_float32 (ackermannState ℝ).max_linear_speed_m_per_s
    ∧ |clamp (to_float32 (5 : ℝ)) (ackermannState ℝ).max_rotation_speed_rad_per_s|
        ≤ to_float32 (ackermannState ℝ).max_rotation_speed_rad_per_s
    ∧ ∃ v w : ℝ,
        clip_cmd (ackermannState ℝ).geom (ackermannState ℝ).control_mode
            (clamp (to_float32 (5 : ℝ)) (ackermannState ℝ).max_linear_speed_m_per_s)
            (clamp (to_float32 (5 : ℝ)) (ackermannState ℝ).max_rotation_speed_rad_per_s)
          = some (v, w)
        ∧ ackermannCallback realLibm 4 ⟨5, 5⟩ (ackermannState ℝ)
            = synthesize realLibm v w
                (stamp_commands 4 { ackermannState ℝ with watchdog := WATCHDOG_INIT })
        ∧ ((ackermannState ℝ).control_mode = MODE_ACKERMANN →
            |v| ≤ to_float32 (ackermannState ℝ).max_linear_speed_m_per_s
            ∧ ((w = clamp (to_float32 (5 : ℝ)) (ackermannState ℝ).max_rotation_speed_rad_per_s
                ∨ |clamp (to_float32 (5 : ℝ)) (ackermannState ℝ).max_linear_speed_m_per_s
                    / clamp (to_float32 (5 : ℝ)) (ackermannState ℝ).max_rotation_speed_rad_per_s|
                  ≤ ((ackermannState ℝ).geom.rover_width
                      + (ackermannState ℝ).geom.rover_wheel_width) / 2) →
                |w| ≤ to_float32 (ackermannState ℝ).max_rotation_speed_rad_per_s))
        ∧ ((ackermannState ℝ).control_mode = MODE_ROTATION →
            |w| ≤ to_float32 (ackermannState ℝ).max_rotation_speed_rad_per_s
            ∧ ((v = clamp (to_float32 (5 : ℝ)) (ackermannState ℝ).max_linear_speed_m_per_s
                ∨ ((ackermannState ℝ).geom.rover_width
                      - (ackermannState ℝ).geom.rover_wheel_width) / 2
                  ≤ |clamp (to_float32 (5 : ℝ)) (ackermannState ℝ).max_linear_speed_m_per_s
                    / clamp (to_float32 (5 : ℝ))
                        (ackermannState ℝ).max_rotation_speed_rad_per_s|) →
                |v| ≤ to_float32 (ackermannState ℝ).max_linear_speed_m_per_s)) :=
  drive_rover_limits realLibm 4 ⟨5, 5⟩ (ackermannState ℝ) _ _ (Or.inl rfl)
    (by norm_num [ackermannState, expiredDirectDrive])
    (by norm_num [ackermannState, expiredDirectDrive])
    (by norm_num [ackermannState, expiredDirectDrive])
    (by norm_num [ackermannState, expiredDirectDrive]) rfl rfl

/-- C7, counterexample: with the limit of the linear speed at `1/10` (and the
other parameters as the claim requires them) the twist `(1, 0)` in mode
ACKERMANN is clamped to `13421773/134217728`, the `float` nearest to `1/10`,
and the synthesis runs on this speed, which is above the limit. -/
theorem clamped_speed_above_limit :
    (slowLimit ℝ).control_mode = MODE_ACKERMANN
    ∧ (0 : ℝ) ≤ (slowLimit ℝ).max_rotation_speed_rad_per_s
    ∧ (0 : ℝ) ≤ (slowLimit ℝ).max_linear_speed_m_per_s
    ∧ (0 : ℝ) < (slowLimit ℝ).geom.rover_wheel_width
    ∧ (slowLimit ℝ).geom.rover_wheel_width < (slowLimit ℝ).geom.rover_width
    ∧ clamp (to_float32 (1 : ℝ)) (slowLimit ℝ).max_linear_speed_m_per_s
        = 13421773 / 134217728
    ∧ clamp (to_float32 (0 : ℝ)) (slowLimit ℝ).max_rotation_speed_rad_per_s = 0
    ∧ clip_cmd (slowLimit ℝ).geom (slowLimit ℝ).control_mode (13421773 / 134217728) 0
        = some (13421773 / 134217728, 0)
    ∧ ackermannCallback realLibm 4 ⟨1, 0⟩ (slowLimit ℝ)
        = synthesize realLibm (13421773 / 134217728) 0
            (stamp_commands 4 { slowLimit ℝ with watchdog := WATCHDOG_INIT })
    ∧ (slowLimit ℝ).max_linear_speed_m_per_s < |(13421773 / 134217728 : ℝ)| := by
  have hm : (slowLimit ℝ).control_mode = MODE_ACKERMANN := rfl
  have hLv : (slowLimit ℝ).max_linear_speed_m_per_s = 1 / 10 := rfl
  have hLw : (slowLimit ℝ).max_rotation_speed_rad_per_s = 1 := rfl
  have hc1 : clamp (to_float32 (1 : ℝ)) (slowLimit ℝ).max_linear_speed_m_per_s
      = 13421773 / 134217728 := by
    rw [hLv, to_float32_one]
    unfold clamp
    dsimp only
    rw [to_float32_tenth]
    norm_num
  have hc2 : clamp (to_float32 (0 : ℝ)) (slowLimit ℝ).max_rotation_speed_rad_per_s = 0 := by
    rw [hLw, to_float32_zero]
    norm_num [clamp]
  have hclip : clip_cmd (slowLimit ℝ).geom (slowLimit ℝ).control_mode (13421773 / 134217728) 0
      = some ((13421773 / 134217728 : ℝ), (0 : ℝ)) := by
    rw [hm, clip_cmd_ackermann _ _ _ (by norm_num [abs_div])]
    simp
  refine ⟨hm, by rw [hLw]; norm_num, by rw [hLv]; norm_num,
    by norm_num [slowLimit, ackermannState, expiredDirectDrive],
    by norm_num [slowLimit, ackermannState, expiredDirectDrive], hc1, hc2, hclip, ?_,
    by rw [hLv]; norm_num [abs_div]⟩
  rw [ackermannCallback_eq _ _ _ _ (Or.inl hm)]
  have e : clip_cmd (slowLimit ℝ).geom (slowLimit ℝ).control_mode
      (clamp (to_float32 (1 : ℝ)) (slowLimit ℝ).max_linear_speed_m_per_s)
      (clamp (to_float32 (0 : ℝ)) (slowLimit ℝ).max_rotation_speed_rad_per_s)
      = some ((13421773 / 134217728 : ℝ), (0 : ℝ)) := by
    rw [hc1, hc2]; exact hclip
  exact drive_rover_some realLibm 4 _ _ { slowLimit ℝ with watchdog := WATCHDOG_INIT } _ _ e

/-- The `switch` of mode ACKERMANN can put the rate one `float` above the
limit converted to `float`: with the limit of the rate at `79/100` the twist
`(8283751/16777216, 1)` is clamped to `(8283751/16777216,
13254001/16777216)`, the quotient `8283751/13254001` is above `5/8` and is
rounded to `5/8`, and the rate becomes `6627001/8388608`. -/
theorem clipped_rate_above_limit :
    (tightTurn ℝ).control_mode = MODE_ACKERMANN
    ∧ to_float32 (tightTurn ℝ).max_rotation_speed_rad_per_s = 13254001 / 16777216
    ∧ clamp (to_float32 (8283751 / 16777216 : ℝ)) (tightTurn ℝ).max_linear_speed_m_per_s
        = 8283751 / 16777216
    ∧ clamp (to_float32 (1 : ℝ)) (tightTurn ℝ).max_rotation_speed_rad_per_s
        = 13254001 / 16777216
    ∧ clip_cmd (tightTurn ℝ).geom (tightTurn ℝ).control_mode (8283751 / 16777216)
          (13254001 / 16777216)
        = some (8283751 / 16777216, 6627001 / 8388608)
    ∧ ackermannCallback realLibm 4 ⟨8283751 / 16777216, 1⟩ (tightTurn ℝ)
        = synthesize realLibm (8283751 / 16777216) (6627001 / 8388608)
            (stamp_commands 4 { tightTurn ℝ with watchdog := WATCHDOG_INIT })
    ∧ to_float32 (tightTurn ℝ).max_rotation_speed_rad_per_s < |(6627001 / 8388608 : ℝ)| := by
  have hm : (tightTurn ℝ).control_mode = MODE_ACKERMANN := rfl
  have hLv : (tightTurn ℝ).max_linear_speed_m_per_s = 9 / 10 := rfl
  have hLw : (tightTurn ℝ).max_rotation_speed_rad_per_s = 79 / 100 := rfl
  have hB : (tightTurn ℝ).geom.rover_width + (tightTurn ℝ).geom.rover_wheel_width
      = 5 / 4 := by
    norm_num [tightTurn, ackermannState, expiredDirectDrive]
  have hfL : to_float32 (79 / 100 : ℝ) = 13254001 / 16777216 := by
    have := to_float32_eval (79 / 100 : ℝ) (-1) 13254001 (by norm_num)
      (by norm_num [abs_of_pos]) (by norm_num [abs_of_pos]) (by norm_num) (by norm_num)
    rw [this]; norm_num
  have hfv : to_float32 (8283751 / 16777216 : ℝ) = 8283751 / 16777216 := by
    have := to_float32_repr (F := ℝ) 16567502 (-2) (by norm_num) (by norm_num)
      (Or.inr (by norm_num))
    norm_num at this
    exact this
  have hfr : to_float32 ((8283751 / 16777216 : ℝ) / (13254001 / 16777216)) = 5 / 8 := by
    have := to_float32_eval ((8283751 / 16777216 : ℝ) / (13254001 / 16777216)) (-1) 10485760
      (by norm_num) (by norm_num [abs_of_pos]) (by norm_num [abs_of_pos]) (by norm_num)
      (by norm_num)
    rw [this]; norm_num
  have hfc : to_float32 (2 * (8283751 / 16777216 : ℝ) / (5 / 4)) = 6627001 / 8388608 := by
    have := to_float32_eval (2 * (8283751 / 16777216 : ℝ) / (5 / 4)) (-1) 13254002
      (by norm_num) (by norm_num [abs_of_pos]) (by norm_num [abs_of_pos]) (by norm_num)
      (by norm_num)
    rw [this]; norm_num
  have hc1 : clamp (to_float32 (8283751 / 16777216 : ℝ))
      (tightTurn ℝ).max_linear_speed_m_per_s = 8283751 / 16777216 := by
    rw [hLv, hfv]
    norm_num [clamp]
  have hc2 : clamp (to_float32 (1 : ℝ)) (tightTurn ℝ).max_rotation_speed_rad_per_s
      = 13254001 / 16777216 := by
    rw [hLw, to_float32_one]
    unfold clamp
    dsimp only
    rw [hfL]
    norm_num
  have hclip : clip_cmd (tightTurn ℝ).geom (tightTurn ℝ).control_mode (8283751 / 16777216)
      (13254001 / 16777216)
      = some ((8283751 / 16777216 : ℝ), (6627001 / 8388608 : ℝ)) := by
    rw [hm, clip_cmd_ackermann _ _ _ (by norm_num [abs_div]), hB, hfr, hfc]
    norm_num
  refine ⟨hm, by rw [hLw]; exact hfL, hc1, hc2, hclip, ?_,
    by rw [hLw, hfL]; norm_num [abs_div]⟩
  rw [ackermannCallback_eq _ _ _ _ (Or.inl hm)]
  have e : clip_cmd (tightTurn ℝ).geom (tightTurn ℝ).control_mode
      (clamp (to_float32 (8283751 / 16777216 : ℝ)) (tightTurn ℝ).max_linear_speed_m_per_s)
      (clamp (to_float32 (1 : ℝ)) (tightTurn ℝ).max_rotation_speed_rad_per_s)
      = some ((8283751 / 16777216 : ℝ), (6627001 / 8388608 : ℝ)) := by
    rw [hc1, hc2]; exact hclip
  exact drive_rover_some realLibm 4 _ _ { tightTurn ℝ with watchdog := WATCHDOG_INIT } _ _ e

/-- The `switch` of mode ROTATION can put the speed one `float` above the
limit converted to `float`: with the limit of the speed at `1/5` the twist
`(1, 8947849/16777216)` is clamped to `(13421773/67108864,
8947849/16777216)`, the quotient is below `h = 3/8` and is rounded to `3/8`,
and the speed becomes `6710887/33554432`, the `float` nearest to
`omega * h`. -/
theorem clipped_speed_above_limit :
    (slowRotation ℝ).control_mode = MODE_ROTATION
    ∧ to_float32 (slowRotation ℝ).max_linear_speed_m_per_s = 13421773 / 67108864
    ∧ clamp (to_float32 (1 : ℝ)) (slowRotation ℝ).max_linear_speed_m_per_s
        = 13421773 / 67108864
    ∧ clamp (to_float32 (8947849 / 16777216 : ℝ)) (slowRotation ℝ).max_rotation_speed_rad_per_s
        = 8947849 / 16777216
    ∧ clip_cmd (slowRotation ℝ).geom (slowRotation ℝ).control_mode (13421773 / 67108864)
          (8947849 / 16777216)
        = some (6710887 / 33554432, 8947849 / 16777216)
    ∧ ackermannCallback realLibm 4 ⟨1, 8947849 / 16777216⟩ (slowRotation ℝ)
        = synthesize realLibm (6710887 / 33554432) (8947849 / 16777216)
            (stamp_commands 4 { slowRotation ℝ with watchdog := WATCHDOG_INIT })
    ∧ to_float32 (slowRotation ℝ).max_linear_speed_m_per_s < |(6710887 / 33554432 : ℝ)| := by
  have hm : (slowRotation ℝ).control_mode = MODE_ROTATION := rfl
  have hLv : (slowRotation ℝ).max_linear_speed_m_per_s = 1 / 5 := rfl
  have hLw : (slowRotation ℝ).max_rotation_speed_rad_per_s = 1 := rfl
  have hh : (slowRotation ℝ).geom.rover_width - (slowRotation ℝ).geom.rover_wheel_width
      = 3 / 4 := by
    norm_num [slowRotation, ackermannState, expiredDirectDrive]
  have hfL : to_float32 (1 / 5 : ℝ) = 13421773 / 67108864 := by
    have := to_float32_eval (1 / 5 : ℝ) (-3) 13421773 (by norm_num)
      (by norm_num [abs_of_pos]) (by norm_num [abs_of_pos]) (by norm_num) (by norm_num)
    rw [this]; norm_num
  have hfw : to_float32 (8947849 / 16777216 : ℝ) = 8947849 / 16777216 := by
    have := to_float32_repr (F := ℝ) 8947849 (-1) (by norm_num) (by norm_num)
      (Or.inr (by norm_num))
    norm_num at this
    exact this
  have hfr : to_float32 ((13421773 / 67108864 : ℝ) / (8947849 / 16777216)) = 3 / 8 := by
    have := to_float32_eval ((13421773 / 67108864 : ℝ) / (8947849 / 16777216)) (-2) 12582912
      (by norm_num) (by norm_num [abs_of_pos]) (by norm_num [abs_of_pos]) (by norm_num)
      (by norm_num)
    rw [this]; norm_num
  have hfc : to_float32 ((8947849 / 16777216 : ℝ) * (3 / 4) / 2) = 6710887 / 33554432 := by
    have := to_float32_eval_tie ((8947849 / 16777216 : ℝ) * (3 / 4) / 2) (-3) 13421773
      (by norm_num) (by norm_num [abs_of_pos]) (by norm_num [abs_of_pos]) (by norm_num)
      (by norm_num)
    rw [this]; norm_num
  have hc1 : clamp (to_float32 (1 : ℝ)) (slowRotation ℝ).max_linear_speed_m_per_s
      = 13421773 / 67108864 := by
    rw [hLv, to_float32_one]
    unfold clamp
    dsimp only
    rw [hfL]
    norm_num
  have hc2 : clamp (to_float32 (8947849 / 16777216 : ℝ))
      (slowRotation ℝ).max_rotation_speed_rad_per_s = 8947849 / 16777216 := by
    rw [hLw, hfw]
    norm_num [clamp]
  have hclip : clip_cmd (slowRotation ℝ).geom (slowRotation ℝ).control_mode
      (13421773 / 67108864) (8947849 / 16777216)
      = some ((6710887 / 33554432 : ℝ), (8947849 / 16777216 : ℝ)) := by
    rw [hm, clip_cmd_rotation _ _ _ (by norm_num [abs_div]), hh, hfr, hfc]
    norm_num
  refine ⟨hm, by rw [hLv]; exact hfL, hc1, hc2, hclip, ?_, by rw [hLv, hfL]; norm_num [abs_div]⟩
  rw [ackermannCallback_eq _ _ _ _ (Or.inr hm)]
  have e : clip_cmd (slowRotation ℝ).geom (slowRotation ℝ).control_mode
      (clamp (to_float32 (1 : ℝ)) (slowRotation ℝ).max_linear_speed_m_per_s)
      (clamp (to_float32 (8947849 / 16777216 : ℝ))
        (slowRotation ℝ).max_rotation_speed_rad_per_s)
      = some ((6710887 / 33554432 : ℝ), (8947849 / 16777216 : ℝ)) := by
    rw [hc1, hc2]; exact hclip
  exact drive_rover_some realLibm 4 _ _ { slowRotation ℝ with watchdog := WATCHDOG_INIT } _ _ e


/-! ## Changes of mode -/

/-- The method `vel_and_steering` writes the command snapshot only. -/
theorem vel_and_steering_frame {F : Type} [LinearOrderedField F] (m : Libm F) (v w : F)
    (i_vel : Fin 10) (i_steer : Option (Fin 10)) (x_w y_w : F) (s : HDPCDrive F) :
    vel_and_steering m v w i_vel i_steer x_w y_w s
      = { s with commands := (vel_and_steering m v w i_vel i_steer x_w y_w s).commands } := by
  unfold vel_and_steering
  split_ifs
  · rfl
  · cases i_steer <;> rfl

/-- A steered station writes the command snapshot only. -/
theorem steer_station_frame {F : Type} [LinearOrderedField F] (m : Libm F) (v w : F)
    (i_vel i : Fin 10) (x_w y_w : F) (a : HDPCDrive F × Dbl F × (Fin 10 → F)) :
    (steer_station m v w i_vel i x_w y_w a).1
      = { a.1 with commands := (steer_station m v w i_vel i x_w y_w a).1.commands } := by
  simp only [steer_station]
  exact vel_and_steering_frame _ _ _ _ _ _ _ _

/-- The synthesis writes the command snapshot only. -/
theorem synthesize_frame {F : Type} [LinearOrderedField F] (m : Libm F) (v w : F)
    (s : HDPCDrive F) :
    synthesize m v w s = { s with commands := (synthesize m v w s).commands } := by
  simp only [synthesize, set_steering_rate]
  rw [steer_station_frame, vel_and_steering_frame, vel_and_steering_frame, steer_station_frame, steer_station_frame, steer_station_frame]

/-- The method `drive_rover` writes the command snapshot only. -/
theorem drive_rover_frame {F : Type} [LinearOrderedField F] [FloorRing F] (m : Libm F) (now : Nat) (v w : F)
    (s : HDPCDrive F) :
    drive_rover m now v w s = { s with commands := (drive_rover m now v w s).commands } := by
  rw [drive_rover_eq]
  split
  · rfl
  · rw [synthesize_frame]; rfl

/-- The mode after `set_mode` is the old one or the one of the transition
table. -/
theorem set_mode_mode {F : Type} [LinearOrderedField F] (read : Option Nat)
    (start_ok : Bool) (req : SetControlModeRequest) (res : SetControlModeResponse)
    (s : HDPCDrive F) :
    (set_mode read start_ok req res s).1.control_mode = s.control_mode
    ∨ (set_mode read start_ok req res s).1.control_mode
        = (mode_transition req res s).1.control_mode := by
  unfold set_mode
  cases read with
  | none => left; rfl
  | some st =>
    dsimp only
    split_ifs
    · right; simp only [mode_transition_mode]
    · left; rfl
    · right; simp only [mode_transition_mode]
    · right; simp only [mode_transition_mode]
    · left; rfl

/-- The method `stop_rover` keeps the mode or sets it to STOPPED. -/
theorem stop_rover_mode {F : Type} [LinearOrderedField F] (now : Nat) (s : HDPCDrive F) :
    (stop_rover now s).control_mode = s.control_mode
    ∨ (stop_rover now s).control_mode = MODE_STOPPED := by
  unfold stop_rover
  dsimp only
  split_ifs
  · left; rfl
  · right; rfl
  · left; rfl

/-- The method `init_rotation` keeps the mode or sets it to ROTATION. -/
theorem init_rotation_mode {F : Type} [LinearOrderedField F] (m : Libm F) (now : Nat)
    (s : HDPCDrive F) :
    (init_rotation m now s).control_mode = s.control_mode
    ∨ (init_rotation m now s).control_mode = MODE_ROTATION := by
  unfold init_rotation
  dsimp only
  split_ifs
  · left; rfl
  · right; rfl
  · left; rfl

/-- What a tick can do to the mode. -/
theorem main_loop_step_mode {F : Type} [LinearOrderedField F] (m : Libm F) (now : Nat)
    (s : HDPCDrive F) :
    (main_loop_step m now s).1.control_mode = s.control_mode
    ∨ (s.control_mode = MODE_INIT ∧ (main_loop_step m now s).1.control_mode = MODE_STOPPED)
    ∨ (s.control_mode = MODE_INIT_ROTATION
        ∧ (main_loop_step m now s).1.control_mode = MODE_ROTATION)
    ∨ (main_loop_step m now s).1.control_mode = MODE_INIT := by
  unfold main_loop_step
  split_ifs with h1 h2 h3 h4
  · rcases stop_rover_mode now s with h | h
    · left; exact h
    · right; left; exact ⟨h1, h⟩
  · rcases init_rotation_mode m now s with h | h
    · left; exact h
    · right; right; left; exact ⟨h2, h⟩
  · right; right; right; rfl
  · left; rfl
  · left; rfl

/-- C9 (amended): an operation (message handler or tick) that changes the mode
to INIT_ROTATION or ACKERMANN starts in STOPPED; an operation that changes
the mode to ROTATION is a tick that starts in INIT_ROTATION. -/
theorem mode_entry {F : Type} [LinearOrderedField F] [FloorRing F] (m : Libm F) (i : Input F)
    (s : HDPCDrive F) (hch : (handle m i s).control_mode ≠ s.control_mode) :
    (((handle m i s).control_mode = MODE_INIT_ROTATION
        ∨ (handle m i s).control_mode = MODE_ACKERMANN) → s.control_mode = MODE_STOPPED)
    ∧ ((handle m i s).control_mode = MODE_ROTATION →
        s.control_mode = MODE_INIT_ROTATION ∧ ∃ now, i = Input.tick now) := by
  cases i with
  | readings now msg => exact absurd rfl hch
  | mode_request read start_ok req res =>
    simp only [handle] at hch ⊢
    rcases set_mode_mode read start_ok req res s with h | h
    · exact absurd h hch
    · rw [mode_transition_mode] at h
      rw [h] at hch ⊢
      clear h
      obtain ⟨rm⟩ := req
      generalize s.control_mode = cur at hch ⊢
      simp only [ MODE_INIT, MODE_INIT_ROTATION, MODE_ROTATION,
        MODE_ACKERMANN, MODE_DIRECT_DRIVE, MODE_STOPPED] at hch ⊢
      constructor
      · intro h2
        split_ifs at hch h2 <;> first | omega | simp at h2
      · intro h2
        exfalso
        split_ifs at hch h2 <;> omega
  | direct now msg =>
    simp only [handle] at hch
    exfalso; apply hch
    unfold directDriveCallback
    split_ifs <;> rfl
  | ackermann now msg =>
    simp only [handle] at hch
    exfalso; apply hch
    unfold ackermannCallback
    split_ifs
    · rfl
    · rw [drive_rover_frame]
  | tick now =>
    simp only [handle] at hch ⊢
    rcases main_loop_step_mode m now s with h | ⟨h1, h⟩ | ⟨h1, h⟩ | h
    · exact absurd h hch
    · rw [h]; exact ⟨fun h2 => by rcases h2 with h2 | h2 <;> exact absurd h2 (by decide),
        fun h2 => absurd h2 (by decide)⟩
    · rw [h]; exact ⟨fun h2 => by rcases h2 with h2 | h2 <;> exact absurd h2 (by decide),
        fun _ => ⟨h1, now, rfl⟩⟩
    · rw [h]; exact ⟨fun h2 => by rcases h2 with h2 | h2 <;> exact absurd h2 (by decide),
        fun h2 => absurd h2 (by decide)⟩

/-- The nearest integer of 0 is 0. -/
theorem roundHalfEven_zero : roundHalfEven (0 : ℝ) = 0 := by
  simp [roundHalfEven]

/-- C9, counterexample: in mode INIT_ROTATION with the steering feedback at the
targets, a tick changes the mode to ROTATION, and the mode before the tick
is not STOPPED. -/
theorem tick_enters_rotation :
    (atTargets realLibm).control_mode = MODE_INIT_ROTATION
    ∧ (handle realLibm (Input.tick 1) (atTargets realLibm)).control_mode = MODE_ROTATION
    ∧ (atTargets realLibm).control_mode ≠ MODE_STOPPED := by
  have hm : (atTargets realLibm).control_mode = MODE_INIT_ROTATION := rfl
  refine ⟨hm, ?_, by rw [hm]; decide⟩
  have hoff : max_offset (fun i => realLibm.remainder
      ((atTargets realLibm).motors.position i
        - rotation_targets realLibm (atTargets realLibm).geom i) realLibm.M_PI) = 0 := by
    have : ∀ i, realLibm.remainder ((atTargets realLibm).motors.position i
        - rotation_targets realLibm (atTargets realLibm).geom i) realLibm.M_PI = 0 := by
      intro i
      have h0 : (atTargets realLibm).motors.position i
          - rotation_targets realLibm (atTargets realLibm).geom i = 0 := sub_self _
      rw [h0]
      simp [realLibm, roundHalfEven_zero]
    simp [max_offset, steeringSlots, this]
  have hn : ¬ (0 : ℝ) > 5e-2 := by norm_num
  have h1 : ¬ (atTargets realLibm).control_mode = MODE_INIT := by rw [hm]; decide
  have h2 : (atTargets realLibm).control_mode ≠ MODE_ROTATION := by rw [hm]; decide
  simp only [handle, main_loop_step]
  rw [if_neg h1, if_pos hm]
  simp only [init_rotation, hoff, if_neg hn]
  rw [if_pos h2]

/-- C9, instance of the amended statement: ACKERMANN requested in STOPPED. -/
theorem mode_entry_witness :
    (handle realLibm (Input.mode_request (some SM_DRIVE) true ⟨MODE_ACKERMANN⟩ ⟨false, 0⟩)
        (stoppedState ℝ)).control_mode ≠ (stoppedState ℝ).control_mode
    ∧ (stoppedState ℝ).control_mode = MODE_STOPPED :=
  have hch : (handle realLibm (Input.mode_request (some SM_DRIVE) true ⟨MODE_ACKERMANN⟩ ⟨false, 0⟩)
        (stoppedState ℝ)).control_mode ≠ (stoppedState ℝ).control_mode := by
    simp [handle, set_mode, mode_transition, stoppedState, SM_DRIVE, SM_INIT, SM_STOP,
      MODE_ACKERMANN, MODE_STOPPED, MODE_INIT_ROTATION, MODE_ROTATION]
  ⟨hch, (mode_entry realLibm _ (stoppedState ℝ) hch).1 (Or.inr (by
    simp [handle, set_mode, mode_transition, stoppedState, SM_DRIVE, SM_INIT, SM_STOP,
      MODE_ACKERMANN, MODE_STOPPED, MODE_INIT_ROTATION, MODE_ROTATION]))⟩

/-! ## The inactive slots -/

/-- The invariant is kept by `vel_and_steering` for a drive slot and a steering
slot. -/
theorem slotInv_vel_and_steering {F : Type} [LinearOrderedField F] (m : Libm F) (v w : F)
    (i_vel : Fin 10) (i_steer : Option (Fin 10)) (x_w y_w : F) (s : HDPCDrive F)
    (hv : i_vel.val < 6) (hs : ∀ i, i_steer = some i → 6 ≤ i.val) (h : SlotInv s.commands) :
    SlotInv (vel_and_steering m v w i_vel i_steer x_w y_w s).commands := by
  obtain ⟨h1, h2, h3⟩ := h
  unfold vel_and_steering
  split_ifs with hd
  · refine ⟨fun j hj => ?_, fun j hj6 hj => ?_, fun j hj6 => ?_⟩
    · simp only [Function.update_apply] at hj ⊢
      split_ifs at hj with hji
      · subst hji; exact h3 _ hv
      · exact h1 j hj
    · simp only [Function.update_apply] at hj ⊢
      split_ifs at hj ⊢ with hji
      · rfl
      · exact h2 j hj6 hj
    · exact h3 j hj6
  · cases i_steer with
    | none =>
      refine ⟨fun j hj => ?_, fun j hj6 hj => ?_, fun j hj6 => ?_⟩
      · simp only [Function.update_apply] at hj ⊢
        split_ifs at hj with hji
        exact h1 j hj
      · simp only [Function.update_apply] at hj ⊢
        split_ifs at hj ⊢ with hji
        exact h2 j hj6 hj
      · exact h3 j hj6
    | some i =>
      have hi := hs i rfl
      refine ⟨fun j hj => ?_, fun j hj6 hj => ?_, fun j hj6 => ?_⟩
      · simp only [Function.update_apply] at hj ⊢
        split_ifs at hj ⊢ with hji hjv
        exact h1 j hj
      · simp only [Function.update_apply] at hj ⊢
        split_ifs at hj ⊢ with hji hjv
        exact h2 j hj6 hj
      · have hji : ¬ j = i := by rintro rfl; omega
        simp only [Function.update_apply, if_neg hji]
        exact h3 j hj6

/-- The invariant is kept by the assignment of a steering rate. -/
theorem slotInv_set_steering_rate {F : Type} [LinearOrderedField F] (i : Fin 10)
    (delta : Fin 10 → F) (t : Dbl F) (s : HDPCDrive F) (hi : 6 ≤ i.val)
    (h : SlotInv s.commands) : SlotInv (set_steering_rate i delta t s).commands := by
  obtain ⟨h1, h2, h3⟩ := h
  refine ⟨h1, fun j hj6 hj => ?_, h3⟩
  have hji : ¬ j = i := by rintro rfl; omega
  simp only [set_steering_rate, Function.update_apply, if_neg hji]
  exact h2 j hj6 hj

/-- The invariant is kept by a steered station. -/
theorem slotInv_steer_station {F : Type} [LinearOrderedField F] (m : Libm F) (v w : F)
    (i_vel i : Fin 10) (x_w y_w : F) (a : HDPCDrive F × Dbl F × (Fin 10 → F))
    (hv : i_vel.val < 6) (hi : 6 ≤ i.val) (h : SlotInv a.1.commands) :
    SlotInv (steer_station m v w i_vel i x_w y_w a).1.commands := by
  simp only [steer_station]
  exact slotInv_vel_and_steering m v w i_vel (some i) x_w y_w a.1 hv
    (fun k hk => by cases hk; exact hi) h

/-- The invariant is kept by the synthesis. -/
theorem slotInv_synthesize {F : Type} [LinearOrderedField F] (m : Libm F) (v w : F)
    (s : HDPCDrive F) (h : SlotInv s.commands) : SlotInv (synthesize m v w s).commands := by
  simp only [synthesize]
  refine slotInv_set_steering_rate _ _ _ _ (by decide)
    (slotInv_set_steering_rate _ _ _ _ (by decide)
      (slotInv_set_steering_rate _ _ _ _ (by decide)
        (slotInv_set_steering_rate _ _ _ _ (by decide) ?_)))
  refine slotInv_steer_station _ _ _ _ _ _ _ _ (by decide) (by decide) ?_
  refine slotInv_steer_station _ _ _ _ _ _ _ _ (by decide) (by decide) ?_
  refine slotInv_vel_and_steering _ _ _ _ _ _ _ _ (by decide) (fun _ hk => by cases hk) ?_
  refine slotInv_vel_and_steering _ _ _ _ _ _ _ _ (by decide) (fun _ hk => by cases hk) ?_
  refine slotInv_steer_station _ _ _ _ _ _ _ _ (by decide) (by decide) ?_
  refine slotInv_steer_station _ _ _ _ _ _ _ _ (by decide) (by decide) ?_
  exact h

/-- The invariant is kept by `drive_rover`. -/
theorem slotInv_drive_rover {F : Type} [LinearOrderedField F] [FloorRing F] (m : Libm F) (now : Nat) (v w : F)
    (s : HDPCDrive F) (h : SlotInv s.commands) : SlotInv (drive_rover m now v w s).commands := by
  have hst : SlotInv (stamp_commands now s).commands := h
  rw [drive_rover_eq]
  split
  · exact hst
  · exact slotInv_synthesize m _ _ _ hst

/-- The invariant is kept by the loop over the drive slots. -/
theorem slotInv_clear_drive {F : Type} [LinearOrderedField F] (c : Commands F)
    (h : SlotInv c) : SlotInv (clear_drive c) := by
  obtain ⟨h1, h2, h3⟩ := h
  refine ⟨fun j hj => ?_, fun j hj6 _ => ?_, fun j hj6 => ?_⟩
  · rw [clear_drive_position]
    rw [clear_drive_isActive] at hj
    by_cases hj6 : j.val < 6
    · exact h3 j hj6
    · rw [if_neg hj6] at hj; exact h1 j hj
  · rw [clear_drive_velocity, if_pos hj6]
  · rw [clear_drive_position]; exact h3 j hj6

/-- The invariant is kept by the loop over the steering slots. -/
theorem slotInv_steer_to {F : Type} [LinearOrderedField F] (d : Fin 10 → F) (c : Commands F)
    (h : SlotInv c) : SlotInv (steer_to d c) := by
  obtain ⟨h1, h2, h3⟩ := h
  refine ⟨fun j hj => ?_, fun j hj6 hj => ?_, fun j hj6 => ?_⟩
  · rw [steer_to_isActive] at hj
    by_cases hj6 : 6 ≤ j.val
    · rw [if_pos hj6] at hj; exact absurd hj (by decide)
    · rw [if_neg hj6] at hj
      rw [steer_to_position, if_neg hj6]; exact h1 j hj
  · have hn : ¬ 6 ≤ j.val := by omega
    rw [steer_to_isActive, if_neg hn] at hj
    rw [steer_to_velocity]; exact h2 j hj6 hj
  · have hn : ¬ 6 ≤ j.val := by omega
    rw [steer_to_position, if_neg hn]; exact h3 j hj6

/-- The invariant holds for the snapshot of the constructor. -/
theorem slotInv_reset {F : Type} [LinearOrderedField F] (now : Nat) :
    SlotInv (reset_commands now : Commands F) := by
  have hp : ∀ i : Fin 10, (reset_commands now : Commands F).position i = 0 := by
    intro i
    fin_cases i <;> simp [reset_commands, allSlots, Function.update]
  have hv : ∀ i : Fin 10, (reset_commands now : Commands F).velocity i = Dbl.fin 0 := by
    intro i
    fin_cases i <;> simp [reset_commands, allSlots, Function.update]
  exact ⟨fun j _ => hp j, fun j _ _ => hv j, fun j _ => hp j⟩

/-- The invariant is kept by `stop_rover`. -/
theorem slotInv_stop_rover {F : Type} [LinearOrderedField F] (now : Nat) (s : HDPCDrive F)
    (h : SlotInv s.commands) : SlotInv (stop_rover now s).commands := by
  have hst : SlotInv { s.commands with stamp := now } := h
  have hc : (stop_rover now s).commands
        = steer_to (fun _ => 0) (clear_drive { s.commands with stamp := now })
      ∨ (stop_rover now s).commands = s.commands := by
    unfold stop_rover
    dsimp only
    split_ifs
    · left; rfl
    · right; rfl
    · right; rfl
  rcases hc with hc | hc <;> rw [hc]
  · exact slotInv_steer_to _ _ (slotInv_clear_drive _ hst)
  · exact h

/-- The invariant is kept by `init_rotation`. -/
theorem slotInv_init_rotation {F : Type} [LinearOrderedField F] (m : Libm F) (now : Nat)
    (s : HDPCDrive F) (h : SlotInv s.commands) : SlotInv (init_rotation m now s).commands := by
  have hst : SlotInv { s.commands with stamp := now } := h
  have hc : (init_rotation m now s).commands
        = steer_to (rotation_targets m s.geom) (clear_drive { s.commands with stamp := now })
      ∨ (init_rotation m now s).commands = s.commands := by
    unfold init_rotation
    dsimp only
    split_ifs
    · left; rfl
    · right; rfl
    · right; rfl
  rcases hc with hc | hc <;> rw [hc]
  · exact slotInv_steer_to _ _ (slotInv_clear_drive _ hst)
  · exact h

/-- The invariant is kept by a tick. -/
theorem slotInv_main_loop_step {F : Type} [LinearOrderedField F] (m : Libm F) (now : Nat)
    (s : HDPCDrive F) (h : SlotInv s.commands) :
    SlotInv (main_loop_step m now s).1.commands := by
  unfold main_loop_step
  split_ifs
  · exact slotInv_stop_rover now s h
  · exact slotInv_init_rotation m now s h
  · exact h
  · exact h
  · exact h

/-- The invariant is kept by `directDriveCallback`. -/
theorem slotInv_directDrive {F : Type} [LinearOrderedField F] (now : Nat) (msg : DirectDrive F)
    (s : HDPCDrive F) (h : SlotInv s.commands) :
    SlotInv (directDriveCallback now msg s).commands := by
  unfold directDriveCallback
  split_ifs
  · exact h
  · obtain ⟨h1, h2, h3⟩ := h
    have hact : ∀ (c : Commands F) (i : Fin 10),
        (allSlots.foldl (fun c i => { c with isActive := Function.update c.isActive i true })
          c).isActive i = true := by
      intro c i
      fin_cases i <;> simp [allSlots, Function.update]
    refine ⟨fun j hj => ?_, fun j _ hj => ?_, fun j hj6 => ?_⟩
    · dsimp only at hj
      rw [hact] at hj
      exact absurd hj (by decide)
    · dsimp only at hj
      rw [hact] at hj
      exact absurd hj (by decide)
    · dsimp only
      have e1 : ¬ j = STEERING_FRONT_LEFT := by rintro rfl; revert hj6; decide
      have e2 : ¬ j = STEERING_FRONT_RIGHT := by rintro rfl; revert hj6; decide
      have e3 : ¬ j = STEERING_REAR_LEFT := by rintro rfl; revert hj6; decide
      have e4 : ¬ j = STEERING_REAR_RIGHT := by rintro rfl; revert hj6; decide
      simp only [Function.update_apply, if_neg e1, if_neg e2, if_neg e3, if_neg e4]
      have hfold : ∀ (c : Commands F),
          (allSlots.foldl (fun c i => { c with isActive := Function.update c.isActive i true })
            c).position = c.position := by
        intro c; simp [allSlots]
      rw [hfold]
      exact h3 j hj6

/-- The invariant is kept by `ackermannCallback`. -/
theorem slotInv_ackermann {F : Type} [LinearOrderedField F] [FloorRing F] (m : Libm F) (now : Nat)
    (msg : Twist F) (s : HDPCDrive F) (h : SlotInv s.commands) :
    SlotInv (ackermannCallback m now msg s).commands := by
  unfold ackermannCallback
  split_ifs
  · exact h
  · exact slotInv_drive_rover m now _ _ _ h

/-- The method `set_mode` leaves the command snapshot as it was. -/
theorem set_mode_commands {F : Type} [LinearOrderedField F] (read : Option Nat)
    (start_ok : Bool) (req : SetControlModeRequest) (res : SetControlModeResponse)
    (s : HDPCDrive F) : (set_mode read start_ok req res s).1.commands = s.commands := by
  unfold set_mode
  cases read with
  | none => rfl
  | some st =>
    dsimp only
    split_ifs <;> first | rfl | exact (mode_transition_rest _ _ _).2.2.2.1

/-- The invariant is kept by every operation. -/
theorem slotInv_handle {F : Type} [LinearOrderedField F] [FloorRing F] (m : Libm F) (i : Input F)
    (s : HDPCDrive F) (h : SlotInv s.commands) : SlotInv (handle m i s).commands := by
  cases i with
  | readings now msg => exact h
  | mode_request read start_ok req res =>
    simp only [handle]
    rw [set_mode_commands]; exact h
  | direct now msg => exact slotInv_directDrive now msg s h
  | ackermann now msg => exact slotInv_ackermann m now msg s h
  | tick now => exact slotInv_main_loop_step m now s h

/-- The invariant is kept by `wait_for_services`. -/
theorem slotInv_wait_for_services {F : Type} [LinearOrderedField F] (first : Option Nat)
    (reads : List (Option Nat)) (start_ok : Bool) (now : Nat) (s : HDPCDrive F)
    (h : SlotInv s.commands) :
    SlotInv (wait_for_services first reads start_ok now s).1.commands := by
  have hloop : ∀ (reads : List (Option Nat)) (first : Option Nat) (s : HDPCDrive F),
      (wait_loop first reads s).1.commands = s.commands := by
    intro reads
    induction reads with
    | nil =>
      intro first s
      unfold wait_loop
      cases first with
      | none => rfl
      | some st =>
        dsimp only
        split_ifs <;> rfl
    | cons r rest ih =>
      intro first s
      unfold wait_loop
      cases first with
      | none => rfl
      | some st =>
        dsimp only
        split_ifs
        · exact ih r { s with sm_calls := s.sm_calls ++ [SMEvent.EVENT_READ_STATE] }
        · rfl
  unfold wait_for_services
  dsimp only
  split_ifs
  · rw [hloop]; exact h
  · rw [show ({ (wait_loop first reads s).1 with
        sm_calls := (wait_loop first reads s).1.sm_calls ++ [SMEvent.EVENT_START] }
        : HDPCDrive F).commands = (wait_loop first reads s).1.commands from rfl, hloop]
    exact h
  · exact slotInv_reset now

/-- C10 (amended): in every reachable state, every slot with `isActive = false`
has position 0, and every drive slot (0 to 5) with `isActive = false` has
velocity 0. -/
theorem inactive_slot_invariant {F : Type} [LinearOrderedField F] [FloorRing F] (m : Libm F)
    (s : HDPCDrive F) (h : Reachable m s) :
    (∀ i : Fin 10, s.commands.isActive i = false → s.commands.position i = 0)
    ∧ (∀ i : Fin 10, i.val < 6 → s.commands.isActive i = false →
        s.commands.velocity i = Dbl.fin 0) := by
  have hinv : SlotInv s.commands := by
    induction h with
    | start geom mr ml motors0 now0 first reads start_ok now1 =>
      exact slotInv_wait_for_services _ _ _ _ _ (slotInv_reset now0)
    | next i s _ ih => exact slotInv_handle m i s ih
  exact ⟨hinv.1, hinv.2.1⟩

/-- A run from a reachable state ends in a reachable state. -/
theorem run_reachable {F : Type} [LinearOrderedField F] [FloorRing F] (m : Libm F) (inputs : List (Input F)) :
    ∀ s : HDPCDrive F, Reachable m s → Reachable m (run m inputs s) := by
  induction inputs with
  | nil => intro s h; exact h
  | cons i rest ih => intro s h; exact ih _ (Reachable.next i s h)

/-- The state `startState` is reachable. -/
theorem startState_reachable {F : Type} [LinearOrderedField F] [FloorRing F] (m : Libm F) :
    Reachable m (startState F) :=
  Reachable.start _ _ _ _ _ _ _ _ _

/-- The snapshot of the constructor, slot by slot. -/
theorem reset_commands_eq {F : Type} [LinearOrderedField F] (now : Nat) :
    (reset_commands now : Commands F)
      = ⟨now, fun _ => false, fun _ => Dbl.fin 0, fun _ => 0⟩ := by
  have h1 : (reset_commands now : Commands F).isActive = fun _ => false := by
    funext i; fin_cases i <;> simp [reset_commands, allSlots, Function.update]
  have h2 : (reset_commands now : Commands F).velocity = fun _ => Dbl.fin 0 := by
    funext i; fin_cases i <;> simp [reset_commands, allSlots, Function.update]
  have h3 : (reset_commands now : Commands F).position = fun _ => 0 := by
    funext i; fin_cases i <;> simp [reset_commands, allSlots, Function.update]
  have h4 : (reset_commands now : Commands F).stamp = now := by
    simp [reset_commands, allSlots]
  cases h : (reset_commands now : Commands F) with
  | mk a b c d =>
    rw [h] at h1 h2 h3 h4
    simp only at h1 h2 h3 h4
    rw [h1, h2, h3, h4]

/-- A degenerate command makes the drive slot inactive with zero velocity and
writes nothing else. -/
theorem vel_and_steering_degenerate {F : Type} [LinearOrderedField F] (m : Libm F) (v w : F)
    (i_vel : Fin 10) (i_steer : Option (Fin 10)) (x_w y_w : F) (s : HDPCDrive F)
    (hw : |w| < 1e-2) (hv : |v| < 1e-2) :
    vel_and_steering m v w i_vel i_steer x_w y_w s
      = { s with commands :=
          { s.commands with velocity := Function.update s.commands.velocity i_vel (Dbl.fin 0),
                            isActive := Function.update s.commands.isActive i_vel false } } := by
  simp only [vel_and_steering, if_pos (And.intro hw hv)]

/-- C10, counterexample: the run `zeroTwistInputs` is a run of the controller,
and it ends with the front-left steering slot inactive and its velocity
at -1. -/
theorem zero_twist_steering_rate :
    Reachable realLibm (run realLibm (zeroTwistInputs ℝ) (startState ℝ))
    ∧ (run realLibm (zeroTwistInputs ℝ) (startState ℝ)).commands.isActive STEERING_FRONT_LEFT
        = false
    ∧ (run realLibm (zeroTwistInputs ℝ) (startState ℝ)).commands.velocity STEERING_FRONT_LEFT
        = Dbl.fin (-1)
    ∧ Dbl.fin (-1) ≠ (Dbl.fin 0 : Dbl ℝ) := by
  have h1 : startState ℝ = ⟨⟨1, 1, 1, 1/4, 1/10, 1⟩, 1, 9/10, MODE_INIT, 0, ⟨fun _ => 0⟩,
      ⟨0, fun _ => false, fun _ => Dbl.fin 0, fun _ => 0⟩,
      [SMEvent.EVENT_READ_STATE, SMEvent.EVENT_START]⟩ := by
    simp [startState, wait_for_services, wait_loop, construct, SM_STOP, reset_commands_eq]
  have h2 : handle realLibm (Input.tick 1) (startState ℝ)
      = ⟨⟨1, 1, 1, 1/4, 1/10, 1⟩, 1, 9/10, MODE_STOPPED, 0, ⟨fun _ => 0⟩,
      ⟨0, fun _ => false, fun _ => Dbl.fin 0, fun _ => 0⟩,
      [SMEvent.EVENT_READ_STATE, SMEvent.EVENT_START, SMEvent.EVENT_STOP]⟩ := by
    rw [h1]
    simp [handle, main_loop_step, stop_rover, max_offset, steeringSlots, MODE_INIT, MODE_STOPPED]
    norm_num
  have h3 : handle realLibm
      (Input.mode_request (some SM_DRIVE) true ⟨MODE_ACKERMANN⟩ ⟨false, 0⟩)
      (handle realLibm (Input.tick 1) (startState ℝ))
      = ⟨⟨1, 1, 1, 1/4, 1/10, 1⟩, 1, 9/10, MODE_ACKERMANN, 100, ⟨fun _ => 0⟩,
      ⟨0, fun _ => false, fun _ => Dbl.fin 0, fun _ => 0⟩,
      [SMEvent.EVENT_READ_STATE, SMEvent.EVENT_START, SMEvent.EVENT_STOP,
        SMEvent.EVENT_READ_STATE]⟩ := by
    rw [h2]
    simp [handle, set_mode, mode_transition, SM_DRIVE, SM_INIT, SM_STOP, MODE_STOPPED,
      MODE_ACKERMANN, MODE_INIT_ROTATION, MODE_ROTATION, WATCHDOG_INIT]
  have h4 : run realLibm (zeroTwistInputs ℝ) (startState ℝ)
      = synthesize realLibm 0 0
        ⟨⟨1, 1, 1, 1/4, 1/10, 1⟩, 1, 9/10, MODE_ACKERMANN, 100,
          ⟨fun i => if i = STEERING_FRONT_LEFT then 1 else 0⟩,
          ⟨3, fun _ => false, fun _ => Dbl.fin 0, fun _ => 0⟩,
          [SMEvent.EVENT_READ_STATE, SMEvent.EVENT_START, SMEvent.EVENT_STOP,
            SMEvent.EVENT_READ_STATE]⟩ := by
    simp only [run, zeroTwistInputs, List.foldl]
    rw [h3]
    simp only [handle, readingsCallback, ackermannCallback]
    rw [if_neg (by decide), drive_rover_eq]
    have hc : clamp (0 : ℝ) (9 / 10) = 0 ∧ clamp (0 : ℝ) 1 = 0 := by
      constructor <;> simp [clamp] <;> norm_num
    simp only [to_float32_zero, hc.1, hc.2]
    rw [(clip_cmd_small _ _ _).1 (by norm_num)]
    simp [stamp_commands, WATCHDOG_INIT]
  have hsm : |(0 : ℝ)| < 1e-2 := by norm_num
  refine ⟨run_reachable _ _ _ (startState_reachable _), ?_, ?_, by simp⟩
  · rw [h4]
    simp [synthesize, steer_station, set_steering_rate,
      vel_and_steering_degenerate _ _ _ _ _ _ _ _ hsm hsm,
      STEERING_FRONT_LEFT, STEERING_FRONT_RIGHT, STEERING_REAR_LEFT, STEERING_REAR_RIGHT,
      DRIVE_FRONT_LEFT, DRIVE_FRONT_RIGHT, DRIVE_MIDDLE_LEFT, DRIVE_MIDDLE_RIGHT,
      DRIVE_REAR_LEFT, DRIVE_REAR_RIGHT, Function.update]
  · rw [h4]
    simp [synthesize, steer_station, set_steering_rate,
      vel_and_steering_degenerate _ _ _ _ _ _ _ _ hsm hsm,
      STEERING_FRONT_LEFT, STEERING_FRONT_RIGHT, STEERING_REAR_LEFT, STEERING_REAR_RIGHT,
      DRIVE_FRONT_LEFT, DRIVE_FRONT_RIGHT, DRIVE_MIDDLE_LEFT, DRIVE_MIDDLE_RIGHT,
      DRIVE_REAR_LEFT, DRIVE_REAR_RIGHT, Function.update, Dbl.div, Dbl.stdmax, Dbl.lt]
    norm_num [Dbl.div, Dbl.stdmax, Dbl.lt]

/-- C10, instance of the amended statement: the state after the run
`zeroTwistInputs`. -/
theorem inactive_slot_invariant_witness :
    (∀ i : Fin 10,
      (run realLibm (zeroTwistInputs ℝ) (startState ℝ)).commands.isActive i = false →
      (run realLibm (zeroTwistInputs ℝ) (startState ℝ)).commands.position i = 0)
    ∧ (∀ i : Fin 10, i.val < 6 →
      (run realLibm (zeroTwistInputs ℝ) (startState ℝ)).commands.isActive i = false →
      (run realLibm (zeroTwistInputs ℝ) (startState ℝ)).commands.velocity i = Dbl.fin 0) :=
  inactive_slot_invariant realLibm _ (run_reachable _ _ _ (startState_reachable _))

/-! ## Readiness of `stop_rover` and the range of the watchdog -/

/-- C11: with the four steering positions within 5e-2 of 0 and a mode other than
STOPPED, one call of `stop_rover` appends exactly the event STOP to the calls
of the hardware state machine and sets the mode to STOPPED, leaving watchdog
and command snapshot as they were; a call in mode STOPPED with the feedback
within the tolerance changes nothing at all, also after a new feedback
message, and so does a second call right after the first. -/
theorem stop_rover_idempotent {F : Type} [LinearOrderedField F] (now : Nat) (s : HDPCDrive F)
    (htol : ∀ i : Fin 10, 6 ≤ i.val → |s.motors.position i| ≤ 5e-2)
    (hmode : s.control_mode ≠ MODE_STOPPED) :
    stop_rover now s
        = { s with sm_calls := s.sm_calls ++ [SMEvent.EVENT_STOP], control_mode := MODE_STOPPED }
    ∧ (stop_rover now s).watchdog = s.watchdog
    ∧ (stop_rover now s).commands = s.commands
    ∧ (∀ (now2 : Nat) (t : HDPCDrive F),
        (∀ i : Fin 10, 6 ≤ i.val → |t.motors.position i| ≤ 5e-2) →
        t.control_mode = MODE_STOPPED → stop_rover now2 t = t)
    ∧ (∀ (now2 : Nat) (msg : Readings F),
        (∀ i : Fin 10, 6 ≤ i.val → |msg.position i| ≤ 5e-2) →
        stop_rover now2 (readingsCallback now2 msg (stop_rover now s)).1
          = (readingsCallback now2 msg (stop_rover now s)).1)
    ∧ (∀ now2 : Nat, stop_rover now2 (stop_rover now s) = stop_rover now s) := by
  have h0 : (0 : F) ≤ 5e-2 := by norm_num
  have hready : ∀ t : HDPCDrive F,
      (∀ i : Fin 10, 6 ≤ i.val → |t.motors.position i| ≤ 5e-2) →
      ¬ max_offset t.motors.position > 5e-2 := by
    intro t ht hgt
    obtain ⟨i, hi, hlt⟩ := (max_offset_gt _ _ h0).mp hgt
    exact absurd hlt (not_lt.mpr (ht i hi))
  have hstopped : ∀ (now2 : Nat) (t : HDPCDrive F),
      (∀ i : Fin 10, 6 ≤ i.val → |t.motors.position i| ≤ 5e-2) →
      t.control_mode = MODE_STOPPED → stop_rover now2 t = t := by
    intro now2 t ht hm
    simp only [stop_rover, if_neg (hready t ht), hm, ne_eq, not_true_eq_false, if_false]
  have hfirst : stop_rover now s
      = { s with sm_calls := s.sm_calls ++ [SMEvent.EVENT_STOP],
                 control_mode := MODE_STOPPED } := by
    simp only [stop_rover, if_neg (hready s htol), ne_eq, hmode, not_false_eq_true, if_true]
  refine ⟨hfirst, ?_, ?_, hstopped, ?_, ?_⟩
  · rw [hfirst]
  · rw [hfirst]
  · intro now2 msg hmsg
    apply hstopped
    · exact hmsg
    · rw [hfirst]; rfl
  · intro now2
    apply hstopped
    · rw [hfirst]; exact htol
    · rw [hfirst]

/-- C11, instance: the state `expiredDirectDrive`, with the steering feedback
at 0. -/
theorem stop_rover_idempotent_witness :
    (stop_rover 1 (expiredDirectDrive ℚ)).sm_calls = [SMEvent.EVENT_STOP]
    ∧ (stop_rover 1 (expiredDirectDrive ℚ)).control_mode = MODE_STOPPED
    ∧ stop_rover 2 (stop_rover 1 (expiredDirectDrive ℚ)) = stop_rover 1 (expiredDirectDrive ℚ) :=
  have h := stop_rover_idempotent 1 (expiredDirectDrive ℚ)
    (fun i _ => by norm_num [expiredDirectDrive]) (by decide)
  ⟨by rw [h.1]; rfl, by rw [h.1], h.2.2.2.2.2 2⟩

theorem set_mode_watchdog {F : Type} [LinearOrderedField F] (read : Option Nat)
    (start_ok : Bool) (req : SetControlModeRequest) (res : SetControlModeResponse)
    (s : HDPCDrive F) :
    (set_mode read start_ok req res s).1.watchdog = s.watchdog
    ∨ (set_mode read start_ok req res s).1.watchdog = WATCHDOG_INIT := by
  unfold set_mode
  cases read with
  | none => left; rfl
  | some st =>
    dsimp only
    split_ifs
    · right; exact (mode_transition_rest _ _ _).2.2.1
    · left; rfl
    · right; exact (mode_transition_rest _ _ _).2.2.1
    · right; exact (mode_transition_rest _ _ _).2.2.1
    · left; rfl

theorem main_loop_step_watchdog {F : Type} [LinearOrderedField F] (m : Libm F) (now : Nat)
    (s : HDPCDrive F) :
    (main_loop_step m now s).1.watchdog = s.watchdog
    ∨ (0 < s.watchdog ∧ (main_loop_step m now s).1.watchdog = s.watchdog - 1) := by
  have hstop : (stop_rover now s).watchdog = s.watchdog := by
    unfold stop_rover
    dsimp only
    split_ifs <;> rfl
  have hinit : (init_rotation m now s).watchdog = s.watchdog := by
    unfold init_rotation
    dsimp only
    split_ifs <;> rfl
  unfold main_loop_step
  split_ifs with h1 h2 h3 h4
  · left; exact hstop
  · left; exact hinit
  · left; rfl
  · right
    refine ⟨Nat.pos_of_ne_zero h4, ?_⟩
    show uint_decrement s.watchdog = s.watchdog - 1
    unfold uint_decrement
    rw [if_neg h4]
  · left; rfl

theorem handle_watchdog {F : Type} [LinearOrderedField F] [FloorRing F] (m : Libm F) (i : Input F)
    (s : HDPCDrive F) (h : s.watchdog ≤ WATCHDOG_INIT) :
    (handle m i s).watchdog ≤ WATCHDOG_INIT := by
  cases i with
  | readings now msg => exact h
  | mode_request read start_ok req res =>
    simp only [handle]
    rcases set_mode_watchdog read start_ok req res s with h1 | h1 <;> rw [h1]
    exact h
  | direct now msg =>
    simp only [handle, directDriveCallback]
    split_ifs
    · exact h
    · exact le_refl _
  | ackermann now msg =>
    simp only [handle, ackermannCallback]
    split_ifs
    · exact h
    · rw [drive_rover_frame]
  | tick now =>
    simp only [handle]
    rcases main_loop_step_watchdog m now s with h1 | ⟨_, h1⟩ <;> rw [h1]
    · exact h
    · exact le_trans (Nat.sub_le _ _) h

theorem wait_for_services_watchdog {F : Type} [LinearOrderedField F] (first : Option Nat)
    (reads : List (Option Nat)) (start_ok : Bool) (now : Nat) (s : HDPCDrive F)
    (h : s.watchdog = 0) : (wait_for_services first reads start_ok now s).1.watchdog = 0 := by
  have hloop : ∀ (reads : List (Option Nat)) (first : Option Nat) (s : HDPCDrive F),
      (wait_loop first reads s).1.watchdog = s.watchdog := by
    intro reads
    induction reads with
    | nil =>
      intro first s
      unfold wait_loop
      cases first with
      | none => rfl
      | some st =>
        dsimp only
        split_ifs <;> rfl
    | cons r rest ih =>
      intro first s
      unfold wait_loop
      cases first with
      | none => rfl
      | some st =>
        dsimp only
        split_ifs
        · exact ih r { s with sm_calls := s.sm_calls ++ [SMEvent.EVENT_READ_STATE] }
        · rfl
  unfold wait_for_services
  dsimp only
  split_ifs
  · rw [hloop]; exact h
  · show (wait_loop first reads s).1.watchdog = 0
    rw [hloop]; exact h
  · rfl

/-- C20: in every reachable state the watchdog is at most `WATCHDOG_INIT = 100`,
and a tick either leaves the watchdog as it was or finds it positive and
takes 1 off, so the unsigned counter never wraps around. -/
theorem watchdog_range {F : Type} [LinearOrderedField F] [FloorRing F] (m : Libm F) (s : HDPCDrive F)
    (h : Reachable m s) :
    s.watchdog ≤ WATCHDOG_INIT
    ∧ WATCHDOG_INIT = 100
    ∧ (∀ now : Nat,
        (main_loop_step m now s).1.watchdog = s.watchdog
        ∨ (0 < s.watchdog ∧ (main_loop_step m now s).1.watchdog = s.watchdog - 1))
    ∧ (∀ now : Nat, (main_loop_step m now s).1.watchdog ≤ s.watchdog) := by
  have hle : s.watchdog ≤ WATCHDOG_INIT := by
    induction h with
    | start geom mr ml motors0 now0 first reads start_ok now1 =>
      rw [wait_for_services_watchdog _ _ _ _ _ rfl]
      exact Nat.zero_le _
    | next i s _ ih => exact handle_watchdog m i s ih
  refine ⟨hle, rfl, fun now => main_loop_step_watchdog m now s, fun now => ?_⟩
  rcases main_loop_step_watchdog m now s with h1 | ⟨_, h1⟩ <;> rw [h1]
  exact Nat.sub_le _ _

/-- C20, instance: the state after the run `zeroTwistInputs`. -/
theorem watchdog_range_witness :
    (run realLibm (zeroTwistInputs ℝ) (startState ℝ)).watchdog ≤ WATCHDOG_INIT :=
  (watchdog_range realLibm _ (run_reachable _ _ _ (startState_reachable _))).1

/-! ## Pure rotation -/

theorem roundHalfEven_mid (x : ℝ) (h1 : -(1 / 2) < x) (h2 : x < 1 / 2) : roundHalfEven x = 0 := by
  rcases le_or_lt 0 x with h0 | h0
  · have hf : ⌊x⌋ = 0 := Int.floor_eq_iff.mpr ⟨by simp; linarith, by simp; linarith⟩
    simp only [roundHalfEven, hf, Int.cast_zero, sub_zero]
    rw [if_pos h2]
  · have hf : ⌊x⌋ = -1 := Int.floor_eq_iff.mpr ⟨by simp; linarith, by simp; linarith⟩
    simp only [roundHalfEven, hf]
    rw [if_neg (by push_cast; linarith), if_pos (by push_cast; linarith)]
    rfl

theorem roundHalfEven_neg_one : roundHalfEven (-1 : ℝ) = -1 := by
  have hf : ⌊(-1 : ℝ)⌋ = -1 := Int.floor_eq_iff.mpr ⟨by simp, by simp⟩
  simp only [roundHalfEven, hf]
  rw [if_pos (by push_cast; norm_num)]

theorem remainder_hi (p : ℝ) (h1 : Real.pi / 2 < p) (h2 : p ≤ Real.pi) :
    realLibm.remainder p realLibm.M_PI = p - Real.pi := by
  have hpi := Real.pi_pos
  have hr : roundHalfEven (p / Real.pi) = 1 :=
    roundHalfEven_upper _ (by rw [lt_div_iff₀ hpi]; linarith) (by rw [div_le_iff₀ hpi]; linarith)
  simp only [realLibm, hr, Int.cast_one, one_mul]

theorem remainder_lo (p : ℝ) (h1 : -Real.pi ≤ p) (h2 : p < -(Real.pi / 2)) :
    realLibm.remainder p realLibm.M_PI = p + Real.pi := by
  have hpi := Real.pi_pos
  have hr : roundHalfEven (p / Real.pi) = -1 := by
    rcases eq_or_lt_of_le h1 with h | h
    · rw [← h, neg_div, div_self (ne_of_gt hpi)]
      exact roundHalfEven_neg_one
    · exact roundHalfEven_lower _ (by rw [lt_div_iff₀ hpi]; linarith)
        (by rw [div_lt_iff₀ hpi]; linarith)
  simp only [realLibm, hr, Int.cast_neg, Int.cast_one, neg_mul, one_mul, sub_neg_eq_add]

theorem remainder_mid (p : ℝ) (h1 : -(Real.pi / 2) < p) (h2 : p < Real.pi / 2) :
    realLibm.remainder p realLibm.M_PI = p := by
  have hpi := Real.pi_pos
  have hr : roundHalfEven (p / Real.pi) = 0 :=
    roundHalfEven_mid _ (by rw [lt_div_iff₀ hpi]; linarith) (by rw [div_lt_iff₀ hpi]; linarith)
  simp only [realLibm, hr, Int.cast_zero, zero_mul, sub_zero]

/-- An angle of `[-π/2, π/2]` with nonzero cosine is the arctangent of its tangent. -/
theorem eq_arctan_of_tan (t u : ℝ) (h : |t| ≤ Real.pi / 2) (hc : Real.cos t ≠ 0)
    (ht : Real.tan t = u) : t = Real.arctan u := by
  have hb := abs_le.mp h
  have h1 : t ≠ Real.pi / 2 := by
    intro e; rw [e, Real.cos_pi_div_two] at hc; exact hc rfl
  have h2 : t ≠ -(Real.pi / 2) := by
    intro e; rw [e, Real.cos_neg, Real.cos_pi_div_two] at hc; exact hc rfl
  rw [← ht, Real.arctan_tan (lt_of_le_of_ne hb.1 (Ne.symm h2)) (lt_of_le_of_ne hb.2 h1)]

/-- The steering angle after the quadrant flip, for a wheel velocity `(a, c)` with `c ≠ 0`, is
`arctan (a / c)`. -/
theorem fold_arg_eq_arctan (a c : ℝ) (hc : c ≠ 0) :
    (if Real.pi / 2 < |realLibm.atan2 a c| then
        realLibm.remainder (realLibm.atan2 a c) realLibm.M_PI
      else realLibm.atan2 a c) = Real.arctan (a / c) := by
  have hz : (⟨c, a⟩ : ℂ) ≠ 0 := fun h => hc (by simpa using congrArg Complex.re h)
  have hcos : Real.cos (Complex.arg ⟨c, a⟩) ≠ 0 := by
    rw [Complex.cos_arg hz]
    exact div_ne_zero hc (by simpa using hz)
  have htan : Real.tan (Complex.arg ⟨c, a⟩) = a / c := Complex.tan_arg _
  show (if Real.pi / 2 < |Complex.arg ⟨c, a⟩| then
        realLibm.remainder (Complex.arg ⟨c, a⟩) realLibm.M_PI
      else Complex.arg ⟨c, a⟩) = Real.arctan (a / c)
  split_ifs with hflip
  · obtain ⟨hb, hs, hco⟩ := remainder_fold _ (Complex.neg_pi_lt_arg _) (Complex.arg_le_pi _) hflip
    refine eq_arctan_of_tan _ _ hb ?_ ?_
    · rw [hco]; exact neg_ne_zero.mpr hcos
    · rw [Real.tan_eq_sin_div_cos, hs, hco, neg_div_neg_eq, ← Real.tan_eq_sin_div_cos, htan]
  · exact eq_arctan_of_tan _ _ (not_lt.mp hflip) hcos htan

/-- The target of `init_rotation` for the offsets `(a, c)` with `c ≠ 0`. -/
theorem remainder_neg_arg (a c : ℝ) (hc : c ≠ 0) :
    realLibm.remainder (-(realLibm.atan2 a c)) realLibm.M_PI = -Real.arctan (a / c) := by
  have hfold := fold_arg_eq_arctan a c hc
  have h1 : -Real.pi < realLibm.atan2 a c := Complex.neg_pi_lt_arg _
  have h2 : realLibm.atan2 a c ≤ Real.pi := Complex.arg_le_pi _
  have hat := Real.arctan_lt_pi_div_two (a / c)
  have hat' := Real.neg_pi_div_two_lt_arctan (a / c)
  generalize realLibm.atan2 a c = θ at hfold h1 h2
  split_ifs at hfold with hflip
  · rcases lt_abs.mp hflip with h | h
    · rw [remainder_hi θ h h2] at hfold
      rw [remainder_lo (-θ) (by linarith) (by linarith)]
      linarith
    · rw [remainder_lo θ h1.le (by linarith)] at hfold
      rw [remainder_hi (-θ) (by linarith) (by linarith)]
      linarith
  · rw [← hfold, remainder_mid (-θ) (by linarith) (by linarith)]

/-- The angle and the speed that `vel_and_steering` writes for a command that is not
degenerate. -/
theorem vel_and_steering_writes {F : Type} [LinearOrderedField F] (m : Libm F) (v w : F)
    (i_vel i : Fin 10) (x_w y_w : F) (s : HDPCDrive F) (hnd : ¬ (|w| < 1e-2 ∧ |v| < 1e-2)) :
    (vel_and_steering m v w i_vel (some i) x_w y_w s).commands.position i
      = (if m.M_PI / 2 < |m.atan2 (x_w * w) (v - y_w * w)| then
          m.remainder (m.atan2 (x_w * w) (v - y_w * w)) m.M_PI
        else m.atan2 (x_w * w) (v - y_w * w))
    ∧ (vel_and_steering m v w i_vel (some i) x_w y_w s).commands.velocity i_vel
      = (if m.M_PI / 2 < |m.atan2 (x_w * w) (v - y_w * w)| then
          Dbl.negate (Dbl.div (Dbl.fin (m.sqrt (SQR (x_w * w) + SQR (v - y_w * w))))
            (Dbl.fin s.geom.rover_wheel_radius))
        else Dbl.div (Dbl.fin (m.sqrt (SQR (x_w * w) + SQR (v - y_w * w))))
            (Dbl.fin s.geom.rover_wheel_radius)) := by
  simp only [vel_and_steering, if_neg hnd, gt_iff_lt, Function.update_same]
  by_cases h : m.M_PI / 2 < |m.atan2 (x_w * w) (v - y_w * w)|
  · simp [h]
  · simp [h]

theorem not_small_ne_zero {F : Type} [LinearOrderedField F] (w : F) (h : ¬ |w| < 1e-2) :
    w ≠ 0 := by
  intro e
  apply h
  rw [e, abs_zero]
  norm_num

/-- Under a pure rotation the folded steering angle of the station `(x, y)` is
`-arctan (x / y)`, which is also the target that `init_rotation` computes from `atan2 x y`. -/
theorem pure_rotation_target (x y w : ℝ) (hy : y ≠ 0) (hw : w ≠ 0) :
    (if realLibm.M_PI / 2 < |realLibm.atan2 (x * w) (0 - y * w)| then
        realLibm.remainder (realLibm.atan2 (x * w) (0 - y * w)) realLibm.M_PI
      else realLibm.atan2 (x * w) (0 - y * w)) = -Real.arctan (x / y)
    ∧ realLibm.remainder (-(realLibm.atan2 x y)) realLibm.M_PI = -Real.arctan (x / y) := by
  have hc : 0 - y * w ≠ 0 := by
    rw [zero_sub]; exact neg_ne_zero.mpr (mul_ne_zero hy hw)
  refine ⟨?_, remainder_neg_arg x y hy⟩
  have h := fold_arg_eq_arctan (x * w) (0 - y * w) hc
  have e : x * w / (0 - y * w) = -(x / y) := by
    field_simp
    ring
  rw [e, Real.arctan_neg] at h
  exact h

/-- C12: for `v = 0`, `|omega| >= 1e-2`, every `x_w` and `W > 0` (wheel radius
`R > 0`), the wheels at `(x_w, W/2)` and `(x_w, -W/2)` get steering angles
that are negatives of each other and finite drive speeds of the same
absolute value. -/
theorem pure_rotation_mirror (omega x_w W : ℝ) (i_vel j_vel i j : Fin 10) (s t : HDPCDrive ℝ)
    (homega : ¬ |omega| < 1e-2) (hW : 0 < W) (hR : 0 < s.geom.rover_wheel_radius)
    (hst : t.geom.rover_wheel_radius = s.geom.rover_wheel_radius) :
    (vel_and_steering realLibm 0 omega i_vel (some i) x_w (W / 2) s).commands.position i
      = -(vel_and_steering realLibm 0 omega j_vel (some j) x_w (-W / 2) t).commands.position j
    ∧ ∃ sa sb : ℝ,
      (vel_and_steering realLibm 0 omega i_vel (some i) x_w (W / 2) s).commands.velocity i_vel
        = Dbl.fin sa
      ∧ (vel_and_steering realLibm 0 omega j_vel (some j) x_w (-W / 2) t).commands.velocity j_vel
        = Dbl.fin sb
      ∧ |sa| = |sb| := by
  have hw : omega ≠ 0 := not_small_ne_zero omega homega
  have hnd : ¬ (|omega| < 1e-2 ∧ |(0 : ℝ)| < 1e-2) := fun h => homega h.1
  have hR0 : s.geom.rover_wheel_radius ≠ 0 := ne_of_gt hR
  obtain ⟨hpa, hva⟩ := vel_and_steering_writes realLibm 0 omega i_vel i x_w (W / 2) s hnd
  obtain ⟨hpb, hvb⟩ := vel_and_steering_writes realLibm 0 omega j_vel j x_w (-W / 2) t hnd
  have hta := (pure_rotation_target x_w (W / 2) omega (by positivity) hw).1
  have htb := (pure_rotation_target x_w (-W / 2) omega
    (div_ne_zero (neg_ne_zero.mpr (ne_of_gt hW)) two_ne_zero) hw).1
  constructor
  · rw [hpa, hpb, hta, htb, neg_div, div_neg, Real.arctan_neg, neg_neg]
  · have hsq : SQR (x_w * omega) + SQR (0 - -W / 2 * omega)
        = SQR (x_w * omega) + SQR (0 - W / 2 * omega) := by
      simp only [SQR]; ring
    have hdiv : ∀ r : ℝ, Dbl.div (Dbl.fin r) (Dbl.fin s.geom.rover_wheel_radius)
        = Dbl.fin (r / s.geom.rover_wheel_radius) := by
      intro r; simp [Dbl.div, hR0]
    rw [hva, hvb, hst, hsq, hdiv]
    generalize realLibm.sqrt (SQR (x_w * omega) + SQR (0 - W / 2 * omega))
      / s.geom.rover_wheel_radius = q
    split_ifs
    · exact ⟨_, _, rfl, rfl, rfl⟩
    · exact ⟨q * (-1), q, rfl, rfl, by simp⟩
    · exact ⟨q, q * (-1), rfl, rfl, by simp⟩
    · exact ⟨_, _, rfl, rfl, rfl⟩

/-- C12, instance: the front stations at `x_w = 1`, `W = 1`, for `omega = 1`. -/
theorem pure_rotation_mirror_witness :
    ¬ |(1 : ℝ)| < 1e-2 ∧ (0 : ℝ) < 1
    ∧ (vel_and_steering realLibm 0 1 DRIVE_FRONT_LEFT (some STEERING_FRONT_LEFT) 1 (1 / 2)
        (expiredDirectDrive ℝ)).commands.position STEERING_FRONT_LEFT
      = -(vel_and_steering realLibm 0 1 DRIVE_FRONT_RIGHT (some STEERING_FRONT_RIGHT) 1 (-1 / 2)
        (expiredDirectDrive ℝ)).commands.position STEERING_FRONT_RIGHT :=
  have h1 : ¬ |(1 : ℝ)| < 1e-2 := by norm_num
  ⟨h1, one_pos, (pure_rotation_mirror 1 1 1 DRIVE_FRONT_LEFT DRIVE_FRONT_RIGHT STEERING_FRONT_LEFT
    STEERING_FRONT_RIGHT (expiredDirectDrive ℝ) (expiredDirectDrive ℝ) h1 one_pos
    (by norm_num [expiredDirectDrive]) rfl).1⟩

/-- The value of the folded angle `atan2 a c`, by the signs of `a` and `c`. -/
theorem fold_arg_cases (a c : ℝ) :
    (0 ≤ c → (if realLibm.M_PI / 2 < |realLibm.atan2 a c| then
        realLibm.remainder (realLibm.atan2 a c) realLibm.M_PI
      else realLibm.atan2 a c) = realLibm.atan2 a c)
    ∧ (c < 0 → 0 ≤ a → (if realLibm.M_PI / 2 < |realLibm.atan2 a c| then
        realLibm.remainder (realLibm.atan2 a c) realLibm.M_PI
      else realLibm.atan2 a c) = realLibm.atan2 a c - Real.pi)
    ∧ (c < 0 → a < 0 → (if realLibm.M_PI / 2 < |realLibm.atan2 a c| then
        realLibm.remainder (realLibm.atan2 a c) realLibm.M_PI
      else realLibm.atan2 a c) = realLibm.atan2 a c + Real.pi) := by
  have hle : |realLibm.atan2 a c| ≤ Real.pi / 2 ↔ 0 ≤ c :=
    Complex.abs_arg_le_pi_div_two_iff (z := ⟨c, a⟩)
  have hnn : 0 ≤ realLibm.atan2 a c ↔ 0 ≤ a := Complex.arg_nonneg_iff (z := ⟨c, a⟩)
  have h1 : -Real.pi < realLibm.atan2 a c := Complex.neg_pi_lt_arg _
  have h2 : realLibm.atan2 a c ≤ Real.pi := Complex.arg_le_pi _
  have hM : realLibm.M_PI = Real.pi := rfl
  rw [hM]
  generalize realLibm.atan2 a c = θ at hle hnn h1 h2
  refine ⟨fun hc => ?_, fun hc ha => ?_, fun hc ha => ?_⟩
  · rw [if_neg (not_lt.mpr (hle.mpr hc))]
  · have hgt : Real.pi / 2 < |θ| := not_le.mp (fun h => absurd (hle.mp h) (not_le.mpr hc))
    have h0 : 0 ≤ θ := hnn.mpr ha
    rw [if_pos hgt, ← hM, remainder_hi θ (by rwa [abs_of_nonneg h0] at hgt) h2, hM]
  · have hgt : Real.pi / 2 < |θ| := not_le.mp (fun h => absurd (hle.mp h) (not_le.mpr hc))
    have h0 : θ < 0 := not_le.mp (fun h => absurd (hnn.mp h) (not_le.mpr ha))
    rw [if_pos hgt, ← hM, remainder_lo θ h1.le (by rw [abs_of_neg h0] at hgt; linarith), hM]

/-- C13 (amended): for `v = 0` and `|omega| >= 1e-2` the angle written to the
steering slot is `atan2 (x_w * omega) (-y_w * omega)` when
`-y_w * omega >= 0`; when `-y_w * omega < 0` it is that angle minus `π` for
`x_w * omega >= 0` and plus `π` for `x_w * omega < 0`; in every case it
lies in `[-π/2, π/2]`. -/
theorem pure_rotation_angle (omega x_w y_w : ℝ) (i_vel i : Fin 10) (s : HDPCDrive ℝ)
    (homega : ¬ |omega| < 1e-2) :
    (0 ≤ -y_w * omega →
      (vel_and_steering realLibm 0 omega i_vel (some i) x_w y_w s).commands.position i
        = realLibm.atan2 (x_w * omega) (-y_w * omega))
    ∧ (-y_w * omega < 0 → 0 ≤ x_w * omega →
      (vel_and_steering realLibm 0 omega i_vel (some i) x_w y_w s).commands.position i
        = realLibm.atan2 (x_w * omega) (-y_w * omega) - Real.pi)
    ∧ (-y_w * omega < 0 → x_w * omega < 0 →
      (vel_and_steering realLibm 0 omega i_vel (some i) x_w y_w s).commands.position i
        = realLibm.atan2 (x_w * omega) (-y_w * omega) + Real.pi)
    ∧ |(vel_and_steering realLibm 0 omega i_vel (some i) x_w y_w s).commands.position i|
        ≤ Real.pi / 2 := by
  have hnd : ¬ (|omega| < 1e-2 ∧ |(0 : ℝ)| < 1e-2) := fun h => homega h.1
  have hp := (vel_and_steering_writes realLibm 0 omega i_vel i x_w y_w s hnd).1
  have e : (0 : ℝ) - y_w * omega = -y_w * omega := by ring
  rw [e] at hp
  obtain ⟨f1, f2, f3⟩ := fold_arg_cases (x_w * omega) (-y_w * omega)
  refine ⟨fun h => by rw [hp, f1 h], fun h ha => by rw [hp, f2 h ha],
    fun h ha => by rw [hp, f3 h ha], ?_⟩
  rw [hp]
  have h1 : -Real.pi < realLibm.atan2 (x_w * omega) (-y_w * omega) := Complex.neg_pi_lt_arg _
  have h2 : realLibm.atan2 (x_w * omega) (-y_w * omega) ≤ Real.pi := Complex.arg_le_pi _
  have hM : realLibm.M_PI = Real.pi := rfl
  split_ifs with hflip
  · rw [hM] at hflip
    exact (remainder_fold _ h1 h2 hflip).1
  · rw [hM] at hflip
    exact not_lt.mp hflip

/-- C13, instance of the amended statement: the station `(1, -1/2)` under
`omega = 1`, where the raw angle is kept. -/
theorem pure_rotation_angle_witness :
    ¬ |(1 : ℝ)| < 1e-2 ∧ (0 : ℝ) ≤ -(-1 / 2) * 1
    ∧ (vel_and_steering realLibm 0 1 DRIVE_FRONT_RIGHT (some STEERING_FRONT_RIGHT) 1 (-1 / 2)
        (expiredDirectDrive ℝ)).commands.position STEERING_FRONT_RIGHT
      = realLibm.atan2 (1 * 1) (-(-1 / 2) * 1) :=
  have h1 : ¬ |(1 : ℝ)| < 1e-2 := by norm_num
  have h2 : (0 : ℝ) ≤ -(-1 / 2) * 1 := by norm_num
  ⟨h1, h2, (pure_rotation_angle 1 1 (-1 / 2) DRIVE_FRONT_RIGHT STEERING_FRONT_RIGHT
    (expiredDirectDrive ℝ) h1).1 h2⟩

/-- C13, counterexample: for the station `(1, 1/2)` under `omega = 1` the angle
written to the steering slot is not `atan2 (1 * 1) (-(1/2) * 1)`. -/
theorem pure_rotation_angle_folded :
    ¬ |(1 : ℝ)| < 1e-2
    ∧ (vel_and_steering realLibm 0 1 DRIVE_FRONT_LEFT (some STEERING_FRONT_LEFT) 1 (1 / 2)
        (expiredDirectDrive ℝ)).commands.position STEERING_FRONT_LEFT
      ≠ realLibm.atan2 (1 * 1) (-(1 / 2) * 1) := by
  have h1 : ¬ |(1 : ℝ)| < 1e-2 := by norm_num
  have hnd : ¬ (|(1 : ℝ)| < 1e-2 ∧ |(0 : ℝ)| < 1e-2) := fun h => h1 h.1
  refine ⟨h1, ?_⟩
  have hp := (vel_and_steering_writes realLibm 0 1 DRIVE_FRONT_LEFT STEERING_FRONT_LEFT 1 (1 / 2)
    (expiredDirectDrive ℝ) hnd).1
  have e : (0 : ℝ) - 1 / 2 * 1 = -(1 / 2) * 1 := by ring
  rw [e] at hp
  rw [hp, (fold_arg_cases (1 * 1) (-(1 / 2) * 1)).2.1 (by norm_num) (by norm_num)]
  intro h
  have := Real.pi_pos
  linarith

/-! ## The steering rates -/

theorem vel_and_steering_geom {F : Type} [LinearOrderedField F] (m : Libm F) (v w : F)
    (i_vel : Fin 10) (i_steer : Option (Fin 10)) (x_w y_w : F) (s : HDPCDrive F) :
    (vel_and_steering m v w i_vel i_steer x_w y_w s).geom = s.geom
    ∧ (vel_and_steering m v w i_vel i_steer x_w y_w s).motors = s.motors := by
  rw [vel_and_steering_frame]
  exact ⟨rfl, rfl⟩

theorem vel_and_steering_position {F : Type} [LinearOrderedField F] (m : Libm F) (v w : F)
    (i_vel : Fin 10) (i_steer : Option (Fin 10)) (x_w y_w : F) (s : HDPCDrive F) (j : Fin 10) :
    (vel_and_steering m v w i_vel i_steer x_w y_w s).commands.position j
      = if i_steer = some j ∧ ¬ (|w| < 1e-2 ∧ |v| < 1e-2) then folded_angle m v w x_w y_w
        else s.commands.position j := by
  unfold vel_and_steering folded_angle
  by_cases hd : |w| < 1e-2 ∧ |v| < 1e-2
  · simp [hd]
  · cases i_steer with
    | none => simp [hd]
    | some i =>
      by_cases hij : i = j
      · subst hij
        by_cases hf : m.M_PI / 2 < |m.atan2 (x_w * w) (v - y_w * w)| <;> simp [hd, hf]
      · simp [hd, hij, Function.update_apply, Ne.symm hij]

theorem vel_and_steering_velocity {F : Type} [LinearOrderedField F] (m : Libm F) (v w : F)
    (i_vel : Fin 10) (i_steer : Option (Fin 10)) (x_w y_w : F) (s : HDPCDrive F) (j : Fin 10)
    (hj : j ≠ i_vel) :
    (vel_and_steering m v w i_vel i_steer x_w y_w s).commands.velocity j
      = s.commands.velocity j := by
  unfold vel_and_steering
  by_cases hd : |w| < 1e-2 ∧ |v| < 1e-2
  · simp [hd, Function.update_apply, hj]
  · cases i_steer <;> simp [hd, Function.update_apply, hj]

theorem synthesize_positions {F : Type} [LinearOrderedField F] (m : Libm F) (v w : F)
    (s : HDPCDrive F) (i : Fin 10) (hi : 6 ≤ i.val) :
    (synthesize m v w s).commands.position i
      = if |w| < 1e-2 ∧ |v| < 1e-2 then s.commands.position i
        else station_angle m s.geom v w i := by
  by_cases hd : |w| < 1e-2 ∧ |v| < 1e-2
  · fin_cases i <;> simp at hi <;>
      simp [synthesize, steer_station, set_steering_rate, vel_and_steering_position, hd,
        STEERING_FRONT_LEFT, STEERING_FRONT_RIGHT, STEERING_REAR_LEFT, STEERING_REAR_RIGHT]
  · fin_cases i <;> simp at hi <;>
      simp [synthesize, steer_station, set_steering_rate, vel_and_steering_position, hd,
        station_angle, vel_and_steering_geom,
        STEERING_FRONT_LEFT, STEERING_FRONT_RIGHT, STEERING_REAR_LEFT, STEERING_REAR_RIGHT]

theorem synthesize_rates {F : Type} [LinearOrderedField F] (m : Libm F) (v w : F)
    (s : HDPCDrive F) (i : Fin 10) (hi : 6 ≤ i.val) :
    (synthesize m v w s).commands.velocity i
      = Dbl.div (Dbl.fin ((synthesize m v w s).commands.position i - s.motors.position i))
          (steering_time s.geom
            (fun j => (synthesize m v w s).commands.position j - s.motors.position j)) := by
  have hp : ∀ j : Fin 10, 6 ≤ j.val → (synthesize m v w s).commands.position j
      = if |w| < 1e-2 ∧ |v| < 1e-2 then s.commands.position j
        else station_angle m s.geom v w j := fun j hj => synthesize_positions m v w s j hj
  simp only [steering_time]
  rw [hp i hi, hp STEERING_FRONT_LEFT (by decide), hp STEERING_FRONT_RIGHT (by decide),
    hp STEERING_REAR_LEFT (by decide), hp STEERING_REAR_RIGHT (by decide)]
  by_cases hd : |w| < 1e-2 ∧ |v| < 1e-2
  · fin_cases i <;> simp at hi <;>
      simp [synthesize, steer_station, set_steering_rate, vel_and_steering_position,
        vel_and_steering_velocity, vel_and_steering_geom, hd, Function.update_apply,
        STEERING_FRONT_LEFT, STEERING_FRONT_RIGHT, STEERING_REAR_LEFT, STEERING_REAR_RIGHT,
        DRIVE_FRONT_LEFT, DRIVE_FRONT_RIGHT, DRIVE_MIDDLE_LEFT, DRIVE_MIDDLE_RIGHT,
        DRIVE_REAR_LEFT, DRIVE_REAR_RIGHT]
  · fin_cases i <;> simp at hi <;>
      simp [synthesize, steer_station, set_steering_rate, vel_and_steering_position,
        vel_and_steering_velocity, vel_and_steering_geom, hd, Function.update_apply,
        station_angle,
        STEERING_FRONT_LEFT, STEERING_FRONT_RIGHT, STEERING_REAR_LEFT, STEERING_REAR_RIGHT,
        DRIVE_FRONT_LEFT, DRIVE_FRONT_RIGHT, DRIVE_MIDDLE_LEFT, DRIVE_MIDDLE_RIGHT,
        DRIVE_REAR_LEFT, DRIVE_REAR_RIGHT]

theorem clip_cmd_some {F : Type} [LinearOrderedField F] [FloorRing F] (g : HDPCGeometry F) (mode : Nat)
    (v w : F) (hmode : mode = MODE_ACKERMANN ∨ mode = MODE_ROTATION) :
    ∃ v1 w1 : F, clip_cmd g mode v w = some (v1, w1) := by
  rcases hmode with rfl | rfl
  · by_cases hbig : 1e-2 < |v|
    · exact ⟨_, _, clip_cmd_ackermann g v w hbig⟩
    · exact ⟨_, _, (clip_cmd_small g v w).1 hbig⟩
  · by_cases hbig : 1e-2 < |w|
    · exact ⟨_, _, clip_cmd_rotation g v w hbig⟩
    · exact ⟨_, _, (clip_cmd_small g v w).2 hbig⟩

/-- In mode ACKERMANN or ROTATION `drive_rover` reaches the synthesis. -/
theorem drive_rover_synthesizes {F : Type} [LinearOrderedField F] [FloorRing F] (m : Libm F) (now : Nat)
    (velocity omega : F) (s : HDPCDrive F)
    (hmode : s.control_mode = MODE_ACKERMANN ∨ s.control_mode = MODE_ROTATION) :
    ∃ v w : F,
      clip_cmd s.geom s.control_mode (clamp velocity s.max_linear_speed_m_per_s)
          (clamp omega s.max_rotation_speed_rad_per_s) = some (v, w)
      ∧ drive_rover m now velocity omega s = synthesize m v w (stamp_commands now s) := by
  obtain ⟨v, w, h⟩ := clip_cmd_some s.geom s.control_mode
    (clamp velocity s.max_linear_speed_m_per_s) (clamp omega s.max_rotation_speed_rad_per_s) hmode
  exact ⟨v, w, h, by rw [drive_rover_eq, h]⟩

theorem le_max_offset {F : Type} [LinearOrderedField F] (f : Fin 10 → F) (i : Fin 10)
    (hi : 6 ≤ i.val) : |f i| ≤ max_offset f := by
  fin_cases i <;> simp at hi <;> simp [max_offset, steeringSlots, le_max_iff]

theorem max_offset_attained {F : Type} [LinearOrderedField F] (f : Fin 10 → F)
    (h : 0 < max_offset f) : ∃ i : Fin 10, 6 ≤ i.val ∧ |f i| = max_offset f := by
  simp only [max_offset, steeringSlots, List.foldl] at h ⊢
  rcases max_choice |f 9| (max |f 8| (max |f 7| (max |f 6| 0))) with h9 | h9
  · exact ⟨9, by decide, h9.symm⟩
  · rw [h9] at h ⊢
    rcases max_choice |f 8| (max |f 7| (max |f 6| 0)) with h8 | h8
    · exact ⟨8, by decide, h8.symm⟩
    · rw [h8] at h ⊢
      rcases max_choice |f 7| (max |f 6| 0) with h7 | h7
      · exact ⟨7, by decide, h7.symm⟩
      · rw [h7] at h ⊢
        rcases max_choice |f 6| 0 with h6 | h6
        · exact ⟨6, by decide, h6.symm⟩
        · rw [h6] at h; exact absurd h (lt_irrefl _)

theorem stdmax_fin {F : Type} [LinearOrderedField F] (a b : F) :
    Dbl.stdmax (Dbl.fin a) (Dbl.fin b) = Dbl.fin (max a b) := by
  simp only [Dbl.stdmax, Dbl.lt, decide_eq_true_eq]
  rcases lt_or_le a b with h | h
  · rw [if_pos h, max_eq_right h.le]
  · rw [if_neg (not_lt.mpr h), max_eq_left h]

/-- With a positive steering rate the time `max_t_steering` is the largest `|delta|` over the
rate. -/
theorem steering_time_eq {F : Type} [LinearOrderedField F] (g : HDPCGeometry F)
    (delta : Fin 10 → F) (hr : 0 < g.rover_max_steering_velocity) :
    steering_time g delta = Dbl.fin (max_offset delta / g.rover_max_steering_velocity) := by
  have hr0 : g.rover_max_steering_velocity ≠ 0 := ne_of_gt hr
  have hdiv : ∀ t : F, Dbl.div (Dbl.fin t) (Dbl.fin g.rover_max_steering_velocity)
      = Dbl.fin (t / g.rover_max_steering_velocity) := by
    intro t; simp [Dbl.div, hr0]
  have key : ∀ a b c d : F,
      max (max (max (max 0 (a / g.rover_max_steering_velocity))
        (b / g.rover_max_steering_velocity)) (c / g.rover_max_steering_velocity))
        (d / g.rover_max_steering_velocity)
      = max d (max c (max b (max a 0))) / g.rover_max_steering_velocity := by
    intro a b c d
    rw [← max_div_div_right hr.le, ← max_div_div_right hr.le, ← max_div_div_right hr.le,
      ← max_div_div_right hr.le, zero_div]
    simp only [max_comm, max_left_comm]
  simp only [steering_time, hdiv, stdmax_fin, max_offset, steeringSlots, List.foldl,
    STEERING_FRONT_LEFT, STEERING_FRONT_RIGHT, STEERING_REAR_LEFT, STEERING_REAR_RIGHT, key]

/-- The steering rates after `drive_rover` in mode ACKERMANN or ROTATION. -/
theorem drive_rover_rates {F : Type} [LinearOrderedField F] [FloorRing F] (m : Libm F) (now : Nat)
    (velocity omega : F) (s : HDPCDrive F)
    (hmode : s.control_mode = MODE_ACKERMANN ∨ s.control_mode = MODE_ROTATION)
    (i : Fin 10) (hi : 6 ≤ i.val) :
    (drive_rover m now velocity omega s).commands.velocity i
      = Dbl.div (Dbl.fin (steering_delta (drive_rover m now velocity omega s) i))
          (steering_time s.geom (steering_delta (drive_rover m now velocity omega s))) := by
  obtain ⟨v, w, _, hdr⟩ := drive_rover_synthesizes m now velocity omega s hmode
  have hmot : (synthesize m v w (stamp_commands now s)).motors = s.motors := by
    rw [synthesize_frame]; rfl
  have hfun : steering_delta (synthesize m v w (stamp_commands now s))
      = fun j => (synthesize m v w (stamp_commands now s)).commands.position j
          - (stamp_commands now s).motors.position j := by
    funext j
    simp only [steering_delta, hmot]
    rfl
  rw [hdr, synthesize_rates m v w (stamp_commands now s) i hi, hfun]
  rfl

/-- C15: after `drive_rover` in mode ACKERMANN or ROTATION with a positive
`rover_max_steering_velocity`, when some steering delta is not 0, the time
`T = max |delta_i| / rover_max_steering_velocity` is positive, each steering
slot has the velocity `delta_i / T`, which is at most the maximal steering
velocity in absolute value and equal to it for an actuator of largest
`|delta_i|` (there is one), and every actuator with a nonzero delta has the
travel time `delta_i / velocity_i = T`. -/
theorem steering_synchronization {F : Type} [LinearOrderedField F] [FloorRing F] (m : Libm F) (now : Nat)
    (velocity omega : F) (s t : HDPCDrive F)
    (hmode : s.control_mode = MODE_ACKERMANN ∨ s.control_mode = MODE_ROTATION)
    (hrate : 0 < s.geom.rover_max_steering_velocity)
    (ht : t = drive_rover m now velocity omega s)
    (hdelta : ∃ i : Fin 10, 6 ≤ i.val ∧ steering_delta t i ≠ 0) :
    0 < max_offset (steering_delta t) / s.geom.rover_max_steering_velocity
    ∧ (∀ i : Fin 10, 6 ≤ i.val →
        t.commands.velocity i
          = Dbl.fin (steering_delta t i
              / (max_offset (steering_delta t) / s.geom.rover_max_steering_velocity))
        ∧ |steering_delta t i
              / (max_offset (steering_delta t) / s.geom.rover_max_steering_velocity)|
            ≤ s.geom.rover_max_steering_velocity
        ∧ (|steering_delta t i| = max_offset (steering_delta t) →
            |steering_delta t i
              / (max_offset (steering_delta t) / s.geom.rover_max_steering_velocity)|
            = s.geom.rover_max_steering_velocity)
        ∧ (steering_delta t i ≠ 0 →
            steering_delta t i / (steering_delta t i
              / (max_offset (steering_delta t) / s.geom.rover_max_steering_velocity))
            = max_offset (steering_delta t) / s.geom.rover_max_steering_velocity))
    ∧ (∃ i : Fin 10, 6 ≤ i.val ∧ |steering_delta t i| = max_offset (steering_delta t)) := by
  have hM : 0 < max_offset (steering_delta t) := by
    rw [max_offset_gt _ _ (le_refl 0)]
    obtain ⟨i, hi, hne⟩ := hdelta
    exact ⟨i, hi, abs_pos.mpr hne⟩
  have hT : 0 < max_offset (steering_delta t) / s.geom.rover_max_steering_velocity :=
    div_pos hM hrate
  refine ⟨hT, fun i hi => ⟨?_, ?_, ?_, ?_⟩, max_offset_attained _ hM⟩
  · rw [ht, drive_rover_rates m now velocity omega s hmode i hi, ← ht,
      steering_time_eq _ _ hrate]
    simp [Dbl.div, ne_of_gt hT]
  · rw [abs_div, abs_of_pos hT, div_le_iff₀ hT, mul_div_cancel₀ _ (ne_of_gt hrate)]
    exact le_max_offset _ i hi
  · intro he
    rw [abs_div, abs_of_pos hT, he, div_div_cancel₀ (ne_of_gt hM)]
  · intro hne
    rw [div_div_cancel₀ hne]

theorem vel_and_steering_drive_slot {F : Type} [LinearOrderedField F] (m : Libm F) (v w : F)
    (i_vel : Fin 10) (i_steer : Option (Fin 10)) (x_w y_w : F) (s : HDPCDrive F) (j : Fin 10)
    (hj : i_steer ≠ some j) :
    (vel_and_steering m v w i_vel i_steer x_w y_w s).commands.isActive j
      = if j = i_vel then !decide (|w| < 1e-2 ∧ |v| < 1e-2) else s.commands.isActive j := by
  unfold vel_and_steering
  by_cases hd : |w| < 1e-2 ∧ |v| < 1e-2
  · by_cases hji : j = i_vel <;> simp [hd, hji, Function.update_apply]
  · cases i_steer with
    | none => by_cases hji : j = i_vel <;> simp [hd, hji, Function.update_apply]
    | some i =>
      have hne : ¬ j = i := fun e => hj (by rw [e])
      by_cases hji : j = i_vel <;> simp [hd, hji, hne, Function.update_apply]

/-- The six drive slots after the synthesis. -/
theorem synthesize_drive_slots {F : Type} [LinearOrderedField F] (m : Libm F) (v w : F)
    (s : HDPCDrive F) (i : Fin 10) (hi : i.val < 6) :
    (synthesize m v w s).commands.isActive i = !decide (|w| < 1e-2 ∧ |v| < 1e-2)
    ∧ ((|w| < 1e-2 ∧ |v| < 1e-2) → (synthesize m v w s).commands.velocity i = Dbl.fin 0) := by
  constructor
  · fin_cases i <;> simp at hi <;>
      simp [synthesize, steer_station, set_steering_rate, vel_and_steering_drive_slot,
        STEERING_FRONT_LEFT, STEERING_FRONT_RIGHT, STEERING_REAR_LEFT, STEERING_REAR_RIGHT,
        DRIVE_FRONT_LEFT, DRIVE_FRONT_RIGHT, DRIVE_MIDDLE_LEFT, DRIVE_MIDDLE_RIGHT,
        DRIVE_REAR_LEFT, DRIVE_REAR_RIGHT]
  · intro hd
    fin_cases i <;> simp at hi <;>
      simp [synthesize, steer_station, set_steering_rate,
        vel_and_steering_degenerate _ _ _ _ _ _ _ _ hd.1 hd.2, Function.update_apply,
        STEERING_FRONT_LEFT, STEERING_FRONT_RIGHT, STEERING_REAR_LEFT, STEERING_REAR_RIGHT,
        DRIVE_FRONT_LEFT, DRIVE_FRONT_RIGHT, DRIVE_MIDDLE_LEFT, DRIVE_MIDDLE_RIGHT,
        DRIVE_REAR_LEFT, DRIVE_REAR_RIGHT]

/-- A clamped command with `|v| < 1e-2` and `|omega| < 1e-2` passes the `switch` of both driving
modes unchanged. -/
theorem drive_rover_small {F : Type} [LinearOrderedField F] [FloorRing F] (m : Libm F) (now : Nat)
    (velocity omega : F) (s : HDPCDrive F)
    (hmode : s.control_mode = MODE_ACKERMANN ∨ s.control_mode = MODE_ROTATION)
    (hv : |clamp velocity s.max_linear_speed_m_per_s| < 1e-2)
    (hw : |clamp omega s.max_rotation_speed_rad_per_s| < 1e-2) :
    drive_rover m now velocity omega s
      = synthesize m (clamp velocity s.max_linear_speed_m_per_s)
          (clamp omega s.max_rotation_speed_rad_per_s) (stamp_commands now s) := by
  rw [drive_rover_eq]
  rcases hmode with h | h
  · rw [h, (clip_cmd_small _ _ _).1 (not_lt.mpr hv.le)]
  · rw [h, (clip_cmd_small _ _ _).2 (not_lt.mpr hw.le)]

/-- C14 (amended): in mode ACKERMANN or ROTATION, when the clamped speed and the
clamped rate are both below 1e-2 in absolute value, which is the case for
every command with `|v| < 1e-2` and `|omega| < 1e-2` when the two speed
limits are not negative, `drive_rover` leaves each of the six drive slots
inactive with velocity 0. -/
theorem degenerate_command {F : Type} [LinearOrderedField F] [FloorRing F] (m : Libm F) (now : Nat)
    (velocity omega : F) (s : HDPCDrive F)
    (hmode : s.control_mode = MODE_ACKERMANN ∨ s.control_mode = MODE_ROTATION) :
    (|clamp velocity s.max_linear_speed_m_per_s| < 1e-2 →
      |clamp omega s.max_rotation_speed_rad_per_s| < 1e-2 →
      ∀ i : Fin 10, i.val < 6 →
        (drive_rover m now velocity omega s).commands.isActive i = false
        ∧ (drive_rover m now velocity omega s).commands.velocity i = Dbl.fin 0)
    ∧ (0 ≤ s.max_linear_speed_m_per_s → 0 ≤ s.max_rotation_speed_rad_per_s →
      |velocity| < 1e-2 → |omega| < 1e-2 →
      ∀ i : Fin 10, i.val < 6 →
        (drive_rover m now velocity omega s).commands.isActive i = false
        ∧ (drive_rover m now velocity omega s).commands.velocity i = Dbl.fin 0) := by
  have core : |clamp velocity s.max_linear_speed_m_per_s| < 1e-2 →
      |clamp omega s.max_rotation_speed_rad_per_s| < 1e-2 →
      ∀ i : Fin 10, i.val < 6 →
        (drive_rover m now velocity omega s).commands.isActive i = false
        ∧ (drive_rover m now velocity omega s).commands.velocity i = Dbl.fin 0 := by
    intro hv hw i hi
    rw [drive_rover_small m now velocity omega s hmode hv hw]
    obtain ⟨h1, h2⟩ := synthesize_drive_slots m (clamp velocity s.max_linear_speed_m_per_s)
      (clamp omega s.max_rotation_speed_rad_per_s) (stamp_commands now s) i hi
    refine ⟨?_, h2 ⟨hw, hv⟩⟩
    rw [h1]
    simp [hv, hw]
  refine ⟨core, fun hl hr hv hw => ?_⟩
  exact core (clamp_small _ _ hl hv) (clamp_small _ _ hr hw)

/-- C14, instance of the amended statement: the twist `(0, 0)` in mode
ACKERMANN. -/
theorem degenerate_command_witness :
    (ackermannState ℝ).control_mode = MODE_ACKERMANN
    ∧ |(0 : ℝ)| < 1e-2
    ∧ (drive_rover realLibm 4 0 0 (ackermannState ℝ)).commands.isActive DRIVE_FRONT_LEFT = false
    ∧ (drive_rover realLibm 4 0 0 (ackermannState ℝ)).commands.velocity DRIVE_FRONT_LEFT
        = Dbl.fin 0 :=
  have h0 : |(0 : ℝ)| < 1e-2 := by norm_num
  ⟨rfl, h0, (degenerate_command realLibm 4 0 0 (ackermannState ℝ) (Or.inl rfl)).2
    (by norm_num [ackermannState, expiredDirectDrive])
    (by norm_num [ackermannState, expiredDirectDrive]) h0 h0 DRIVE_FRONT_LEFT (by decide)⟩

/-- C14, counterexample: with the limit of the linear speed at -1 the twist
`(0, 0)` is clamped to the speed 1, and `drive_rover` in mode ACKERMANN
leaves the front-left drive slot active. -/
theorem zero_twist_negative_limit :
    (negativeLimit ℝ).control_mode = MODE_ACKERMANN
    ∧ (negativeLimit ℝ).max_linear_speed_m_per_s = -1
    ∧ (drive_rover realLibm 4 0 0 (negativeLimit ℝ)).commands.isActive DRIVE_FRONT_LEFT
        = true := by
  refine ⟨rfl, rfl, ?_⟩
  have hc1 : clamp (0 : ℝ) (negativeLimit ℝ).max_linear_speed_m_per_s = 1 := by
    have hL : (negativeLimit ℝ).max_linear_speed_m_per_s = -1 := rfl
    rw [hL]
    unfold clamp
    dsimp only
    rw [neg_neg, to_float32_neg, to_float32_one]
    norm_num
  have hc2 : clamp (0 : ℝ) (negativeLimit ℝ).max_rotation_speed_rad_per_s = 0 := by
    norm_num [clamp, negativeLimit, ackermannState, expiredDirectDrive]
  have hm : (negativeLimit ℝ).control_mode = MODE_ACKERMANN := rfl
  rw [drive_rover_eq, hc1, hc2, hm, clip_cmd_ackermann _ _ _ (by norm_num)]
  simp only [ne_eq, not_true_eq_false, false_and, if_false]
  rw [(synthesize_drive_slots realLibm 1 0 _ DRIVE_FRONT_LEFT (by decide)).1]
  norm_num

/-- When the four steering deltas are 0, `max_t_steering` is 0, whatever the steering rate. -/
theorem steering_time_zero {F : Type} [LinearOrderedField F] (g : HDPCGeometry F)
    (delta : Fin 10 → F) (h : ∀ i : Fin 10, 6 ≤ i.val → delta i = 0) :
    steering_time g delta = Dbl.fin 0 := by
  have h6 := h STEERING_FRONT_LEFT (by decide)
  have h7 := h STEERING_FRONT_RIGHT (by decide)
  have h8 := h STEERING_REAR_LEFT (by decide)
  have h9 := h STEERING_REAR_RIGHT (by decide)
  simp only [steering_time, h6, h7, h8, h9, abs_zero]
  by_cases hr : g.rover_max_steering_velocity = 0
  · simp [Dbl.div, Dbl.stdmax, Dbl.lt, hr]
  · simp [Dbl.div, Dbl.stdmax, Dbl.lt, hr]

/-- When the four steering deltas are 0 after `drive_rover`, the four steering rates are the
quotient `0 / 0`. -/
theorem drive_rover_rates_nan {F : Type} [LinearOrderedField F] [FloorRing F] (m : Libm F) (now : Nat)
    (velocity omega : F) (s : HDPCDrive F)
    (hmode : s.control_mode = MODE_ACKERMANN ∨ s.control_mode = MODE_ROTATION)
    (h : ∀ i : Fin 10, 6 ≤ i.val → steering_delta (drive_rover m now velocity omega s) i = 0)
    (i : Fin 10) (hi : 6 ≤ i.val) :
    (drive_rover m now velocity omega s).commands.velocity i = Dbl.nan := by
  rw [drive_rover_rates m now velocity omega s hmode i hi, steering_time_zero _ _ h, h i hi]
  simp [Dbl.div]

/-- Driving straight ahead, every station is steered to the angle 0. -/
theorem station_angle_straight (g : HDPCGeometry ℝ) (v : ℝ) (hv : v ≠ 0) (i : Fin 10) :
    station_angle realLibm g v 0 i = 0 := by
  have key : ∀ x y : ℝ, folded_angle realLibm v 0 x y = 0 := by
    intro x y
    have hc : v - y * 0 ≠ 0 := by simpa using hv
    have h := fold_arg_eq_arctan (x * 0) (v - y * 0) hc
    simp only [mul_zero, zero_div, Real.arctan_zero] at h
    simpa [folded_angle] using h
  simp only [station_angle, key, ite_self]

/-- The state of the run `straightInputs` before the twist. -/
theorem run_to_ackermann :
    handle realLibm (Input.mode_request (some SM_DRIVE) true ⟨MODE_ACKERMANN⟩ ⟨false, 0⟩)
      (handle realLibm (Input.tick 1) (startState ℝ))
      = ⟨⟨1, 1, 1, 1/4, 1/10, 1⟩, 1, 9/10, MODE_ACKERMANN, 100, ⟨fun _ => 0⟩,
      ⟨0, fun _ => false, fun _ => Dbl.fin 0, fun _ => 0⟩,
      [SMEvent.EVENT_READ_STATE, SMEvent.EVENT_START, SMEvent.EVENT_STOP,
        SMEvent.EVENT_READ_STATE]⟩ := by
  have h1 : startState ℝ = ⟨⟨1, 1, 1, 1/4, 1/10, 1⟩, 1, 9/10, MODE_INIT, 0, ⟨fun _ => 0⟩,
      ⟨0, fun _ => false, fun _ => Dbl.fin 0, fun _ => 0⟩,
      [SMEvent.EVENT_READ_STATE, SMEvent.EVENT_START]⟩ := by
    simp [startState, wait_for_services, wait_loop, construct, SM_STOP, reset_commands_eq]
  have h2 : handle realLibm (Input.tick 1) (startState ℝ)
      = ⟨⟨1, 1, 1, 1/4, 1/10, 1⟩, 1, 9/10, MODE_STOPPED, 0, ⟨fun _ => 0⟩,
      ⟨0, fun _ => false, fun _ => Dbl.fin 0, fun _ => 0⟩,
      [SMEvent.EVENT_READ_STATE, SMEvent.EVENT_START, SMEvent.EVENT_STOP]⟩ := by
    rw [h1]
    simp [handle, main_loop_step, stop_rover, max_offset, steeringSlots, MODE_INIT, MODE_STOPPED]
    norm_num
  rw [h2]
  simp [handle, set_mode, mode_transition, SM_DRIVE, SM_INIT, SM_STOP, MODE_STOPPED,
    MODE_ACKERMANN, MODE_INIT_ROTATION, MODE_ROTATION, WATCHDOG_INIT]

/-- C16, the code at the failing input: the run `straightInputs` from the
state of the constructor is a run of the controller; at its end the four
steering deltas are 0 and the four steering velocities are the result of
`0 / 0`, whereas every velocity of the snapshot was 0 before the twist. -/
theorem straight_drive_nan_rates :
    Reachable realLibm (run realLibm (straightInputs ℝ) (startState ℝ))
    ∧ (∀ i : Fin 10, 6 ≤ i.val →
        steering_delta (run realLibm (straightInputs ℝ) (startState ℝ)) i = 0)
    ∧ (∀ i : Fin 10, 6 ≤ i.val →
        (run realLibm (straightInputs ℝ) (startState ℝ)).commands.velocity i = Dbl.nan)
    ∧ (∀ i : Fin 10,
        (handle realLibm (Input.mode_request (some SM_DRIVE) true ⟨MODE_ACKERMANN⟩ ⟨false, 0⟩)
          (handle realLibm (Input.tick 1) (startState ℝ))).commands.velocity i = Dbl.fin 0) := by
  have hrun : run realLibm (straightInputs ℝ) (startState ℝ)
      = drive_rover realLibm 3 (1 / 2) 0
        ⟨⟨1, 1, 1, 1/4, 1/10, 1⟩, 1, 9/10, MODE_ACKERMANN, 100, ⟨fun _ => 0⟩,
          ⟨0, fun _ => false, fun _ => Dbl.fin 0, fun _ => 0⟩,
          [SMEvent.EVENT_READ_STATE, SMEvent.EVENT_START, SMEvent.EVENT_STOP,
            SMEvent.EVENT_READ_STATE]⟩ := by
    simp only [run, straightInputs, List.foldl]
    rw [run_to_ackermann]
    simp only [handle, ackermannCallback]
    rw [if_neg (by decide), to_float32_half, to_float32_zero]
    simp [WATCHDOG_INIT]
  have hsyn : drive_rover realLibm 3 (1 / 2) 0
        ⟨⟨1, 1, 1, 1/4, 1/10, 1⟩, 1, 9/10, MODE_ACKERMANN, 100, ⟨fun _ => 0⟩,
          ⟨0, fun _ => false, fun _ => Dbl.fin 0, fun _ => 0⟩,
          [SMEvent.EVENT_READ_STATE, SMEvent.EVENT_START, SMEvent.EVENT_STOP,
            SMEvent.EVENT_READ_STATE]⟩
      = synthesize realLibm (1 / 2) 0 (stamp_commands 3
        ⟨⟨1, 1, 1, 1/4, 1/10, 1⟩, 1, 9/10, MODE_ACKERMANN, 100, ⟨fun _ => 0⟩,
          ⟨0, fun _ => false, fun _ => Dbl.fin 0, fun _ => 0⟩,
          [SMEvent.EVENT_READ_STATE, SMEvent.EVENT_START, SMEvent.EVENT_STOP,
            SMEvent.EVENT_READ_STATE]⟩) := by
    have hc1 : clamp (1 / 2 : ℝ) (9 / 10) = 1 / 2 := by norm_num [clamp]
    have hc2 : clamp (0 : ℝ) 1 = 0 := by norm_num [clamp]
    rw [drive_rover_eq]
    simp only [hc1, hc2]
    rw [clip_cmd_ackermann _ _ _ (by norm_num [abs_div])]
    simp only [ne_eq, not_true_eq_false, false_and, if_false]
  have hdelta : ∀ i : Fin 10, 6 ≤ i.val →
      steering_delta (run realLibm (straightInputs ℝ) (startState ℝ)) i = 0 := by
    intro i hi
    have hnd : ¬ (|(0 : ℝ)| < 1e-2 ∧ |(1 / 2 : ℝ)| < 1e-2) := by norm_num [abs_div]
    rw [hrun, hsyn]
    simp only [steering_delta]
    rw [synthesize_positions realLibm (1 / 2) 0 _ i hi, if_neg hnd,
      station_angle_straight _ _ (by norm_num), synthesize_frame]
    simp [stamp_commands]
  refine ⟨run_reachable _ _ _ (startState_reachable _), hdelta, fun i hi => ?_, fun i => ?_⟩
  · rw [hrun] at hdelta ⊢
    exact drive_rover_rates_nan realLibm 3 (1 / 2) 0 _ (Or.inl rfl) hdelta i hi
  · rw [run_to_ackermann]

theorem offCentre_delta :
    steering_delta (drive_rover realLibm 4 0 0 (ackermannOffCentre ℝ)) STEERING_FRONT_LEFT
      = -1 := by
  have h0 : |(0 : ℝ)| < 1e-2 := by norm_num
  have hc1 : clamp (0 : ℝ) (ackermannOffCentre ℝ).max_linear_speed_m_per_s = 0 := by
    norm_num [clamp, ackermannOffCentre, ackermannState, expiredDirectDrive]
  have hc2 : clamp (0 : ℝ) (ackermannOffCentre ℝ).max_rotation_speed_rad_per_s = 0 := by
    norm_num [clamp, ackermannOffCentre, ackermannState, expiredDirectDrive]
  rw [drive_rover_small realLibm 4 0 0 (ackermannOffCentre ℝ) (Or.inl rfl)
    (by rw [hc1]; exact h0) (by rw [hc2]; exact h0), hc1, hc2]
  simp only [steering_delta]
  rw [synthesize_positions realLibm 0 0 _ STEERING_FRONT_LEFT (by decide), if_pos ⟨h0, h0⟩,
    synthesize_frame]
  simp [stamp_commands, ackermannOffCentre, ackermannState, expiredDirectDrive]

/-- C15, instance: the twist `(0, 0)` in mode ACKERMANN with the steering
feedback at 1 rad. -/
theorem steering_synchronization_witness :
    0 < (ackermannOffCentre ℝ).geom.rover_max_steering_velocity
    ∧ 0 < max_offset (steering_delta (drive_rover realLibm 4 0 0 (ackermannOffCentre ℝ)))
        / (ackermannOffCentre ℝ).geom.rover_max_steering_velocity :=
  have hr : 0 < (ackermannOffCentre ℝ).geom.rover_max_steering_velocity := by
    norm_num [ackermannOffCentre, ackermannState, expiredDirectDrive]
  ⟨hr, (steering_synchronization realLibm 4 0 0 (ackermannOffCentre ℝ) _ (Or.inl rfl) hr rfl
    ⟨STEERING_FRONT_LEFT, by decide, by rw [offCentre_delta]; norm_num⟩).1⟩

/-! ## The forbidden zones of the two driving modes -/

/-- C17 (amended): in mode ROTATION with `rover_width > rover_wheel_width` and
a clamped rate `w` with `|w| > 1e-2`, writing
`h = (rover_width - rover_wheel_width)/2` and `r` for the `float` nearest to
`v / w`, with `v` the clamped speed: for `r >= h` the synthesis runs on the
`float` nearest to `w * h` and on `w`, for `r <= -h` on the `float` nearest
to `-w * h` and on `w`, otherwise on `(v, w)`; in every case the rate is `w`,
the speed used does not have the sign opposite to that of `v`, and its
absolute value is the `float` nearest to `|w| * h` unless it is `v` itself
with `|r| < h`. -/
theorem rotation_clipping {F : Type} [LinearOrderedField F] [FloorRing F] (m : Libm F)
    (now : Nat) (velocity omega : F) (s : HDPCDrive F) (v w h : F)
    (hmode : s.control_mode = MODE_ROTATION)
    (hwidth : s.geom.rover_wheel_width < s.geom.rover_width)
    (hv : v = clamp velocity s.max_linear_speed_m_per_s)
    (hw : w = clamp omega s.max_rotation_speed_rad_per_s)
    (hh : h = (s.geom.rover_width - s.geom.rover_wheel_width) / 2)
    (hbig : 1e-2 < |w|) :
    (h ≤ to_float32 (v / w) →
        drive_rover m now velocity omega s
          = synthesize m (to_float32 (w * h)) w (stamp_commands now s))
    ∧ (to_float32 (v / w) ≤ -h →
        drive_rover m now velocity omega s
          = synthesize m (to_float32 (-w * h)) w (stamp_commands now s))
    ∧ (-h < to_float32 (v / w) → to_float32 (v / w) < h →
        drive_rover m now velocity omega s = synthesize m v w (stamp_commands now s))
    ∧ ∃ v1 : F,
        drive_rover m now velocity omega s = synthesize m v1 w (stamp_commands now s)
        ∧ (|v1| = to_float32 (|w| * h) ∨ (v1 = v ∧ |to_float32 (v / w)| < h))
        ∧ (0 ≤ v → 0 ≤ v1) ∧ (v ≤ 0 → v1 ≤ 0) := by
  have hw0 : w ≠ 0 := by
    intro e
    rw [e, abs_zero] at hbig
    norm_num at hbig
  have hpos : 0 < h := by rw [hh]; linarith
  have hdr : drive_rover m now velocity omega s
      = synthesize m
          (if to_float32 (v / w) < 0
              ∧ to_float32 (v / w) ≤ -(s.geom.rover_width - s.geom.rover_wheel_width) / 2 then
            to_float32 (-w * (s.geom.rover_width - s.geom.rover_wheel_width) / 2)
          else if 0 ≤ to_float32 (v / w)
              ∧ (s.geom.rover_width - s.geom.rover_wheel_width) / 2 ≤ to_float32 (v / w) then
            to_float32 (w * (s.geom.rover_width - s.geom.rover_wheel_width) / 2)
          else v) w (stamp_commands now s) := by
    rw [drive_rover_eq, hmode, ← hv, ← hw, clip_cmd_rotation _ _ _ hbig]
  have e1 : -(s.geom.rover_width - s.geom.rover_wheel_width) / 2 = -h := by rw [hh]; ring
  have e2 : -w * (s.geom.rover_width - s.geom.rover_wheel_width) / 2 = -w * h := by
    rw [hh]; ring
  have e3 : w * (s.geom.rover_width - s.geom.rover_wheel_width) / 2 = w * h := by
    rw [hh]; ring
  rw [e1, e2, e3, ← hh] at hdr
  have habs : |to_float32 (w * h)| = to_float32 (|w| * h) := by
    rw [abs_to_float32, abs_mul, abs_of_pos hpos]
  have habsn : |to_float32 (-w * h)| = to_float32 (|w| * h) := by
    rw [abs_to_float32, abs_mul, abs_neg, abs_of_pos hpos]
  refine ⟨fun hr => ?_, fun hr => ?_, fun h1 h2 => ?_, ?_⟩
  · rw [hdr, if_neg (fun c => absurd (lt_of_lt_of_le hpos hr) (not_lt.mpr c.1.le)),
      if_pos ⟨le_trans hpos.le hr, hr⟩]
  · rw [hdr, if_pos ⟨lt_of_le_of_lt hr (neg_lt_zero.mpr hpos), hr⟩]
  · rw [hdr, if_neg (fun c => absurd c.2 (not_le.mpr h1)),
      if_neg (fun c => absurd c.2 (not_le.mpr h2))]
  · by_cases c1 : to_float32 (v / w) < 0 ∧ to_float32 (v / w) ≤ -h
    · have hq : v / w < 0 := neg_of_to_float32_neg c1.1
      refine ⟨to_float32 (-w * h), by rw [hdr, if_pos c1], Or.inl habsn, ?_, ?_⟩
      · intro hvp
        have hwn : w < 0 := by
          rcases div_neg_iff.mp hq with ⟨_, b⟩ | ⟨a, _⟩
          · exact b
          · exact absurd hvp (not_le.mpr a)
        exact to_float32_nonneg (mul_pos (neg_pos.mpr hwn) hpos).le
      · intro hvn
        have hwp : 0 < w := by
          rcases div_neg_iff.mp hq with ⟨a, _⟩ | ⟨_, b⟩
          · exact absurd hvn (not_le.mpr a)
          · exact b
        exact to_float32_nonpos (mul_neg_of_neg_of_pos (neg_neg_of_pos hwp) hpos).le
    · by_cases c2 : 0 ≤ to_float32 (v / w) ∧ h ≤ to_float32 (v / w)
      · have hq : 0 < v / w := pos_of_to_float32_pos (lt_of_lt_of_le hpos c2.2)
        refine ⟨to_float32 (w * h), by rw [hdr, if_neg c1, if_pos c2], Or.inl habs, ?_, ?_⟩
        · intro hvp
          have hwp : 0 < w := by
            rcases div_pos_iff.mp hq with ⟨_, b⟩ | ⟨a, _⟩
            · exact b
            · exact absurd hvp (not_le.mpr a)
          exact to_float32_nonneg (mul_pos hwp hpos).le
        · intro hvn
          have hwn : w < 0 := by
            rcases div_pos_iff.mp hq with ⟨a, _⟩ | ⟨_, b⟩
            · exact absurd hvn (not_le.mpr a)
            · exact b
          exact to_float32_nonpos (mul_neg_of_neg_of_pos hwn hpos).le
      · refine ⟨v, by rw [hdr, if_neg c1, if_neg c2], Or.inr ⟨rfl, ?_⟩, fun x => x, fun x => x⟩
        rw [abs_lt]
        constructor
        · by_contra hc
          have hle : to_float32 (v / w) ≤ -h := not_lt.mp hc
          exact c1 ⟨lt_of_le_of_lt hle (neg_lt_zero.mpr hpos), hle⟩
        · by_contra hc
          have hle : h ≤ to_float32 (v / w) := not_lt.mp hc
          exact c2 ⟨le_trans hpos.le hle, hle⟩

/-- C17, instance of the amended statement: the command `(1/2, 1)`, clamped to
itself, with `h = 3/8`. -/
theorem rotation_clipping_witness :
    drive_rover realLibm 4 (1 / 2) 1 ({ ackermannState ℝ with control_mode := MODE_ROTATION })
      = synthesize realLibm (to_float32 (1 * (3 / 8))) 1
          (stamp_commands 4 ({ ackermannState ℝ with control_mode := MODE_ROTATION })) :=
  (rotation_clipping realLibm 4 (1 / 2) 1 ({ ackermannState ℝ with control_mode := MODE_ROTATION })
    (1 / 2) 1 (3 / 8) rfl
    (by norm_num [ackermannState, expiredDirectDrive])
    (by norm_num [clamp, ackermannState, expiredDirectDrive])
    (by norm_num [clamp, ackermannState, expiredDirectDrive])
    (by norm_num [ackermannState, expiredDirectDrive])
    (by norm_num)).1 (by rw [div_one, to_float32_half]; norm_num)

/-- C17, counterexample: in mode ROTATION with `rover_width = 1` and
`rover_wheel_width = 1/5`, hence `h = 2/5`, the command `(1/2, 1)` is clamped
to itself and has `r = 1/2 >= h`; the synthesis runs on the speed
`13421773/33554432`, the `float` nearest to `omega * h = 2/5`, which is
neither `omega * h` nor within `|omega| * h`. -/
theorem rotation_clipping_rounded :
    (narrowWheels ℝ).control_mode = MODE_ROTATION
    ∧ (0 : ℝ) < (narrowWheels ℝ).geom.rover_wheel_width
    ∧ (narrowWheels ℝ).geom.rover_wheel_width < (narrowWheels ℝ).geom.rover_width
    ∧ clamp (1 / 2 : ℝ) (narrowWheels ℝ).max_linear_speed_m_per_s = 1 / 2
    ∧ clamp (1 : ℝ) (narrowWheels ℝ).max_rotation_speed_rad_per_s = 1
    ∧ (1e-2 : ℝ) < |1|
    ∧ ((narrowWheels ℝ).geom.rover_width - (narrowWheels ℝ).geom.rover_wheel_width) / 2
        ≤ (1 / 2 : ℝ) / 1
    ∧ clip_cmd (narrowWheels ℝ).geom (narrowWheels ℝ).control_mode (1 / 2) 1
        = some (13421773 / 33554432, 1)
    ∧ drive_rover realLibm 4 (1 / 2) 1 (narrowWheels ℝ)
        = synthesize realLibm (13421773 / 33554432) 1 (stamp_commands 4 (narrowWheels ℝ))
    ∧ (13421773 / 33554432 : ℝ)
        ≠ 1 * (((narrowWheels ℝ).geom.rover_width
            - (narrowWheels ℝ).geom.rover_wheel_width) / 2)
    ∧ |(1 : ℝ)| * (((narrowWheels ℝ).geom.rover_width
          - (narrowWheels ℝ).geom.rover_wheel_width) / 2)
        < |(13421773 / 33554432 : ℝ)| := by
  have hm : (narrowWheels ℝ).control_mode = MODE_ROTATION := rfl
  have hh : (narrowWheels ℝ).geom.rover_width - (narrowWheels ℝ).geom.rover_wheel_width
      = 4 / 5 := by
    norm_num [narrowWheels, ackermannState, expiredDirectDrive]
  have hc1 : clamp (1 / 2 : ℝ) (narrowWheels ℝ).max_linear_speed_m_per_s = 1 / 2 := by
    norm_num [clamp, narrowWheels, ackermannState, expiredDirectDrive]
  have hc2 : clamp (1 : ℝ) (narrowWheels ℝ).max_rotation_speed_rad_per_s = 1 := by
    norm_num [clamp, narrowWheels, ackermannState, expiredDirectDrive]
  have hclip : clip_cmd (narrowWheels ℝ).geom (narrowWheels ℝ).control_mode (1 / 2) 1
      = some ((13421773 / 33554432 : ℝ), (1 : ℝ)) := by
    rw [hm, clip_cmd_rotation _ _ _ (by norm_num), hh, div_one, to_float32_half]
    have e : (1 : ℝ) * (4 / 5) / 2 = 2 / 5 := by norm_num
    rw [e, to_float32_two_fifths]
    norm_num
  refine ⟨hm, by norm_num [narrowWheels, ackermannState, expiredDirectDrive],
    by norm_num [narrowWheels, ackermannState, expiredDirectDrive], hc1, hc2, by norm_num,
    by rw [hh]; norm_num, hclip, ?_, by rw [hh]; norm_num, by rw [hh]; norm_num [abs_div]⟩
  rw [drive_rover_eq, hc1, hc2, hclip]

/-- The `switch` of mode ROTATION can replace a positive speed by 0: with
`rover_width = 2 ^ (-149)` and `rover_wheel_width = 2 ^ (-150)`, hence
`h = 2 ^ (-151)`, the command `(1/2, 1)` has `r = 1/2 >= h`, and the `float`
nearest to `omega * h` is 0. -/
theorem clipped_speed_underflow :
    (tinyRover ℝ).control_mode = MODE_ROTATION
    ∧ (0 : ℝ) < (tinyRover ℝ).geom.rover_wheel_width
    ∧ (tinyRover ℝ).geom.rover_wheel_width < (tinyRover ℝ).geom.rover_width
    ∧ clamp (1 / 2 : ℝ) (tinyRover ℝ).max_linear_speed_m_per_s = 1 / 2
    ∧ clamp (1 : ℝ) (tinyRover ℝ).max_rotation_speed_rad_per_s = 1
    ∧ clip_cmd (tinyRover ℝ).geom (tinyRover ℝ).control_mode (1 / 2) 1 = some (0, 1)
    ∧ drive_rover realLibm 4 (1 / 2) 1 (tinyRover ℝ)
        = synthesize realLibm 0 1 (stamp_commands 4 (tinyRover ℝ)) := by
  have hm : (tinyRover ℝ).control_mode = MODE_ROTATION := rfl
  have hW : (tinyRover ℝ).geom.rover_width = (2 : ℝ) ^ (-149 : ℤ) := rfl
  have hw : (tinyRover ℝ).geom.rover_wheel_width = (2 : ℝ) ^ (-150 : ℤ) := rfl
  have hc1 : clamp (1 / 2 : ℝ) (tinyRover ℝ).max_linear_speed_m_per_s = 1 / 2 := by
    norm_num [clamp, tinyRover, ackermannState, expiredDirectDrive]
  have hc2 : clamp (1 : ℝ) (tinyRover ℝ).max_rotation_speed_rad_per_s = 1 := by
    norm_num [clamp, tinyRover, ackermannState, expiredDirectDrive]
  have hh : ((2 : ℝ) ^ (-149 : ℤ) - (2 : ℝ) ^ (-150 : ℤ)) / 2 = (2 : ℝ) ^ (-151 : ℤ) := by
    norm_num
  have hfc : to_float32 ((2 : ℝ) ^ (-151 : ℤ)) = 0 := by
    have := to_float32_eval_subnormal ((2 : ℝ) ^ (-151 : ℤ)) 0 (by norm_num)
      (by norm_num [abs_of_pos]) (by norm_num) (by norm_num)
    rw [this]; norm_num
  have hclip : clip_cmd (tinyRover ℝ).geom (tinyRover ℝ).control_mode (1 / 2) 1
      = some ((0 : ℝ), (1 : ℝ)) := by
    rw [hm, clip_cmd_rotation _ _ _ (by norm_num), hW, hw, div_one, to_float32_half, one_mul,
      hh, hfc]
    have h1 : ¬ ((1 / 2 : ℝ) < 0 ∧ (1 / 2 : ℝ)
        ≤ -((2 : ℝ) ^ (-149 : ℤ) - (2 : ℝ) ^ (-150 : ℤ)) / 2) := by
      rintro ⟨a, _⟩
      norm_num at a
    have h2 : (0 : ℝ) ≤ 1 / 2 ∧ (2 : ℝ) ^ (-151 : ℤ) ≤ 1 / 2 := by
      constructor <;> norm_num
    rw [if_neg h1, if_pos h2]
  refine ⟨hm, by rw [hw]; positivity, by rw [hW, hw]; norm_num, hc1, hc2, hclip, ?_⟩
  rw [drive_rover_eq, hc1, hc2, hclip]

/-- C18 (amended): in mode ACKERMANN, for a clamped command `(v, w)` with
`|v| > 1e-2`, with `B = rover_width + rover_wheel_width` and `r` the `float`
nearest to `v / w`: when `w` is not 0 and `r` lies in `[0, B/2]`, the
synthesis runs on `v` and the `float` nearest to `2 v / B`; when `r` lies in
`[-B/2, 0)`, on `v` and the `float` nearest to `-2 v / B`; so the rate used
is one of these two values, or it is `w` unchanged with `w = 0` or `r`
outside `[-B/2, B/2]`.  For `|v| <= 1e-2` the synthesis runs on `(v, w)` as it
is. -/
theorem ackermann_forbidden_zone {F : Type} [LinearOrderedField F] [FloorRing F] (m : Libm F)
    (now : Nat) (velocity omega : F) (s : HDPCDrive F) (v w B : F)
    (hmode : s.control_mode = MODE_ACKERMANN)
    (hv : v = clamp velocity s.max_linear_speed_m_per_s)
    (hw : w = clamp omega s.max_rotation_speed_rad_per_s)
    (hB : B = s.geom.rover_width + s.geom.rover_wheel_width) :
    (1e-2 < |v| → w ≠ 0 → 0 ≤ to_float32 (v / w) → to_float32 (v / w) ≤ B / 2 →
      drive_rover m now velocity omega s
        = synthesize m v (to_float32 (2 * v / B)) (stamp_commands now s))
    ∧ (1e-2 < |v| → w ≠ 0 → to_float32 (v / w) < 0 → -B / 2 ≤ to_float32 (v / w) →
      drive_rover m now velocity omega s
        = synthesize m v (to_float32 (-2 * v / B)) (stamp_commands now s))
    ∧ (1e-2 < |v| →
      ∃ w1 : F, drive_rover m now velocity omega s = synthesize m v w1 (stamp_commands now s)
        ∧ (w1 = to_float32 (2 * v / B) ∨ w1 = to_float32 (-2 * v / B)
          ∨ (w1 = w ∧ (w = 0 ∨ B / 2 < to_float32 (v / w) ∨ to_float32 (v / w) < -B / 2))))
    ∧ (|v| ≤ 1e-2 →
      drive_rover m now velocity omega s = synthesize m v w (stamp_commands now s)) := by
  have hsmall : |v| ≤ 1e-2 →
      drive_rover m now velocity omega s = synthesize m v w (stamp_commands now s) := by
    intro h
    rw [drive_rover_eq, hmode, ← hv, ← hw, (clip_cmd_small _ _ _).1 (not_lt.mpr h)]
  have hbig : 1e-2 < |v| → drive_rover m now velocity omega s
      = synthesize m v
          (if w ≠ 0 ∧ 0 ≤ to_float32 (v / w) ∧ to_float32 (v / w) ≤ B / 2 then
            to_float32 (2 * v / B)
           else if w ≠ 0 ∧ to_float32 (v / w) < 0 ∧ -B / 2 ≤ to_float32 (v / w) then
            to_float32 (-2 * v / B)
           else w)
          (stamp_commands now s) := by
    intro h
    rw [drive_rover_eq, hmode, ← hv, ← hw, clip_cmd_ackermann _ _ _ h, ← hB]
  refine ⟨fun h hw0 h0 h1 => ?_, fun h hw0 h0 h1 => ?_, fun h => ?_, hsmall⟩
  · rw [hbig h, if_pos ⟨hw0, h0, h1⟩]
  · rw [hbig h, if_neg (fun c => absurd c.2.1 (not_le.mpr h0)), if_pos ⟨hw0, h0, h1⟩]
  · by_cases c1 : w ≠ 0 ∧ 0 ≤ to_float32 (v / w) ∧ to_float32 (v / w) ≤ B / 2
    · exact ⟨_, by rw [hbig h, if_pos c1], Or.inl rfl⟩
    · by_cases c2 : w ≠ 0 ∧ to_float32 (v / w) < 0 ∧ -B / 2 ≤ to_float32 (v / w)
      · exact ⟨_, by rw [hbig h, if_neg c1, if_pos c2], Or.inr (Or.inl rfl)⟩
      · refine ⟨w, by rw [hbig h, if_neg c1, if_neg c2], Or.inr (Or.inr ⟨rfl, ?_⟩)⟩
        by_cases hw0 : w = 0
        · exact Or.inl hw0
        · right
          rcases le_or_lt 0 (to_float32 (v / w)) with hr | hr
          · left
            by_contra hc
            exact c1 ⟨hw0, hr, not_lt.mp hc⟩
          · right
            by_contra hc
            exact c2 ⟨hw0, hr, by linarith [not_lt.mp hc]⟩

/-- C18, instance of the amended statement: the command `(1/2, 1)` with
`B = 5/4`. -/
theorem ackermann_forbidden_zone_witness :
    drive_rover realLibm 4 (1 / 2) 1 (ackermannState ℝ)
        = synthesize realLibm (1 / 2) (to_float32 (2 * (1 / 2) / (5 / 4)))
            (stamp_commands 4 (ackermannState ℝ)) :=
  (ackermann_forbidden_zone realLibm 4 (1 / 2) 1 (ackermannState ℝ) (1 / 2) 1 (5 / 4) rfl
    (by norm_num [clamp, ackermannState, expiredDirectDrive])
    (by norm_num [clamp, ackermannState, expiredDirectDrive])
    (by norm_num [ackermannState, expiredDirectDrive])).1
    (by norm_num [abs_div]) (by norm_num) (by rw [div_one, to_float32_half]; norm_num)
    (by rw [div_one, to_float32_half]; norm_num)

/-- The turning radius of the clipped command `(1/2, 1)` with `B = 5/4`: the
rate used is the `float` nearest to `4/5`, which is above `4/5`, and the
radius `v / omega` of the pair that is synthesized is below `B/2`. -/
theorem clipped_radius_inside_zone :
    to_float32 (2 * (1 / 2 : ℝ) / (5 / 4)) = 13421773 / 16777216
    ∧ (0 : ℝ) < (1 / 2) / to_float32 (2 * (1 / 2 : ℝ) / (5 / 4))
    ∧ (1 / 2 : ℝ) / to_float32 (2 * (1 / 2 : ℝ) / (5 / 4)) < (5 / 4) / 2 := by
  have e : (2 : ℝ) * (1 / 2) / (5 / 4) = 4 / 5 := by norm_num
  rw [e, to_float32_four_fifths]
  norm_num

/-- C18, counterexample: in mode ACKERMANN the command `(0, 1)` has
`|omega| >= 1e-2` and the turning radius 0 inside the zone, and the synthesis
runs on the rate 1, not on the boundary value `2 * 0 / B`. -/
theorem slow_turn_not_clipped :
    (ackermannState ℝ).control_mode = MODE_ACKERMANN
    ∧ clamp (0 : ℝ) (ackermannState ℝ).max_linear_speed_m_per_s = 0
    ∧ clamp (1 : ℝ) (ackermannState ℝ).max_rotation_speed_rad_per_s = 1
    ∧ ¬ |(1 : ℝ)| < 1e-2
    ∧ (0 : ℝ) ≤ 0 / 1
    ∧ (0 : ℝ) / 1 ≤ ((ackermannState ℝ).geom.rover_width
        + (ackermannState ℝ).geom.rover_wheel_width) / 2
    ∧ clip_cmd (ackermannState ℝ).geom (ackermannState ℝ).control_mode 0 1 = some (0, 1)
    ∧ drive_rover realLibm 4 0 1 (ackermannState ℝ)
        = synthesize realLibm 0 1 (stamp_commands 4 (ackermannState ℝ))
    ∧ (1 : ℝ) ≠ 2 * 0 / ((ackermannState ℝ).geom.rover_width
        + (ackermannState ℝ).geom.rover_wheel_width) := by
  have hc1 : clamp (0 : ℝ) (ackermannState ℝ).max_linear_speed_m_per_s = 0 := by
    norm_num [clamp, ackermannState, expiredDirectDrive]
  have hc2 : clamp (1 : ℝ) (ackermannState ℝ).max_rotation_speed_rad_per_s = 1 := by
    norm_num [clamp, ackermannState, expiredDirectDrive]
  have hm : (ackermannState ℝ).control_mode = MODE_ACKERMANN := rfl
  have hclip : clip_cmd (ackermannState ℝ).geom (ackermannState ℝ).control_mode 0 1
      = some ((0 : ℝ), (1 : ℝ)) := by
    rw [hm]
    exact (clip_cmd_small _ _ _).1 (by norm_num)
  refine ⟨hm, hc1, hc2, by norm_num, by norm_num,
    by norm_num [ackermannState, expiredDirectDrive], hclip, ?_, by norm_num⟩
  rw [drive_rover_eq, hc1, hc2, hclip]

/-! ## The targets of `init_rotation` -/

theorem rotation_target_station (g : HDPCGeometry ℝ) (omega : ℝ) (i : Fin 10)
    (hW : g.rover_width ≠ 0) (homega : omega ≠ 0) (hi : 6 ≤ i.val) :
    rotation_targets realLibm g i = station_angle realLibm g 0 omega i
    ∧ rotation_targets realLibm g i
        = (if i = STEERING_FRONT_LEFT then -Real.arctan (g.rover_center_to_front / (g.rover_width / 2))
           else if i = STEERING_FRONT_RIGHT then
             -Real.arctan (g.rover_center_to_front / (-g.rover_width / 2))
           else if i = STEERING_REAR_LEFT then
             -Real.arctan (-g.rover_center_to_rear / (g.rover_width / 2))
           else -Real.arctan (-g.rover_center_to_rear / (-g.rover_width / 2))) := by
  have h1 : g.rover_width / 2 ≠ 0 := div_ne_zero hW (by norm_num)
  have h2 : -g.rover_width / 2 ≠ 0 := div_ne_zero (neg_ne_zero.mpr hW) (by norm_num)
  have a1 := pure_rotation_target g.rover_center_to_front (g.rover_width / 2) omega h1 homega
  have a2 := pure_rotation_target g.rover_center_to_front (-g.rover_width / 2) omega h2 homega
  have a3 := pure_rotation_target (-g.rover_center_to_rear) (g.rover_width / 2) omega h1 homega
  have a4 := pure_rotation_target (-g.rover_center_to_rear) (-g.rover_width / 2) omega h2 homega
  unfold rotation_targets station_angle folded_angle
  by_cases c1 : i = STEERING_FRONT_LEFT
  · rw [if_pos c1, if_pos c1, if_pos c1, a1.1, a1.2]
    exact ⟨rfl, rfl⟩
  · rw [if_neg c1, if_neg c1, if_neg c1]
    by_cases c2 : i = STEERING_FRONT_RIGHT
    · rw [if_pos c2, if_pos c2, if_pos c2, a2.1, a2.2]
      exact ⟨rfl, rfl⟩
    · rw [if_neg c2, if_neg c2, if_neg c2]
      by_cases c3 : i = STEERING_REAR_LEFT
      · rw [if_pos c3, if_pos c3, if_pos c3, a3.1, a3.2]
        exact ⟨rfl, rfl⟩
      · rw [if_neg c3, if_neg c3, if_neg c3]
        have c4 : i = STEERING_REAR_RIGHT := by
          revert c1 c2 c3 hi
          fin_cases i <;>
            simp [ STEERING_FRONT_LEFT, STEERING_FRONT_RIGHT, STEERING_REAR_LEFT,
              STEERING_REAR_RIGHT]
        rw [if_pos c4, a4.1, a4.2]
        exact ⟨rfl, rfl⟩

/-- C19: for a geometry with `rover_width > 0` and every `omega` with
`|omega| >= 1e-2`, each of the four targets of `init_rotation` is the angle
that `vel_and_steering` writes for the same station under the command
`(0, omega)`; hence the four steering positions after the synthesis for
`(0, omega)` are the targets, every target lies in `[-π/2, π/2]`, and the
positions that `init_rotation` commands are those of the synthesis. -/
theorem init_rotation_agrees (omega : ℝ) (s : HDPCDrive ℝ)
    (hW : 0 < s.geom.rover_width) (homega : ¬ |omega| < 1e-2) :
    rotation_targets realLibm s.geom STEERING_FRONT_LEFT
        = (vel_and_steering realLibm 0 omega DRIVE_FRONT_LEFT (some STEERING_FRONT_LEFT)
            s.geom.rover_center_to_front (s.geom.rover_width / 2) s).commands.position
              STEERING_FRONT_LEFT
    ∧ rotation_targets realLibm s.geom STEERING_FRONT_RIGHT
        = (vel_and_steering realLibm 0 omega DRIVE_FRONT_RIGHT (some STEERING_FRONT_RIGHT)
            s.geom.rover_center_to_front (-s.geom.rover_width / 2) s).commands.position
              STEERING_FRONT_RIGHT
    ∧ rotation_targets realLibm s.geom STEERING_REAR_LEFT
        = (vel_and_steering realLibm 0 omega DRIVE_REAR_LEFT (some STEERING_REAR_LEFT)
            (-s.geom.rover_center_to_rear) (s.geom.rover_width / 2) s).commands.position
              STEERING_REAR_LEFT
    ∧ rotation_targets realLibm s.geom STEERING_REAR_RIGHT
        = (vel_and_steering realLibm 0 omega DRIVE_REAR_RIGHT (some STEERING_REAR_RIGHT)
            (-s.geom.rover_center_to_rear) (-s.geom.rover_width / 2) s).commands.position
              STEERING_REAR_RIGHT
    ∧ (∀ i : Fin 10, 6 ≤ i.val →
        (synthesize realLibm 0 omega s).commands.position i = rotation_targets realLibm s.geom i
        ∧ -(realLibm.M_PI / 2) ≤ rotation_targets realLibm s.geom i
        ∧ rotation_targets realLibm s.geom i ≤ realLibm.M_PI / 2)
    ∧ (∀ now : Nat, ∀ i : Fin 10, 6 ≤ i.val →
        max_offset (fun j => realLibm.remainder
          (s.motors.position j - rotation_targets realLibm s.geom j) realLibm.M_PI) > 5e-2 →
        (init_rotation realLibm now s).commands.position i
          = (synthesize realLibm 0 omega s).commands.position i) := by
  have hW0 : s.geom.rover_width ≠ 0 := ne_of_gt hW
  have hw0 : omega ≠ 0 := by
    intro e
    rw [e, abs_zero] at homega
    norm_num at homega
  have hnd : ¬ (|omega| < 1e-2 ∧ |(0 : ℝ)| < 1e-2) := fun c => homega c.1
  have key := fun i hi => rotation_target_station s.geom omega i hW0 hw0 hi
  have hsyn : ∀ i : Fin 10, 6 ≤ i.val →
      (synthesize realLibm 0 omega s).commands.position i = rotation_targets realLibm s.geom i := by
    intro i hi
    rw [synthesize_positions realLibm 0 omega s i hi, if_neg hnd, (key i hi).1]
  have hpos : ∀ (i_vel i : Fin 10) (x y : ℝ),
      (vel_and_steering realLibm 0 omega i_vel (some i) x y s).commands.position i
        = folded_angle realLibm 0 omega x y := by
    intro i_vel i x y
    rw [vel_and_steering_position, if_pos ⟨rfl, hnd⟩]
  refine ⟨?_, ?_, ?_, ?_, fun i hi => ⟨hsyn i hi, ?_, ?_⟩, fun now i hi hbig => ?_⟩
  · rw [hpos, (key STEERING_FRONT_LEFT (by decide)).1]
    simp [station_angle]
  · rw [hpos, (key STEERING_FRONT_RIGHT (by decide)).1]
    simp [station_angle, STEERING_FRONT_LEFT, STEERING_FRONT_RIGHT]
  · rw [hpos, (key STEERING_REAR_LEFT (by decide)).1]
    simp [station_angle, STEERING_FRONT_LEFT, STEERING_FRONT_RIGHT, STEERING_REAR_LEFT]
  · rw [hpos, (key STEERING_REAR_RIGHT (by decide)).1]
    simp [station_angle, STEERING_FRONT_LEFT, STEERING_FRONT_RIGHT, STEERING_REAR_LEFT,
      STEERING_REAR_RIGHT]
  · rw [(key i hi).2]
    have hM : realLibm.M_PI = Real.pi := rfl
    rw [hM]
    split_ifs <;> linarith [Real.arctan_lt_pi_div_two (s.geom.rover_center_to_front / (s.geom.rover_width / 2)),
      Real.arctan_lt_pi_div_two (s.geom.rover_center_to_front / (-s.geom.rover_width / 2)),
      Real.arctan_lt_pi_div_two (-s.geom.rover_center_to_rear / (s.geom.rover_width / 2)),
      Real.arctan_lt_pi_div_two (-s.geom.rover_center_to_rear / (-s.geom.rover_width / 2))]
  · rw [(key i hi).2]
    have hM : realLibm.M_PI = Real.pi := rfl
    rw [hM]
    split_ifs <;> linarith [Real.neg_pi_div_two_lt_arctan (s.geom.rover_center_to_front / (s.geom.rover_width / 2)),
      Real.neg_pi_div_two_lt_arctan (s.geom.rover_center_to_front / (-s.geom.rover_width / 2)),
      Real.neg_pi_div_two_lt_arctan (-s.geom.rover_center_to_rear / (s.geom.rover_width / 2)),
      Real.neg_pi_div_two_lt_arctan (-s.geom.rover_center_to_rear / (-s.geom.rover_width / 2))]
  · rw [hsyn i hi]
    unfold init_rotation
    simp only [if_pos hbig]
    rw [steer_to_position, if_pos hi]

/-- C19, instance: the front-left station under `omega = -1`. -/
theorem init_rotation_agrees_witness :
    rotation_targets realLibm (ackermannState ℝ).geom STEERING_FRONT_LEFT
      = (vel_and_steering realLibm 0 (-1) DRIVE_FRONT_LEFT (some STEERING_FRONT_LEFT)
          (ackermannState ℝ).geom.rover_center_to_front
          ((ackermannState ℝ).geom.rover_width / 2) (ackermannState ℝ)).commands.position
            STEERING_FRONT_LEFT :=
  (init_rotation_agrees (-1) (ackermannState ℝ)
    (by norm_num [ackermannState, expiredDirectDrive]) (by norm_num)).1

/-! ## The watchdog after `set_mode` -/

/-- C21: on every call of `set_mode` that passes the hardware gate the watchdog
is `WATCHDOG_INIT = 100` afterwards, the handler returns true and the response
carries the mode it leaves; this holds when the request is for the current
mode (mode kept, `result = true`), when the table rejects it (INIT_ROTATION,
ROTATION or ACKERMANN requested in a mode other than STOPPED: mode kept,
`result = false`) and when the table accepts it (`result = true`). -/
theorem set_mode_rearms_watchdog {F : Type} [LinearOrderedField F] (read : Option Nat)
    (start_ok : Bool) (req : SetControlModeRequest) (res : SetControlModeResponse)
    (s : HDPCDrive F)
    (gate : read = some SM_DRIVE
      ∨ ((read = some SM_INIT ∨ read = some SM_STOP)
          ∧ (req.request_mode = MODE_STOPPED ∨ start_ok = true))) :
    (set_mode read start_ok req res s).1.watchdog = WATCHDOG_INIT
    ∧ WATCHDOG_INIT = 100
    ∧ (set_mode read start_ok req res s).2.2 = true
    ∧ (set_mode read start_ok req res s).2.1.result_mode
        = (set_mode read start_ok req res s).1.control_mode
    ∧ (s.control_mode = req.request_mode →
        (set_mode read start_ok req res s).1.control_mode = s.control_mode
        ∧ (set_mode read start_ok req res s).2.1.result = true)
    ∧ (s.control_mode ≠ req.request_mode →
        (req.request_mode = MODE_INIT_ROTATION ∨ req.request_mode = MODE_ROTATION
          ∨ req.request_mode = MODE_ACKERMANN) →
        s.control_mode ≠ MODE_STOPPED →
        (set_mode read start_ok req res s).1.control_mode = s.control_mode
        ∧ (set_mode read start_ok req res s).2.1.result = false)
    ∧ (s.control_mode ≠ req.request_mode →
        (req.request_mode = MODE_INIT_ROTATION ∨ req.request_mode = MODE_ROTATION
          ∨ req.request_mode = MODE_ACKERMANN → s.control_mode = MODE_STOPPED) →
        (set_mode read start_ok req res s).2.1.result = true) := by
  obtain ⟨calls, h⟩ := set_mode_gate read start_ok req res s gate
  have hrest := mode_transition_rest req res { s with sm_calls := calls }
  have hmode := mode_transition_mode req res { s with sm_calls := calls }
  have hres := mode_transition_result req res { s with sm_calls := calls }
  rw [h]
  refine ⟨hrest.2.2.1, rfl, hrest.2.1, hrest.1, fun he => ?_, fun hne hreq hst => ?_,
    fun hne himp => ?_⟩
  · rw [hmode, hres]
    simp only [he, if_true, and_self]
  · rw [hmode, hres]
    simp only [hne, if_false]
    rcases hreq with hr | hr | hr
    · simp [hr, hst, MODE_INIT_ROTATION, MODE_ROTATION, MODE_ACKERMANN]
    · simp [hr, hst, MODE_INIT_ROTATION, MODE_ROTATION, MODE_ACKERMANN]
    · simp [hr, hst, MODE_INIT_ROTATION, MODE_ROTATION, MODE_ACKERMANN]
  · rw [hres]
    simp only [hne, if_false]
    by_cases hreq : req.request_mode = MODE_INIT_ROTATION ∨ req.request_mode = MODE_ROTATION
        ∨ req.request_mode = MODE_ACKERMANN
    · simp [hreq, himp hreq]
    · simp [hreq]

/-- C21, instance: ROTATION requested in mode ACKERMANN with the watchdog at 3
and the hardware in DRIVE. -/
theorem set_mode_rearms_watchdog_witness :
    (lateAckermann ℚ).watchdog = 3
    ∧ (set_mode (some SM_DRIVE) false ⟨MODE_ROTATION⟩ ⟨true, 9⟩ (lateAckermann ℚ)).1.watchdog
        = 100
    ∧ (set_mode (some SM_DRIVE) false ⟨MODE_ROTATION⟩ ⟨true, 9⟩ (lateAckermann ℚ)).2.2 = true
    ∧ (set_mode (some SM_DRIVE) false ⟨MODE_ROTATION⟩ ⟨true, 9⟩ (lateAckermann ℚ)).1.control_mode
        = MODE_ACKERMANN
    ∧ (set_mode (some SM_DRIVE) false ⟨MODE_ROTATION⟩ ⟨true, 9⟩ (lateAckermann ℚ)).2.1.result
        = false :=
  have h := set_mode_rearms_watchdog (some SM_DRIVE) false ⟨MODE_ROTATION⟩ ⟨true, 9⟩
    (lateAckermann ℚ) (Or.inl rfl)
  have hr := h.2.2.2.2.2.1 (by decide) (Or.inr (Or.inl rfl)) (by decide)
  ⟨rfl, h.1, h.2.2.1, hr.1, hr.2⟩

end HDPC
